import Mathlib

/-! SoundManager (mixxx/src/soundmanager.cpp): a shallow embedding

The audio routing layer is embedded as pure functions on an explicit
`SoundManager` state record.

* Pointers to heap arrays (`short*`) are embedded by value: `none` is the null
  pointer, `some b` a live array with contents `b`.  Distinct keys of
  `m_inputBuffers` own distinct arrays (each one comes from its own `new`), so
  a by-value map is faithful.
* Undefined behaviour (null dereference, out-of-bounds access, `first()` of an
  empty list, a loop that cannot terminate) is the result `none`.
* `unsigned int` arithmetic wraps at `2^32` and is written with `% 2^32`.
  `unsigned long` and `size_t` quantities are 64-bit sample counts of one
  hardware period; they are kept as unbounded naturals.
* Calls into collaborators (mixing engine, consumers, signals) are recorded
  in the `trace` field in call order.
-/

namespace Mixxx

/-! ## Logical stream identifiers -/

/-- Kinds of logical streams.  The source names `MASTER`, `DECK` and
`VINYLCONTROL`; every other kind of the enumeration is `OTHER n`. -/
inductive AudioPathType where
  | MASTER
  | DECK
  | VINYLCONTROL
  | OTHER (n : Nat)
deriving DecidableEq, Repr

/-- Modelled from the spec: `ChannelGroup` (soundmanagerutil.h is not among the
sources) is "a contiguous span of channels within a device's interleaved
buffer": a base channel offset and a channel count. -/
structure ChannelGroup where
  m_channelBase : Nat
  m_channels : Nat
deriving DecidableEq, Repr

/-- Modelled from the spec: `AudioPath`, the common shape of `AudioInput` and
`AudioOutput` (soundmanagerutil.h is not among the sources): "a (kind,
group-index, channel-group) key". -/
structure AudioPath where
  m_type : AudioPathType
  m_index : Nat
  m_channelGroup : ChannelGroup
deriving DecidableEq, Repr

abbrev AudioInput := AudioPath
abbrev AudioOutput := AudioPath

/-- Modelled from the spec: "Equality and hashing are by kind+index"; the
identity of a logical stream as a hash key. -/
def AudioPath.ident (a : AudioPath) : AudioPathType × Nat := (a.m_type, a.m_index)

def AudioPath.getType (a : AudioPath) : AudioPathType := a.m_type
def AudioPath.getIndex (a : AudioPath) : Nat := a.m_index
def AudioPath.getChannelGroup (a : AudioPath) : ChannelGroup := a.m_channelGroup
def ChannelGroup.getChannelBase (g : ChannelGroup) : Nat := g.m_channelBase
def ChannelGroup.getChannelCount (g : ChannelGroup) : Nat := g.m_channels

/-! ## QHash keyed by a logical stream -/

/-- A `QHash<AudioPath, V>`: entries in insertion order, at most one entry per
identity when built through `insert` / `index`. -/
abbrev QHash (V : Type) := List (AudioPath × V)

namespace QHash

variable {V : Type}

/-- `QHash::contains`. -/
def contains : QHash V → AudioPath → Bool
  | [], _ => false
  | (k', _) :: t, k => if k'.ident = k.ident then true else contains t k

/-- The stored value of a key, when the key is present. -/
def value? : QHash V → AudioPath → Option V
  | [], _ => none
  | (k', v') :: t, k => if k'.ident = k.ident then some v' else value? t k

/-- `QHash::insert`, also the write `h[k] = v`: an existing entry keeps its
key object and takes the new value, a missing one is added. -/
def insert : QHash V → AudioPath → V → QHash V
  | [], k, v => [(k, v)]
  | (k', v') :: t, k, v =>
    if k'.ident = k.ident then (k', v) :: t else (k', v') :: insert t k v

/-- The read `h[k]` on a non-const hash: a missing key is first inserted with
the default value `dflt` (a null pointer for the hashes of this file). -/
def index (h : QHash V) (k : AudioPath) (dflt : V) : V × QHash V :=
  match value? h k with
  | some v => (v, h)
  | none => (dflt, insert h k dflt)

/-- `QHash::keys`. -/
def keys (h : QHash V) : List AudioPath := h.map Prod.fst

end QHash

/-! ## Sample buffers -/

abbrev Sample := Int

/-- Contents of a heap array of `short`. -/
abbrev Buffer := List Sample

/-- A `short*`: `none` is the null pointer. -/
abbrev BufferPtr := Option Buffer

/-- The read `p[i]`; no result for a null pointer or an index outside the array. -/
def readSample (p : BufferPtr) (i : Nat) : Option Sample :=
  match p with
  | none => none
  | some b => b[i]?

/-- The write `p[i] = v`; no result for a null pointer or an index outside the
array. -/
def writeSample (p : BufferPtr) (i : Nat) (v : Sample) : Option BufferPtr :=
  match p with
  | none => none
  | some b => if i < b.length then some (some (b.set i v)) else none

/-- The call `memcpy(dst, src, sizeof(short) * n)`: the first `n` samples of
`dst` become those of `src`.  No result when either pointer is null or either
array is shorter than `n`. -/
def memcpy (dst src : BufferPtr) (n : Nat) : Option BufferPtr :=
  match dst, src with
  | some d, some r =>
    if n ≤ d.length ∧ n ≤ r.length then some (some (r.take n ++ d.drop n)) else none
  | _, _ => none

/-- Bound of `unsigned int`. -/
def UINT : Nat := 2 ^ 32

/-- Bound of `unsigned long` (64 bits wide). -/
def ULONG : Nat := 2 ^ 64

/-! ## Collaborator calls and state -/

/-- Calls that leave the sound manager, and the two mutex transitions, in the
order in which they happen. -/
inductive Event where
  | sync
  | process (pIn pOut iBufferSize : Nat)
  | pushPassthroughBuffer (index : Nat) (buffer : BufferPtr) (iBufferSize : Nat)
  | receiveBuffer (dest : Nat) (input : AudioInput) (buffer : BufferPtr) (iNumFrames : Nat)
  | onInputConnected (dest : Nat) (input : AudioInput)
  | onInputDisconnected (dest : Nat) (input : AudioInput)
  | mutexLocked
  | mutexUnlocked
  | devicesUpdated
  | devicesSetup
  | outputRegistered (output : AudioOutput) (src : Option Nat)
  | inputRegistered (input : AudioInput) (dest : Option Nat)
  | clockReferenceNotSet (device : Nat)
deriving DecidableEq, Repr

/-- Modelled from the spec: a `SoundDevice` (sounddevice.cpp and
sounddeviceportaudio.cpp are not among the sources) is a device descriptor
(host API name, display name, internal unique name, maximum input/output
channel counts) with its session state: negotiated sample rate and frames per
buffer, the ordered lists of assigned inputs and outputs, and an open/closed
state.  `platformOpenError` is what the platform answers when the device is
opened (`OK` or an error code). -/
structure SoundDevice where
  m_hostAPI : String := ""
  m_strInternalName : String := ""
  m_strDisplayName : String := ""
  m_iNumOutputChannels : Int := 0
  m_iNumInputChannels : Int := 0
  m_audioOutputs : List AudioOutput := []
  m_audioInputs : List AudioInput := []
  m_dSampleRate : Nat := 0
  m_framesPerBuffer : Nat := 0
  m_bOpen : Bool := false
  platformOpenError : Int := 0
deriving DecidableEq, Repr

/-- Modelled from the spec: the configuration snapshot `SoundManagerConfig`
(soundmanagerconfig.cpp is not among the sources): chosen API, per-device
input/output assignments (multi-hashes keyed by the device's internal name,
listed in the order `values` yields them), sample rate and buffer size. -/
structure SoundManagerConfig where
  m_api : String := ""
  m_sampleRate : Nat := 0
  m_framesPerBuffer : Nat := 0
  m_outputs : List (String × AudioOutput) := []
  m_inputs : List (String × AudioInput) := []
deriving DecidableEq, Repr

/-- `QMultiHash::values(key)`. -/
def multiValues {V : Type} (m : List (String × V)) (key : String) : List V :=
  (m.filter (fun e => e.1 = key)).map Prod.snd

/-- The members of `SoundManager` that the embedded functions read or write.
A device pointer is the position of the device in `m_devices`; a pointer to an
`AudioSource`, `AudioDestination` or engine buffer is an abstract address. -/
structure SoundManager where
  m_devices : List SoundDevice := []
  m_pClkRefDevice : Option Nat := none
  m_pErrorDevice : Option Nat := none
  iNumDevicesOpenedForOutput : Int := 0
  iNumDevicesOpenedForInput : Int := 0
  m_outputBuffers : QHash (Option Nat) := []
  m_inputBuffers : QHash BufferPtr := []
  m_registeredSources : QHash (Option Nat) := []
  m_registeredDestinations : QHash (Option Nat) := []
  m_bPassthroughActive0 : Bool := false
  m_bPassthroughActive1 : Bool := false
  /-- Value of the control `[Channel1],inputpassthrough` behind its proxy. -/
  m_pControlObjectInputPassthrough1 : Int := 0
  /-- Value of the control `[Channel2],inputpassthrough` behind its proxy. -/
  m_pControlObjectInputPassthrough2 : Int := 0
  /-- Value of the control `[Channel1],vinylcontrol_status` behind its proxy. -/
  m_pControlObjectVinylStatus1 : Int := 0
  /-- Value of the control `[Channel2],vinylcontrol_status` behind its proxy. -/
  m_pControlObjectVinylStatus2 : Int := 0
  m_config : SoundManagerConfig := {}
  m_paInitialized : Bool := false
  m_vinylControl : List Nat := []
  /-- Whether `requestBufferMutex` is held (by some callback in flight). -/
  requestBufferMutex : Bool := false
  /-- Next unused object address, handed out by `new`. -/
  heapNext : Nat := 0
  trace : List Event := []
deriving DecidableEq, Repr

/-! ## The callback path -/

/-- `SoundManager::requestBuffer`.  `outputs` and `streamTime` are unused
(`Q_UNUSED(outputs)`); the whole hash `m_outputBuffers` is returned.
`iFramesPerBuffer` is an `unsigned long`, so the product `iFramesPerBuffer*2`
wraps at `ULONG`. -/
def SoundManager.requestBuffer (s : SoundManager) (_outputs : List AudioOutput)
    (iFramesPerBuffer : Nat) (device : Nat) (_streamTime : Int) :
    QHash (Option Nat) × SoundManager :=
  -- if (device == m_pClkRefDevice && requestBufferMutex.tryLock())
  if some device = s.m_pClkRefDevice ∧ s.requestBufferMutex = false then
    let s1 := { s with requestBufferMutex := true, trace := s.trace ++ [Event.mutexLocked] }
    -- sync();
    let s2 := { s1 with trace := s1.trace ++ [Event.sync] }
    -- m_pMaster->process(0, 0, iFramesPerBuffer*2);
    let s3 := { s2 with trace := s2.trace ++ [Event.process 0 0 (iFramesPerBuffer * 2 % ULONG)] }
    -- requestBufferMutex.unlock();
    let s4 := { s3 with requestBufferMutex := false, trace := s3.trace ++ [Event.mutexUnlocked] }
    (s4.m_outputBuffers, s4)
  else
    (s.m_outputBuffers, s)

/-- The loop `for (int iChannel = 0; iChannel < iChannelCount; ++iChannel)` of
`pushBuffer`: one frame of one input. -/
def copyChannels (inputBuffer : BufferPtr)
    (iFrameBase iLocalFrameBase iChannelBase iChannelCount : Nat)
    (pInputBuffer : BufferPtr) : Option BufferPtr :=
  (List.range iChannelCount).foldlM
    (fun p iChannel =>
      -- pInputBuffer[iLocalFrameBase + iChannel] = inputBuffer[iFrameBase + iChannelBase + iChannel];
      (readSample inputBuffer ((iFrameBase + iChannelBase + iChannel) % UINT)).bind
        (fun v => writeSample p ((iLocalFrameBase + iChannel) % UINT) v))
    pInputBuffer

/-- The loop `for (unsigned int iFrameNo = 0; iFrameNo < iFramesPerBuffer; ++iFrameNo)`
of `pushBuffer`.  The counter is an `unsigned int` compared with an
`unsigned long`: for `iFramesPerBuffer ≥ 2^32` it wraps before it reaches the
bound and the loop has no exit. -/
def deinterleave (inputBuffer : BufferPtr) (iFramesPerBuffer iFrameSize : Nat)
    (iChannelCount iChannelBase : Nat) (pInputBuffer : BufferPtr) : Option BufferPtr :=
  if UINT ≤ iFramesPerBuffer then none
  else
    (List.range iFramesPerBuffer).foldlM
      (fun p iFrameNo =>
        -- iFrameBase = iFrameNo * iFrameSize; iLocalFrameBase = iFrameNo * iChannelCount;
        copyChannels inputBuffer ((iFrameNo * iFrameSize) % UINT)
          ((iFrameNo * iChannelCount) % UINT) iChannelBase iChannelCount p)
      pInputBuffer

/-- The `iFrameSize == 2` branch of `pushBuffer`: every listed input gets
`memcpy(m_inputBuffers[in], inputBuffer, sizeof(*inputBuffer) * iFrameSize * iFramesPerBuffer)`. -/
def bulkCopyLoop (inputBuffer : BufferPtr) (iFramesPerBuffer iFrameSize : Nat) :
    List AudioInput → QHash BufferPtr → Option (QHash BufferPtr)
  | [], h => some h
  | inp :: rest, h =>
    let (p, h1) := QHash.index h inp none
    match memcpy p inputBuffer (iFrameSize * iFramesPerBuffer) with
    | none => none
    | some p' => bulkCopyLoop inputBuffer iFramesPerBuffer iFrameSize rest (QHash.insert h1 inp p')

/-- The `else` branch of `pushBuffer`: every listed input has its channel
group copied out of the interleaved buffer, frame by frame. -/
def deinterleaveLoop (inputBuffer : BufferPtr) (iFramesPerBuffer iFrameSize : Nat) :
    List AudioInput → QHash BufferPtr → Option (QHash BufferPtr)
  | [], h => some h
  | inp :: rest, h =>
    -- short* pInputBuffer = m_inputBuffers[in];
    let (p, h1) := QHash.index h inp none
    let chanGroup := inp.getChannelGroup
    let iChannelCount := chanGroup.getChannelCount
    let iChannelBase := chanGroup.getChannelBase
    match deinterleave inputBuffer iFramesPerBuffer iFrameSize iChannelCount iChannelBase p with
    | none => none
    | some p' => deinterleaveLoop inputBuffer iFramesPerBuffer iFrameSize rest (QHash.insert h1 inp p')

/-- The calls one listed input gets in the second loop of `pushBuffer`. -/
def dispatchInput (s : SoundManager) (iFramesPerBuffer iFrameSize : Nat) (inp : AudioInput) :
    List Event :=
  -- if (!m_inputBuffers.contains(in)) continue;
  if QHash.contains s.m_inputBuffers inp = false then []
  else
    let pInputBuffer : BufferPtr := (QHash.value? s.m_inputBuffers inp).getD none
    let passthrough : List Event :=
      -- if (in.getIndex() >= 0 && in.getIndex() < 2) if (m_bPassthroughActive[in.getIndex()])
      if inp.getIndex < 2 ∧
          (if inp.getIndex = 0 then s.m_bPassthroughActive0 else s.m_bPassthroughActive1) = true
      then [Event.pushPassthroughBuffer inp.getIndex pInputBuffer (iFrameSize * iFramesPerBuffer)]
      else []
    let receive : List Event :=
      -- if (m_registeredDestinations.contains(in)) { destination = m_registeredDestinations[in]; ...
      if QHash.contains s.m_registeredDestinations inp = true then
        match (QHash.value? s.m_registeredDestinations inp).getD none with
        | some destination => [Event.receiveBuffer destination inp pInputBuffer iFramesPerBuffer]
        | none => []
      else []
    passthrough ++ receive

/-- `SoundManager::pushBuffer`; no result where the code has undefined behaviour. -/
def SoundManager.pushBuffer (s : SoundManager) (inputs : List AudioInput)
    (inputBuffer : BufferPtr) (iFramesPerBuffer iFrameSize : Nat) : Option SoundManager :=
  let copied :=
    if iFrameSize = 2 then bulkCopyLoop inputBuffer iFramesPerBuffer iFrameSize inputs s.m_inputBuffers
    else deinterleaveLoop inputBuffer iFramesPerBuffer iFrameSize inputs s.m_inputBuffers
  match copied with
  | none => none
  | some h =>
    let s1 := { s with m_inputBuffers := h }
    -- if (inputBuffer) { for each input ... }
    if inputBuffer.isSome then
      some { s1 with trace := s1.trace ++ (inputs.map (dispatchInput s1 iFramesPerBuffer iFrameSize)).flatten }
    else some s1

/-! ## Devices -/

/-- The success code `OK` of the absent header; only `OK ≠ ERR` is used. -/
def OK : Int := 0

/-- The failure code `ERR` of the absent header; only `OK ≠ ERR` is used. -/
def ERR : Int := -1

/-- Modelled from the spec: the error `InsufficientChannels` of `addInput` /
`addOutput` (sounddevice.cpp is not among the sources); some code other than `OK`. -/
def InsufficientChannels : Int := 2

/-- Modelled from the spec: `clearInputs()` "reset assignments before a
reconfiguration pass" (sounddevice.cpp is not among the sources). -/
def SoundDevice.clearInputs (d : SoundDevice) : SoundDevice := { d with m_audioInputs := [] }

/-- Modelled from the spec: `clearOutputs()` "reset assignments before a
reconfiguration pass" (sounddevice.cpp is not among the sources). -/
def SoundDevice.clearOutputs (d : SoundDevice) : SoundDevice := { d with m_audioOutputs := [] }

/-- Channels taken by a list of assigned streams. -/
def channelsUsed (l : List AudioPath) : Nat := (l.map (fun a => a.m_channelGroup.m_channels)).sum

/-- Modelled from the spec: `addInput(id)` "assign[s] the next unused
channel-group of the requested width for that identifier's stream kind; fail[s]
with `InsufficientChannels` if the device lacks capacity" (sounddevice.cpp is
not among the sources). -/
def SoundDevice.addInput (d : SoundDevice) (inp : AudioInput) : Int × SoundDevice :=
  let base := channelsUsed d.m_audioInputs
  if ((base + inp.m_channelGroup.m_channels : Nat) : Int) ≤ d.m_iNumInputChannels then
    (OK, { d with m_audioInputs := d.m_audioInputs ++
        [{ inp with m_channelGroup := ⟨base, inp.m_channelGroup.m_channels⟩ }] })
  else (InsufficientChannels, d)

/-- Modelled from the spec: `addOutput(id)` "assign[s] the next unused
channel-group of the requested width for that identifier's stream kind; fail[s]
with `InsufficientChannels` if the device lacks capacity" (sounddevice.cpp is
not among the sources). -/
def SoundDevice.addOutput (d : SoundDevice) (out : AudioOutput) : Int × SoundDevice :=
  let base := channelsUsed d.m_audioOutputs
  if ((base + out.m_channelGroup.m_channels : Nat) : Int) ≤ d.m_iNumOutputChannels then
    (OK, { d with m_audioOutputs := d.m_audioOutputs ++
        [{ out with m_channelGroup := ⟨base, out.m_channelGroup.m_channels⟩ }] })
  else (InsufficientChannels, d)

/-- Modelled from the spec: `open(sampleRate, framesPerBuffer) -> Result`
"must leave the session in the closed state on any failure"
(sounddeviceportaudio.cpp is not among the sources); whether the platform
accepts the stream is the device's `platformOpenError`. -/
def SoundDevice.open (d : SoundDevice) : Int × SoundDevice :=
  if d.platformOpenError = OK then (OK, { d with m_bOpen := true })
  else (d.platformOpenError, { d with m_bOpen := false })

/-- Modelled from the spec: `close()` "is idempotent and safe to call on an
unopened session" (sounddeviceportaudio.cpp is not among the sources). -/
def SoundDevice.close (d : SoundDevice) : SoundDevice := { d with m_bOpen := false }

/-- What the embedded functions take from outside `soundmanager.cpp`. -/
structure Env where
  /-- Whether `__VINYLCONTROL__` is defined. -/
  vinylControl : Bool := false
  /-- The constant `MAX_BUFFER_LEN` of the absent header. -/
  MAX_BUFFER_LEN : Nat := 160000
  /-- Channel width the `AudioInput(type, channelBase, index)` constructor gives a kind. -/
  channelsNeededForType : AudioPathType → Nat := fun _ => 2
  /-- The call `src->buffer(out)` on the `AudioSource` at address `src`; `none` is NULL. -/
  sourceBuffer : Nat → AudioOutput → Option Nat := fun _ _ => none
  /-- The call `m_config.filterOutputs(this)`, as the configuration it leaves. -/
  filterOutputs : List SoundDevice → SoundManagerConfig → SoundManagerConfig := fun _ c => c
  /-- The call `m_config.filterInputs(this)`, as the configuration it leaves. -/
  filterInputs : List SoundDevice → SoundManagerConfig → SoundManagerConfig := fun _ c => c
  /-- Whether `Pa_Initialize()` reports an error. -/
  paInitializeError : Bool := false
  /-- The answer of `Pa_GetDeviceCount()`. -/
  paDeviceCount : Int := 0
  /-- The device built from `Pa_GetDeviceInfo(i)`; `none` when the info is NULL. -/
  paDeviceInfo : Nat → Option SoundDevice := fun _ => none
  /-- The constant `VINYL_STATUS_PASSTHROUGH` of the absent header. -/
  VINYL_STATUS_PASSTHROUGH : Int := 4

/-! ## Registration -/

/-- `SoundManager::registerOutput`. -/
def SoundManager.registerOutput (s : SoundManager) (output : AudioOutput) (src : Option Nat) :
    SoundManager :=
  { s with
    m_registeredSources := QHash.insert s.m_registeredSources output src
    trace := s.trace ++ [Event.outputRegistered output src] }

/-- `SoundManager::registerInput`. -/
def SoundManager.registerInput (s : SoundManager) (input : AudioInput) (dest : Option Nat) :
    SoundManager :=
  { s with
    m_registeredDestinations := QHash.insert s.m_registeredDestinations input dest
    trace := s.trace ++ [Event.inputRegistered input dest] }

/-- `SoundManager::registeredOutputs`. -/
def SoundManager.registeredOutputs (s : SoundManager) : List AudioOutput :=
  QHash.keys s.m_registeredSources

/-- `SoundManager::registeredInputs`. -/
def SoundManager.registeredInputs (s : SoundManager) : List AudioInput :=
  QHash.keys s.m_registeredDestinations

/-! ## Closing and enumerating devices -/

/-- `SoundManager::clearOperativeVariables`. -/
def SoundManager.clearOperativeVariables (s : SoundManager) : SoundManager :=
  { s with iNumDevicesOpenedForOutput := 0, iNumDevicesOpenedForInput := 0, m_pClkRefDevice := none }

/-- The `foreach (AudioInput in, m_inputBuffers.keys())` loop of `closeDevices`:
the `onInputDisconnected` calls it makes.  A registered null destination is
dereferenced. -/
def disconnectLoop (dests : QHash (Option Nat)) : List AudioInput → Option (List Event)
  | [] => some []
  | inp :: rest =>
    if QHash.contains dests inp = true then
      match (QHash.value? dests inp).getD none with
      | none => none
      | some dest => (disconnectLoop dests rest).map (fun es => Event.onInputDisconnected dest inp :: es)
    else disconnectLoop dests rest

/-- `SoundManager::closeDevices`. -/
def SoundManager.closeDevices (env : Env) (s : SoundManager) : Option SoundManager :=
  -- while (dev_it.hasNext()) dev_it.next()->close();
  let s1 := { s with m_devices := s.m_devices.map SoundDevice.close }
  let s2 := s1.clearOperativeVariables
  -- m_outputBuffers.clear();
  let s3 := { s2 with m_outputBuffers := [] }
  match disconnectLoop s3.m_registeredDestinations (QHash.keys s3.m_inputBuffers) with
  | none => none
  | some es =>
    -- every buffer is deleted, then m_inputBuffers.clear();
    let s4 := { s3 with m_inputBuffers := [], trace := s3.trace ++ es }
    -- #ifdef __VINYLCONTROL__ : every proxy is taken off m_vinylControl and deleted
    some (if env.vinylControl then { s4 with m_vinylControl := [] } else s4)

/-- `SoundManager::clearDeviceList`. -/
def SoundManager.clearDeviceList (env : Env) (s : SoundManager) : Option SoundManager :=
  match s.closeDevices env with
  | none => none
  | some s1 =>
    -- while (!m_devices.empty()) delete m_devices.takeLast();
    -- if (m_paInitialized) { Pa_Terminate(); m_paInitialized = false; }
    some { s1 with m_devices := [], m_paInitialized := false }

/-- `SoundManager::queryDevices` (the member `m_jackSampleRate` is left out). -/
def SoundManager.queryDevices (env : Env) (s : SoundManager) : Option SoundManager :=
  match s.clearDeviceList env with
  | none => none
  | some s1 =>
    -- if (!m_paInitialized) { err = Pa_Initialize(); m_paInitialized = true; }
    let err : Bool := if s1.m_paInitialized = false then env.paInitializeError else false
    let s2 := if s1.m_paInitialized = false then { s1 with m_paInitialized := true } else s1
    if err = true then some { s2 with m_paInitialized := false }
    else if env.paDeviceCount < 0 then some s2
    else
      -- for (int i = 0; i < iNumDevices; i++) { if (!deviceInfo) continue; m_devices.push_back(...) }
      let devices := (List.range env.paDeviceCount.toNat).filterMap env.paDeviceInfo
      some { s2 with m_devices := s2.m_devices ++ devices, trace := s2.trace ++ [Event.devicesUpdated] }

/-- The devices of a list that satisfy `p`, as pointers (positions counted from `i`). -/
def matchingDevices (p : SoundDevice → Bool) : List SoundDevice → Nat → List Nat
  | [], _ => []
  | d :: t, i => if p d = true then i :: matchingDevices p t (i + 1) else matchingDevices p t (i + 1)

/-- The filter `bMatchedCriteria` of `getDeviceList`. -/
def matchesCriteria (filterAPI : String) (bOutputDevices bInputDevices : Bool)
    (device : SoundDevice) : Bool :=
  decide (device.m_hostAPI = filterAPI)
    && (!bOutputDevices || decide (0 < device.m_iNumOutputChannels))
    && (!bInputDevices || decide (1 < device.m_iNumInputChannels))

/-- `SoundManager::getDeviceList`. -/
def SoundManager.getDeviceList (env : Env) (s : SoundManager) (filterAPI : String)
    (bOutputDevices bInputDevices : Bool) : Option (List Nat × SoundManager) :=
  -- if (m_devices.empty()) this->queryDevices();
  match (if s.m_devices.isEmpty then s.queryDevices env else some s) with
  | none => none
  | some s1 =>
    if filterAPI = "None" then some ([], s1)
    else some (matchingDevices (matchesCriteria filterAPI bOutputDevices bInputDevices) s1.m_devices 0, s1)

/-! ## Device setup -/

/-- Where a loop body of `setupDevices` leaves control: it falls through with a
value, or executes `return err;` in a state. -/
inductive Flow (α : Type) where
  | next (a : α)
  | ret (err : Int) (s : SoundManager)

/-- The statement `if (!m_inputBuffers.contains(in)) m_inputBuffers[in] = new short[MAX_BUFFER_LEN];`
of `setupDevices` (the fresh array is taken to hold zeros). -/
def allocInputBuffer (env : Env) (inp : AudioInput) (s : SoundManager) : SoundManager :=
  if QHash.contains s.m_inputBuffers inp = false then
    { s with m_inputBuffers :=
        QHash.insert s.m_inputBuffers inp (some (List.replicate env.MAX_BUFFER_LEN 0)) }
  else s

/-- The statement
`if (m_registeredDestinations.contains(in)) m_registeredDestinations[in]->onInputConnected(in);`
of `setupDevices`.  A registered null consumer is dereferenced. -/
def notifyConnected (inp : AudioInput) (s : SoundManager) : Option SoundManager :=
  if QHash.contains s.m_registeredDestinations inp = true then
    match (QHash.value? s.m_registeredDestinations inp).getD none with
    | none => none
    | some dest => some { s with trace := s.trace ++ [Event.onInputConnected dest inp] }
  else some s

/-- The part of the input loop's body of `setupDevices` after `addInput`. -/
def connectInput (env : Env) (inp : AudioInput) (s : SoundManager) : Option SoundManager :=
  notifyConnected inp (allocInputBuffer env inp s)

/-- The loop `foreach (AudioInput in, m_config.getInputs().values(name))` of
`setupDevices` for one device.  On `return err` the device is handed back as it
is at that point. -/
def inputLoop (env : Env) : List AudioInput → SoundDevice → SoundManager →
    Option (Flow (SoundDevice × SoundManager) × SoundDevice)
  | [], device, s => some (Flow.next (device, s), device)
  | inp :: rest, device, s =>
    -- err = device->addInput(in); if (err != OK) return err;
    let (err, device1) := device.addInput inp
    if err ≠ OK then some (Flow.ret err s, device1)
    else
      match connectInput env inp s with
      | none => none
      | some s1 => inputLoop env rest device1 s1

/-- The loop `foreach (AudioOutput out, m_config.getOutputs().values(name))` of
`setupDevices` for the device with pointer `devPtr`. -/
def outputLoop (env : Env) (devPtr : Nat) : List AudioOutput → SoundDevice → SoundManager →
    Option (Flow (SoundDevice × SoundManager) × SoundDevice)
  | [], device, s => some (Flow.next (device, s), device)
  | out :: rest, device, s =>
    -- m_registeredSources[out]->buffer(out): a missing key is inserted with a
    -- null source, and a null source is dereferenced
    match (QHash.index s.m_registeredSources out none).1 with
    | none => none
    | some src =>
      -- if (m_registeredSources[out]->buffer(out) == NULL) continue;
      match env.sourceBuffer src out with
      | none => outputLoop env devPtr rest device s
      | some buffer =>
        -- err = device->addOutput(out); if (err != OK) return err;
        let (err, device1) := device.addOutput out
        if err ≠ OK then some (Flow.ret err s, device1)
        else
          -- m_outputBuffers[out] = m_registeredSources[out]->buffer(out);
          let s1 := { s with m_outputBuffers := QHash.insert s.m_outputBuffers out (some buffer) }
          let s2 :=
            if out.getType = AudioPathType.MASTER then { s1 with m_pClkRefDevice := some devPtr }
            else if out.getType = AudioPathType.DECK ∧ s1.m_pClkRefDevice = none then
              { s1 with m_pClkRefDevice := some devPtr }
            else s1
          outputLoop env devPtr rest device1 s2

/-- Local variables of `setupDevices` that live across the device loop. -/
structure SetupState where
  s : SoundManager
  devicesAttempted : Int
  devicesOpened : Int

/-- The body of `foreach (SoundDevice *device, m_devices)` in `setupDevices` for
the device with pointer `devPtr`.  The second component is the device as the
body leaves it. -/
def setupDevice (env : Env) (devPtr : Nat) (device : SoundDevice) (st : SetupState) :
    Option (Flow SetupState × SoundDevice) :=
  let inputs := multiValues st.s.m_config.m_inputs device.m_strInternalName
  let outputs := multiValues st.s.m_config.m_outputs device.m_strInternalName
  -- isInput / isOutput become true in the first iteration of their loop
  let isInput : Bool := !inputs.isEmpty
  let isOutput : Bool := !outputs.isEmpty
  -- device->clearInputs(); device->clearOutputs(); m_pErrorDevice = device;
  let device0 := device.clearInputs.clearOutputs
  let s0 := { st.s with m_pErrorDevice := some devPtr }
  match inputLoop env inputs device0 s0 with
  | none => none
  | some (Flow.ret err s1, device1) => some (Flow.ret err s1, device1)
  | some (Flow.next (device1, s1), _) =>
    match outputLoop env devPtr outputs device1 s1 with
    | none => none
    | some (Flow.ret err s2, device2) => some (Flow.ret err s2, device2)
    | some (Flow.next (device2, s2), _) =>
      if isInput || isOutput then
        -- device->setSampleRate(...); device->setFramesPerBuffer(...); ++devicesAttempted;
        let device3 := { device2 with
          m_dSampleRate := s2.m_config.m_sampleRate
          m_framesPerBuffer := s2.m_config.m_framesPerBuffer }
        -- err = device->open(); if (err != OK) return err;
        let (err, device4) := device3.open
        if err ≠ OK then some (Flow.ret err s2, device4)
        else
          let s3 := { s2 with
            iNumDevicesOpenedForOutput :=
              if isOutput then s2.iNumDevicesOpenedForOutput + 1 else s2.iNumDevicesOpenedForOutput
            iNumDevicesOpenedForInput :=
              if isInput then s2.iNumDevicesOpenedForInput + 1 else s2.iNumDevicesOpenedForInput }
          some (Flow.next ⟨s3, st.devicesAttempted + 1, st.devicesOpened + 1⟩, device4)
      else some (Flow.next ⟨s2, st.devicesAttempted, st.devicesOpened⟩, device2)

/-- The loop `foreach (SoundDevice *device, m_devices)` of `setupDevices`.
The devices are objects updated in place: `done` are the devices already
visited (as the loop left them), the second list those still to visit, and the
pointer of a device is its position `done.length`.  The field `m_devices` is
brought up to date wherever control leaves the loop. -/
def deviceLoop (env : Env) : List SoundDevice → List SoundDevice → SetupState →
    Option (Flow SetupState)
  | done, [], st => some (Flow.next { st with s := { st.s with m_devices := done } })
  | done, device :: rest, st =>
    match setupDevice env done.length device st with
    | none => none
    | some (Flow.ret err s, device1) =>
      some (Flow.ret err { s with m_devices := done ++ device1 :: rest })
    | some (Flow.next st1, device1) => deviceLoop env (done ++ [device1]) rest st1

/-- The `#ifdef __VINYLCONTROL__` block of `setupDevices`: two fresh proxies
are created and registered for the inputs `VINYLCONTROL` 0 and 1. -/
def initVinylControl (env : Env) (s : SoundManager) : SoundManager :=
  let p0 := s.heapNext
  let p1 := s.heapNext + 1
  let s1 := { s with m_vinylControl := s.m_vinylControl ++ [p0, p1], heapNext := s.heapNext + 2 }
  let width := env.channelsNeededForType AudioPathType.VINYLCONTROL
  let s2 := s1.registerInput ⟨AudioPathType.VINYLCONTROL, 0, ⟨0, width⟩⟩ (s1.m_vinylControl[0]?)
  s2.registerInput ⟨AudioPathType.VINYLCONTROL, 1, ⟨0, width⟩⟩ (s1.m_vinylControl[1]?)

/-- The block `if (!m_pClkRefDevice) { ... }` of `setupDevices`: the first
device of `getDeviceList(m_config.getAPI(), true, false)` becomes the clock
reference.  `first()` of an empty list has no result. -/
def clockReferenceFallback (env : Env) (s : SoundManager) : Option SoundManager :=
  if s.m_pClkRefDevice = none then
    match s.getDeviceList env s.m_config.m_api true false with
    | none => none
    | some ([], _) => none
    | some (device :: _, s1) =>
      some { s1 with
        m_pClkRefDevice := some device
        trace := s1.trace ++ [Event.clockReferenceNotSet device] }
  else some s

/-- `SoundManager::setupDevices`: the returned code and the state it leaves;
no result where the code has undefined behaviour. -/
def SoundManager.setupDevices (env : Env) (s : SoundManager) : Option (Int × SoundManager) :=
  let s1 := s.clearOperativeVariables
  -- m_config.filterOutputs(this); m_config.filterInputs(this);
  let s2 := { s1 with
    m_config := env.filterInputs s1.m_devices (env.filterOutputs s1.m_devices s1.m_config) }
  match s2.closeDevices env with
  | none => none
  | some s3 =>
    let s4 := if env.vinylControl then initVinylControl env s3 else s3
    match deviceLoop env [] s4.m_devices ⟨s4, 0, 0⟩ with
    | none => none
    | some (Flow.ret err s5) => some (err, s5)
    | some (Flow.next st) =>
      match clockReferenceFallback env st.s with
      | none => none
      | some s6 =>
        -- if (devicesAttempted == devicesOpened) { emit(devicesSetup()); return OK; }
        if st.devicesAttempted = st.devicesOpened then
          some (OK, { s6 with trace := s6.trace ++ [Event.devicesSetup] })
        else some (ERR, { s6 with m_pErrorDevice := none })

/-! ## The pass-through toggle -/

/-- The element `m_bPassthroughActive[channel]` (channel 0 or 1). -/
def passthroughActive (s : SoundManager) (channel : Nat) : Bool :=
  if channel = 0 then s.m_bPassthroughActive0 else s.m_bPassthroughActive1

/-- The write `m_bPassthroughActive[channel] = b` (channel 0 or 1). -/
def setPassthroughActive (s : SoundManager) (channel : Nat) (b : Bool) : SoundManager :=
  if channel = 0 then { s with m_bPassthroughActive0 := b }
  else { s with m_bPassthroughActive1 := b }

/-- The value of the toggle control of a channel (channel 0 or 1). -/
def inputPassthroughControl (s : SoundManager) (channel : Nat) : Int :=
  if channel = 0 then s.m_pControlObjectInputPassthrough1 else s.m_pControlObjectInputPassthrough2

/-- A toggle control that takes the value and calls nobody back. -/
def storeInputPassthrough (channel : Nat) (s : SoundManager) (v : Int) : Option SoundManager :=
  some (if channel = 0 then { s with m_pControlObjectInputPassthrough1 := v }
        else { s with m_pControlObjectInputPassthrough2 := v })

/-- Modelled from the spec: `ControlObjectThreadMain::slotSet` on the
vinyl-status control of a channel (controlobjectthreadmain.cpp is not among the
sources); the control takes the value, and the sound manager connects no
handler to it. -/
def slotSetVinylStatus (channel : Nat) (s : SoundManager) (v : Int) : SoundManager :=
  if channel = 0 then { s with m_pControlObjectVinylStatus1 := v }
  else { s with m_pControlObjectVinylStatus2 := v }

/-- The statement
`if (m_bPassthroughActive[channel] != (bool)toggle) m_bPassthroughActive[channel] = (bool)toggle;`
that opens both handlers. -/
def latchPassthrough (s : SoundManager) (channel : Nat) (b : Bool) : SoundManager :=
  if passthroughActive s channel ≠ b then setPassthroughActive s channel b else s

/-- The body shared by `SoundManager::slotInputPassthrough1` (channel 0) and
`SoundManager::slotInputPassthrough2` (channel 1), which differ in the channel
only.  `(bool)toggle` is `toggle ≠ 0`; `slotSet` is the call
`m_pControlObjectInputPassthroughN->slotSet(...)`. -/
def inputPassthroughToggled (env : Env) (channel : Nat)
    (slotSet : SoundManager → Int → Option SoundManager) (s : SoundManager) (toggle : Int) :
    Option SoundManager :=
  let s1 := latchPassthrough s channel (decide (toggle ≠ 0))
  if toggle ≠ 0 then
    -- foreach (AudioInput in, m_inputBuffers.keys()) if (in.getIndex() == channel) { ...; return; }
    if (QHash.keys s1.m_inputBuffers).any (fun inp => decide (inp.getIndex = channel)) = true then
      -- m_pControlObjectVinylStatusN->slotSet(VINYL_STATUS_PASSTHROUGH);
      some (slotSetVinylStatus channel s1 env.VINYL_STATUS_PASSTHROUGH)
    else
      -- m_pControlObjectInputPassthroughN->slotSet(false);
      slotSet s1 0
  else some s1

/-- The configuration a setup pass works with: the stored one after
`filterOutputs` and `filterInputs`. -/
def effectiveConfig (env : Env) (s : SoundManager) : SoundManagerConfig :=
  env.filterInputs s.m_devices (env.filterOutputs s.m_devices s.m_config)

/-- The outputs the configuration assigns to a device. -/
def configuredOutputs (cfg : SoundManagerConfig) (d : SoundDevice) : List AudioOutput :=
  multiValues cfg.m_outputs d.m_strInternalName

/-- The inputs the configuration assigns to a device. -/
def configuredInputs (cfg : SoundManagerConfig) (d : SoundDevice) : List AudioInput :=
  multiValues cfg.m_inputs d.m_strInternalName

/-- The buffer the registered producer of `out` supplies: `none` when no
producer is registered, the registered producer is null, or it answers NULL. -/
def producedBuffer (env : Env) (sources : QHash (Option Nat)) (out : AudioOutput) : Option Nat :=
  match QHash.value? sources out with
  | some (some src) => env.sourceBuffer src out
  | _ => none

/-- Whether a list of outputs has one of kind `ty` whose producer supplies a
non-null buffer. -/
def hasKind (env : Env) (sources : QHash (Option Nat)) (ty : AudioPathType)
    (outs : List AudioOutput) : Bool :=
  outs.any (fun out => decide (out.m_type = ty) && (producedBuffer env sources out).isSome)

/-- A device carries an output of kind `ty`: the configuration assigns it one
whose producer supplies a non-null buffer. -/
def carries (env : Env) (cfg : SoundManagerConfig) (sources : QHash (Option Nat))
    (ty : AudioPathType) (d : SoundDevice) : Bool :=
  hasKind env sources ty (configuredOutputs cfg d)

/-- The hash of output buffers after the outputs `outs` have been visited:
every output with a non-null produced buffer is stored under its identity. -/
def storeOutputs (env : Env) (sources : QHash (Option Nat)) (outs : List AudioOutput)
    (h : QHash (Option Nat)) : QHash (Option Nat) :=
  outs.foldl
    (fun h out =>
      match producedBuffer env sources out with
      | some buffer => QHash.insert h out (some buffer)
      | none => h)
    h

/-- The clock reference after one device with pointer `i` has been visited. -/
def clockAfter (c : Option Nat) (i : Nat) (master deck : Bool) : Option Nat :=
  if master = true then some i else if deck = true ∧ c = none then some i else c

/-- The clock reference after the devices `ds`, with pointers `i`, `i+1`, ...,
have been visited. -/
def clockLoop (env : Env) (cfg : SoundManagerConfig) (sources : QHash (Option Nat)) :
    Nat → List SoundDevice → Option Nat → Option Nat
  | _, [], c => c
  | i, d :: rest, c =>
    clockLoop env cfg sources (i + 1) rest
      (clockAfter c i (carries env cfg sources AudioPathType.MASTER d)
        (carries env cfg sources AudioPathType.DECK d))

/-- Two device records describe the same physical device: the descriptor
(host API, names, channel counts) and the platform's answer to `open` agree. -/
def SameDescriptor (d d1 : SoundDevice) : Prop :=
  d1.m_hostAPI = d.m_hostAPI ∧ d1.m_strInternalName = d.m_strInternalName ∧
  d1.m_strDisplayName = d.m_strDisplayName ∧
  d1.m_iNumOutputChannels = d.m_iNumOutputChannels ∧
  d1.m_iNumInputChannels = d.m_iNumInputChannels ∧
  d1.platformOpenError = d.platformOpenError

/-- What a completed visit of the device loop has made of a device: the
descriptor is kept, a device with a configured input or output is open, and a
device with an output whose producer supplies a buffer has an assigned output. -/
def Visited (env : Env) (cfg : SoundManagerConfig) (sources : QHash (Option Nat))
    (d d1 : SoundDevice) : Prop :=
  SameDescriptor d d1 ∧
  ((configuredInputs cfg d ≠ [] ∨ configuredOutputs cfg d ≠ []) → d1.m_bOpen = true) ∧
  ((∃ out ∈ configuredOutputs cfg d, (producedBuffer env sources out).isSome = true) →
    d1.m_audioOutputs ≠ [])

/-- Every output assignment of the configuration that names a device of the
list, in the order in which the device loop visits them. -/
def allConfiguredOutputs (cfg : SoundManagerConfig) (devices : List SoundDevice) :
    List AudioOutput :=
  (devices.map (configuredOutputs cfg)).flatten

/-! ## Deinterleaving: what the claim's words describe -/

/-- The buffer `old` after its first `n` positions have been written, position
`i` taking `raw[(i / channelCount) * frameSize + channelBase + i % channelCount]`;
every other position keeps its sample. -/
def written (raw : Buffer) (frameSize channelCount channelBase : Nat) (old : Buffer)
    (n : Nat) : Buffer :=
  (List.range old.length).map
    (fun i =>
      if i < n then raw.getD (i / channelCount * frameSize + channelBase + i % channelCount) 0
      else old.getD i 0)

/-- The claim's description of the general case for one input:
`buffer[f*channelCount + c] := raw[f*frameSize + channelBase + c]` for every
frame `f < frames` and every channel `c < channelCount`, no other position written. -/
def deinterleaveSpec (raw : Buffer) (frames frameSize : Nat) (inp : AudioInput)
    (old : Buffer) : Buffer :=
  written raw frameSize inp.m_channelGroup.m_channels inp.m_channelGroup.m_channelBase old
    (frames * inp.m_channelGroup.m_channels)

/-- Replace the contents of the buffer that `inp` owns by `upd inp old`; a hash
without an allocated buffer for `inp` is left alone. -/
def applyWrite (upd : AudioInput → Buffer → Buffer) (h : QHash BufferPtr)
    (inp : AudioInput) : QHash BufferPtr :=
  match QHash.value? h inp with
  | some (some old) => QHash.insert h inp (some (upd inp old))
  | _ => h

/-- One listed input's effect on the hash of input buffers, in the claim's words. -/
def deinterleaveWrite (raw : Buffer) (frames frameSize : Nat) (h : QHash BufferPtr)
    (inp : AudioInput) : QHash BufferPtr :=
  applyWrite (deinterleaveSpec raw frames frameSize) h inp

/-- The bulk copy in words: the first `n` samples are those of `raw`, the rest
of the buffer keeps its samples. -/
def bulkSpec (raw : Buffer) (n : Nat) (_inp : AudioInput) (old : Buffer) : Buffer :=
  raw.take n ++ old.drop n

/-! ## The round-trip claim as stated, and concrete inputs -/

/-- The deinterleave round-trip as the claim states it, for one call: if the
channel-groups of the listed inputs lie inside the hardware frame and are
pairwise disjoint, every listed input has an allocated buffer of at least
`frames * channelCount` samples, and the raw buffer holds `frames * frameSize`
samples (a count that fits `unsigned int`), then the call returns and every
listed input's buffer holds its own channel-group's sequence. -/
def RoundTripClaim (s : SoundManager) (inputs : List AudioInput) (raw : Buffer)
    (frames frameSize : Nat) : Prop :=
  frames < UINT → frames * frameSize ≤ UINT → frames * frameSize ≤ raw.length →
  (∀ inp ∈ inputs,
    inp.m_channelGroup.m_channelBase + inp.m_channelGroup.m_channels ≤ frameSize) →
  inputs.Pairwise (fun a b =>
    a.m_channelGroup.m_channelBase + a.m_channelGroup.m_channels ≤ b.m_channelGroup.m_channelBase ∨
    b.m_channelGroup.m_channelBase + b.m_channelGroup.m_channels ≤ a.m_channelGroup.m_channelBase) →
  (∀ inp ∈ inputs, ∃ old, QHash.value? s.m_inputBuffers inp = some (some old) ∧
    frames * inp.m_channelGroup.m_channels ≤ old.length) →
  ∃ s', s.pushBuffer inputs (some raw) frames frameSize = some s' ∧
    ∀ inp ∈ inputs, ∃ b, QHash.value? s'.m_inputBuffers inp = some (some b) ∧
      ∀ f c, f < frames → c < inp.m_channelGroup.m_channels →
        b[f * inp.m_channelGroup.m_channels + c]?
          = raw[f * frameSize + inp.m_channelGroup.m_channelBase + c]?

/-- A mono input on channel 0 of a stereo device. -/
def exLeft : AudioInput := ⟨AudioPathType.VINYLCONTROL, 0, ⟨0, 1⟩⟩

/-- A mono input on channel 1 of a stereo device. -/
def exRight : AudioInput := ⟨AudioPathType.VINYLCONTROL, 1, ⟨1, 1⟩⟩

/-- Both mono inputs connected, each with a four-sample buffer. -/
def exMonoState : SoundManager :=
  { m_inputBuffers := [(exLeft, some [0, 0, 0, 0]), (exRight, some [0, 0, 0, 0])] }

/-- A stereo input on channels 0-1. -/
def exFront : AudioInput := ⟨AudioPathType.VINYLCONTROL, 0, ⟨0, 2⟩⟩

/-- A stereo input on channels 2-3 with the identity (kind and index) of `exFront`. -/
def exFrontAgain : AudioInput := ⟨AudioPathType.VINYLCONTROL, 0, ⟨2, 2⟩⟩

/-- A stereo input on channels 2-3 with an identity of its own. -/
def exBack : AudioInput := ⟨AudioPathType.VINYLCONTROL, 1, ⟨2, 2⟩⟩

/-- The input `VINYLCONTROL` 0 connected, with a four-sample buffer. -/
def exFrontState : SoundManager := { m_inputBuffers := [(exFront, some [0, 0, 0, 0])] }

/-- The inputs `VINYLCONTROL` 0 and 1 connected, each with a four-sample buffer. -/
def exQuadState : SoundManager :=
  { m_inputBuffers := [(exFront, some [0, 0, 0, 0]), (exBack, some [0, 0, 0, 0])] }

/-- A manager whose clock reference is device 0, with a free lock and one
stored output buffer. -/
def exRunning : SoundManager :=
  { m_devices := [{ m_strInternalName := "A", m_iNumOutputChannels := 2, m_bOpen := true }]
    m_pClkRefDevice := some 0
    m_outputBuffers := [(⟨AudioPathType.MASTER, 0, ⟨0, 2⟩⟩, some 100)] }

/-- Producers that supply a buffer for every output asked of them. -/
def exEnv : Env := { sourceBuffer := fun src out => some (100 * src + out.m_index) }

/-- The master output. -/
def exMaster : AudioOutput := ⟨AudioPathType.MASTER, 0, ⟨0, 2⟩⟩

/-- The output of deck 0. -/
def exDeck0 : AudioOutput := ⟨AudioPathType.DECK, 0, ⟨0, 2⟩⟩

/-- An output that is neither the master nor a deck (headphones, say). -/
def exHeadphones : AudioOutput := ⟨AudioPathType.OTHER 0, 0, ⟨0, 2⟩⟩

/-- A four-channel output card. -/
def exCardA : SoundDevice :=
  { m_hostAPI := "ALSA", m_strInternalName := "A", m_strDisplayName := "Card A",
    m_iNumOutputChannels := 4 }

/-- A two-channel output card. -/
def exCardB : SoundDevice :=
  { m_hostAPI := "ALSA", m_strInternalName := "B", m_strDisplayName := "Card B",
    m_iNumOutputChannels := 2 }

/-- A capture-only device: two input channels, no output channel. -/
def exMic : SoundDevice :=
  { m_hostAPI := "ALSA", m_strInternalName := "mic", m_strDisplayName := "Microphone",
    m_iNumInputChannels := 2 }

/-- Cards A and B enumerated in the given order, the engine (address 1)
registered as producer of master, deck 0 and headphones, and the given output
assignments configured. -/
def exRegistered (devices : List SoundDevice) (outputs : List (String × AudioOutput)) :
    SoundManager :=
  ((({ m_devices := devices, m_config := { m_api := "ALSA", m_outputs := outputs } } :
      SoundManager).registerOutput exMaster (some 1)).registerOutput exDeck0 (some 1)).registerOutput
    exHeadphones (some 1)

/-- The state a setup pass leaves, or the empty manager when the pass has no result. -/
def stateAfterSetup (env : Env) (s : SoundManager) : SoundManager :=
  match s.setupDevices env with
  | some (_, s') => s'
  | none => {}

/-- A catalog with the capture-only device alone and nothing configured. -/
def exCaptureOnly : SoundManager :=
  { m_devices := [exMic], m_config := { m_api := "ALSA" } }

/-- One call on an open manager that is neither a setup pass nor a close: a
callback (`requestBuffer`, `pushBuffer`) or a registration. -/
inductive RunStep : SoundManager → SoundManager → Prop where
  | request (s : SoundManager) (outputs : List AudioOutput) (frames device : Nat)
      (streamTime : Int) : RunStep s (s.requestBuffer outputs frames device streamTime).2
  | push (s s1 : SoundManager) (inputs : List AudioInput) (inputBuffer : BufferPtr)
      (frames frameSize : Nat) (h : s.pushBuffer inputs inputBuffer frames frameSize = some s1) :
      RunStep s s1
  | registerOutput (s : SoundManager) (output : AudioOutput) (src : Option Nat) :
      RunStep s (s.registerOutput output src)
  | registerInput (s : SoundManager) (input : AudioInput) (dest : Option Nat) :
      RunStep s (s.registerInput input dest)

/-- The states reached from `s` by any number of such calls. -/
def Reaches (s s1 : SoundManager) : Prop := Relation.ReflTransGen RunStep s s1

/-- Card B while another program holds it: the platform refuses to open it. -/
def exBusyB : SoundDevice := { exCardB with platformOpenError := 5 }

/-- A card B with a single output channel, too narrow for a stereo output. -/
def exNarrowB : SoundDevice := { exCardB with m_iNumOutputChannels := 1 }

/-- Whether a collaborator call is a consumer's `receiveBuffer`. -/
def isReceive : Event → Bool
  | Event.receiveBuffer _ _ _ _ => true
  | _ => false

/-- The `receiveBuffer` call a listed input is due in state `s`: its registered
non-null consumer is handed the input's own buffer and the frame count; an input
without a registered consumer, or with a null one, is due none. -/
def receiveCall (s : SoundManager) (frames : Nat) (inp : AudioInput) : Option Event :=
  match QHash.value? s.m_registeredDestinations inp with
  | some (some dest) =>
    some (Event.receiveBuffer dest inp ((QHash.value? s.m_inputBuffers inp).getD none) frames)
  | _ => none

/-- What the copy phase of `pushBuffer` writes into one listed input's buffer:
the bulk copy for hardware frame size 2, the deinterleaved channel-group otherwise. -/
def copySpec (raw : Buffer) (frames frameSize : Nat) : AudioInput → Buffer → Buffer :=
  if frameSize = 2 then bulkSpec raw (2 * frames) else deinterleaveSpec raw frames frameSize

/-- The input `VINYLCONTROL` 0 connected and registered with the consumer at
address 7, its pass-through flag set. -/
def exPassState : SoundManager :=
  { m_inputBuffers := [(exFront, some [0, 0, 0, 0])]
    m_registeredDestinations := [(exFront, some 7)]
    m_bPassthroughActive0 := true }

/-- The closed state of the manager: every device closed, the operative
variables cleared, both buffer hashes empty, and (where vinyl control is
compiled in) no vinyl-control proxy left.  It is the state of a freshly
constructed manager and the state `closeDevices` leaves. -/
def closedManager (env : Env) (s : SoundManager) : Prop :=
  (∀ d ∈ s.m_devices, d.m_bOpen = false) ∧
  s.m_pClkRefDevice = none ∧
  s.iNumDevicesOpenedForOutput = 0 ∧ s.iNumDevicesOpenedForInput = 0 ∧
  s.m_outputBuffers = [] ∧ s.m_inputBuffers = [] ∧
  (env.vinylControl = true → s.m_vinylControl = [])

instance (env : Env) (s : SoundManager) : Decidable (closedManager env s) := by
  unfold closedManager
  infer_instance

/-! ## Lemmas on hashes -/

theorem QHash.value?_insert_self {V : Type} (h : QHash V) (k : AudioPath) (v : V) :
    QHash.value? (QHash.insert h k v) k = some v := by
  induction h with
  | nil => simp [QHash.insert, QHash.value?]
  | cons e t ih =>
    obtain ⟨k', v'⟩ := e
    by_cases hk : k'.ident = k.ident
    · simp [QHash.insert, QHash.value?, hk]
    · simp [QHash.insert, QHash.value?, hk, ih]

theorem QHash.value?_insert_of_ne {V : Type} (h : QHash V) (k k2 : AudioPath) (v : V)
    (hne : k.ident ≠ k2.ident) :
    QHash.value? (QHash.insert h k v) k2 = QHash.value? h k2 := by
  induction h with
  | nil => simp [QHash.insert, QHash.value?, hne]
  | cons e t ih =>
    obtain ⟨k', v'⟩ := e
    by_cases hk : k'.ident = k.ident
    · have : k'.ident ≠ k2.ident := fun h' => hne (hk ▸ h')
      simp [QHash.insert, QHash.value?, hk, hne]
    · simp only [QHash.insert, if_neg hk]
      by_cases hk2 : k'.ident = k2.ident
      · simp only [QHash.value?, if_pos hk2]
      · simp only [QHash.value?, if_neg hk2, ih]

theorem QHash.value?_congr {V : Type} (h : QHash V) (k k2 : AudioPath)
    (he : k.ident = k2.ident) : QHash.value? h k = QHash.value? h k2 := by
  induction h with
  | nil => rfl
  | cons e t ih => simp [QHash.value?, he, ih]

theorem QHash.index_of_value? {V : Type} (h : QHash V) (k : AudioPath) (d v : V)
    (hv : QHash.value? h k = some v) : QHash.index h k d = (v, h) := by
  simp [QHash.index, hv]

/-! ## Lemmas on the copy loops -/

theorem written_length (raw : Buffer) (fs cc base : Nat) (old : Buffer) (n : Nat) :
    (written raw fs cc base old n).length = old.length := by
  simp [written]

theorem written_zero (raw : Buffer) (fs cc base : Nat) (old : Buffer) :
    written raw fs cc base old 0 = old := by
  apply List.ext_getElem?
  intro i
  by_cases hi : i < old.length
  · simp [written, List.getElem?_range hi, List.getElem?_eq_getElem hi]
  · have h1 : old.length ≤ i := Nat.le_of_not_lt hi
    rw [List.getElem?_eq_none h1, List.getElem?_eq_none]
    simpa [written] using h1

theorem written_getElem?_lt (raw : Buffer) (fs cc base : Nat) (old : Buffer) (n i : Nat)
    (hi : i < old.length) (hn : i < n) :
    (written raw fs cc base old n)[i]? = some (raw.getD (i / cc * fs + base + i % cc) 0) := by
  simp [written, List.getElem?_range hi, hn]

theorem written_getElem?_ge (raw : Buffer) (fs cc base : Nat) (old : Buffer) (n i : Nat)
    (hn : n ≤ i) : (written raw fs cc base old n)[i]? = old[i]? := by
  by_cases hi : i < old.length
  · have : ¬ i < n := Nat.not_lt.mpr hn
    simp [written, List.getElem?_range hi, this, List.getElem?_eq_getElem hi]
  · have h1 : old.length ≤ i := Nat.le_of_not_lt hi
    rw [List.getElem?_eq_none h1, List.getElem?_eq_none]
    simpa [written] using h1

theorem written_set (raw : Buffer) (fs cc base : Nat) (old : Buffer) (t : Nat) :
    (written raw fs cc base old t).set t (raw.getD (t / cc * fs + base + t % cc) 0)
      = written raw fs cc base old (t + 1) := by
  apply List.ext_getElem?
  intro i
  rw [List.getElem?_set]
  by_cases hi : i < old.length
  · by_cases hit : t = i
    · subst hit
      simp [written_length, hi, written_getElem?_lt raw fs cc base old (t + 1) t hi (Nat.lt_succ_self t)]
    · simp only [hit, if_false]
      by_cases hlt : i < t
      · rw [written_getElem?_lt _ _ _ _ _ _ _ hi hlt,
          written_getElem?_lt _ _ _ _ _ _ _ hi (Nat.lt_succ_of_lt hlt)]
      · have h1 : t + 1 ≤ i := by omega
        rw [written_getElem?_ge _ _ _ _ _ _ _ h1, written_getElem?_ge _ _ _ _ _ _ _ (by omega)]
  · have h1 : old.length ≤ i := Nat.le_of_not_lt hi
    have e1 : (written raw fs cc base old t)[i]? = none :=
      List.getElem?_eq_none (by simpa [written_length] using h1)
    have e2 : (written raw fs cc base old (t + 1))[i]? = none :=
      List.getElem?_eq_none (by simpa [written_length] using h1)
    rw [e1, e2]
    split <;> simp_all [written_length]

theorem copyChannels_written (raw old : Buffer) (fs cc base n : Nat)
    (hraw : n * fs + base + cc ≤ raw.length) (hold : n * cc + cc ≤ old.length)
    (hU1 : n * fs + base + cc ≤ UINT) (hU2 : n * cc + cc ≤ UINT) :
    copyChannels (some raw) (n * fs) (n * cc) base cc (some (written raw fs cc base old (n * cc)))
      = some (some (written raw fs cc base old (n * cc + cc))) := by
  have key : ∀ m, m ≤ cc →
      (List.range m).foldlM
        (fun p iChannel =>
          (readSample (some raw) ((n * fs + base + iChannel) % UINT)).bind
            (fun v => writeSample p ((n * cc + iChannel) % UINT) v))
        (some (written raw fs cc base old (n * cc)))
        = some (some (written raw fs cc base old (n * cc + m))) := by
    intro m
    induction m with
    | zero => intro _; simp
    | succ m ih =>
      intro hm
      have hm' : m < cc := hm
      have hcc : 0 < cc := by omega
      rw [List.range_succ, List.foldlM_append, ih (by omega)]
      have e1 : (n * fs + base + m) % UINT = n * fs + base + m := Nat.mod_eq_of_lt (by omega)
      have e2 : (n * cc + m) % UINT = n * cc + m := Nat.mod_eq_of_lt (by omega)
      have hr : n * fs + base + m < raw.length := by omega
      have hd : (n * cc + m) / cc = n := by
        rw [Nat.add_comm, Nat.add_mul_div_right _ _ hcc, Nat.div_eq_of_lt hm', Nat.zero_add]
      have hmod : (n * cc + m) % cc = m := by
        rw [Nat.add_comm, Nat.add_mul_mod_self_right, Nat.mod_eq_of_lt hm']
      have hw := written_set raw fs cc base old (n * cc + m)
      rw [hd, hmod] at hw
      have hget : raw.getD (n * fs + base + m) 0 = raw[n * fs + base + m] := by
        simp [List.getD_eq_getElem?_getD, List.getElem?_eq_getElem hr]
      have hlen : n * cc + m < (written raw fs cc base old (n * cc + m)).length := by
        rw [written_length]; omega
      simp only [List.foldlM, e1, e2, readSample, writeSample, List.getElem?_eq_getElem hr,
        Option.some_bind, Option.bind_some, if_pos hlen, bind, pure]
      rw [← hget, hw, Nat.add_assoc]
  exact key cc (Nat.le_refl cc)

theorem deinterleave_written (raw old : Buffer) (frames fs cc base : Nat)
    (hF : frames < UINT) (hfit : frames * fs ≤ UINT) (hgrp : base + cc ≤ fs)
    (hraw : frames * fs ≤ raw.length) (hold : frames * cc ≤ old.length) :
    deinterleave (some raw) frames fs cc base (some old)
      = some (some (written raw fs cc base old (frames * cc))) := by
  have hccfs : cc ≤ fs := by omega
  have key : ∀ k, k ≤ frames →
      (List.range k).foldlM
        (fun p iFrameNo =>
          copyChannels (some raw) ((iFrameNo * fs) % UINT) ((iFrameNo * cc) % UINT) base cc p)
        (some old)
        = some (some (written raw fs cc base old (k * cc))) := by
    intro k
    induction k with
    | zero => intro _; simp [written_zero]
    | succ k ih =>
      intro hk
      rw [List.range_succ, List.foldlM_append, ih (by omega)]
      have h1 : (k + 1) * fs ≤ frames * fs := Nat.mul_le_mul_right fs hk
      have h2 : (k + 1) * cc ≤ frames * cc := Nat.mul_le_mul_right cc hk
      have h3 : (k + 1) * cc ≤ (k + 1) * fs := Nat.mul_le_mul_left (k + 1) hccfs
      have e3 : (k + 1) * fs = k * fs + fs := Nat.succ_mul k fs
      have e4 : (k + 1) * cc = k * cc + cc := Nat.succ_mul k cc
      by_cases hcc : cc = 0
      · subst hcc
        simp [copyChannels]
      · have hfs : 0 < fs := by omega
        have e1 : (k * fs) % UINT = k * fs := Nat.mod_eq_of_lt (by omega)
        have e2 : (k * cc) % UINT = k * cc := Nat.mod_eq_of_lt (by omega)
        have hc := copyChannels_written raw old fs cc base k (by omega) (by omega) (by omega)
          (by omega)
        simp only [List.foldlM, e1, e2, Option.some_bind, Option.bind_some, bind, pure]
        rw [hc, e4]
  have hnot : ¬ UINT ≤ frames := Nat.not_le.mpr hF
  simp only [deinterleave, if_neg hnot]
  exact key frames (Nat.le_refl frames)

/-! ## Lemmas on the loops over the listed inputs -/

theorem applyWrite_value?_of_ne (upd : AudioInput → Buffer → Buffer) (h : QHash BufferPtr)
    (inp k : AudioInput) (hne : inp.ident ≠ k.ident) :
    QHash.value? (applyWrite upd h inp) k = QHash.value? h k := by
  unfold applyWrite
  split
  · exact QHash.value?_insert_of_ne h inp k _ hne
  · rfl

theorem applyWrite_value?_self (upd : AudioInput → Buffer → Buffer) (h : QHash BufferPtr)
    (inp : AudioInput) (old : Buffer) (hv : QHash.value? h inp = some (some old)) :
    QHash.value? (applyWrite upd h inp) inp = some (some (upd inp old)) := by
  simp only [applyWrite, hv]
  exact QHash.value?_insert_self h inp _

theorem foldl_applyWrite_value?_of_not_mem (upd : AudioInput → Buffer → Buffer)
    (inputs : List AudioInput) (h : QHash BufferPtr) (k : AudioInput)
    (hk : k.ident ∉ inputs.map AudioPath.ident) :
    QHash.value? (inputs.foldl (applyWrite upd) h) k = QHash.value? h k := by
  induction inputs generalizing h with
  | nil => rfl
  | cons a rest ih =>
    simp only [List.map_cons, List.mem_cons, not_or] at hk
    rw [List.foldl_cons, ih _ hk.2]
    exact applyWrite_value?_of_ne upd h a k (fun e => hk.1 e.symm)

theorem foldl_applyWrite_value?_of_mem (upd : AudioInput → Buffer → Buffer)
    (inputs : List AudioInput) (h : QHash BufferPtr) (inp : AudioInput) (old : Buffer)
    (hnd : (inputs.map AudioPath.ident).Nodup) (hmem : inp ∈ inputs)
    (hv : QHash.value? h inp = some (some old)) :
    QHash.value? (inputs.foldl (applyWrite upd) h) inp = some (some (upd inp old)) := by
  induction inputs generalizing h with
  | nil => cases hmem
  | cons a rest ih =>
    simp only [List.map_cons, List.nodup_cons] at hnd
    rw [List.foldl_cons]
    rcases List.mem_cons.mp hmem with rfl | hin
    · rw [foldl_applyWrite_value?_of_not_mem upd rest _ inp hnd.1]
      exact applyWrite_value?_self upd h inp old hv
    · have hne : a.ident ≠ inp.ident := by
        intro e
        exact hnd.1 (e ▸ List.mem_map_of_mem AudioPath.ident hin)
      apply ih _ hnd.2 hin
      rw [applyWrite_value?_of_ne upd h a inp hne]
      exact hv

theorem deinterleaveSpec_length (raw : Buffer) (frames fs : Nat) (inp : AudioInput)
    (old : Buffer) : (deinterleaveSpec raw frames fs inp old).length = old.length := by
  simp [deinterleaveSpec, written_length]

/-- The `else` branch, under its memory-safety conditions, is the fold of the
per-input writes. -/
theorem deinterleaveLoop_eq_foldl (raw : Buffer) (frames fs : Nat)
    (hF : frames < UINT) (hfit : frames * fs ≤ UINT) (hraw : frames * fs ≤ raw.length)
    (inputs : List AudioInput) (h : QHash BufferPtr)
    (hin : ∀ inp ∈ inputs,
      inp.m_channelGroup.m_channelBase + inp.m_channelGroup.m_channels ≤ fs ∧
      ∃ old, QHash.value? h inp = some (some old) ∧
        frames * inp.m_channelGroup.m_channels ≤ old.length) :
    deinterleaveLoop (some raw) frames fs inputs h
      = some (inputs.foldl (deinterleaveWrite raw frames fs) h) := by
  induction inputs generalizing h with
  | nil => rfl
  | cons a rest ih =>
    obtain ⟨hgrp, old, hv, hlen⟩ := hin a (List.mem_cons_self a rest)
    have hd := deinterleave_written raw old frames fs a.m_channelGroup.m_channels
      a.m_channelGroup.m_channelBase hF hfit hgrp hraw hlen
    have hw : deinterleaveWrite raw frames fs h a
        = QHash.insert h a (some (deinterleaveSpec raw frames fs a old)) := by
      simp [deinterleaveWrite, applyWrite, hv]
    simp only [deinterleaveLoop, QHash.index_of_value? h a none (some old) hv,
      AudioPath.getChannelGroup, ChannelGroup.getChannelCount, ChannelGroup.getChannelBase, hd,
      List.foldl_cons, hw]
    apply ih
    intro inp hmem
    obtain ⟨hgrp', old', hv', hlen'⟩ := hin inp (List.mem_cons_of_mem a hmem)
    refine ⟨hgrp', ?_⟩
    by_cases he : a.ident = inp.ident
    · refine ⟨deinterleaveSpec raw frames fs a old, ?_, ?_⟩
      · rw [← QHash.value?_congr _ a inp he]
        exact QHash.value?_insert_self h a _
      · rw [deinterleaveSpec_length]
        rw [← QHash.value?_congr _ a inp he, hv] at hv'
        cases hv'
        exact hlen'
    · exact ⟨old', by rw [QHash.value?_insert_of_ne h a inp _ he]; exact hv', hlen'⟩

theorem bulkCopyLoop_eq_foldl (raw : Buffer) (frames fs : Nat)
    (hraw : fs * frames ≤ raw.length)
    (inputs : List AudioInput) (h : QHash BufferPtr)
    (hin : ∀ inp ∈ inputs,
      ∃ old, QHash.value? h inp = some (some old) ∧ fs * frames ≤ old.length) :
    bulkCopyLoop (some raw) frames fs inputs h
      = some (inputs.foldl (applyWrite (bulkSpec raw (fs * frames))) h) := by
  induction inputs generalizing h with
  | nil => rfl
  | cons a rest ih =>
    obtain ⟨old, hv, hlen⟩ := hin a (List.mem_cons_self a rest)
    have hw : applyWrite (bulkSpec raw (fs * frames)) h a
        = QHash.insert h a (some (bulkSpec raw (fs * frames) a old)) := by
      simp [applyWrite, hv]
    have hm : memcpy (some old) (some raw) (fs * frames)
        = some (some (bulkSpec raw (fs * frames) a old)) := by
      simp [memcpy, bulkSpec, hlen, hraw]
    simp only [bulkCopyLoop, QHash.index_of_value? h a none (some old) hv, hm,
      List.foldl_cons, hw]
    apply ih
    intro inp hmem
    obtain ⟨old', hv', hlen'⟩ := hin inp (List.mem_cons_of_mem a hmem)
    by_cases he : a.ident = inp.ident
    · refine ⟨bulkSpec raw (fs * frames) a old, ?_, ?_⟩
      · rw [← QHash.value?_congr _ a inp he]
        exact QHash.value?_insert_self h a _
      · simp only [bulkSpec, List.length_append, List.length_take, List.length_drop]
        omega
    · exact ⟨old', by rw [QHash.value?_insert_of_ne h a inp _ he]; exact hv', hlen'⟩

theorem deinterleaveSpec_getElem? (raw : Buffer) (frames fs : Nat) (inp : AudioInput)
    (old : Buffer) (f c : Nat)
    (hraw : frames * fs ≤ raw.length)
    (hgrp : inp.m_channelGroup.m_channelBase + inp.m_channelGroup.m_channels ≤ fs)
    (hold : frames * inp.m_channelGroup.m_channels ≤ old.length)
    (hf : f < frames) (hc : c < inp.m_channelGroup.m_channels) :
    (deinterleaveSpec raw frames fs inp old)[f * inp.m_channelGroup.m_channels + c]?
      = raw[f * fs + inp.m_channelGroup.m_channelBase + c]? := by
  generalize hcc : inp.m_channelGroup.m_channels = cc at *
  generalize hb : inp.m_channelGroup.m_channelBase = base at *
  have hcpos : 0 < cc := by omega
  have h1 : (f + 1) * cc ≤ frames * cc := Nat.mul_le_mul_right cc hf
  have h2 : (f + 1) * fs ≤ frames * fs := Nat.mul_le_mul_right fs hf
  have e1 : (f + 1) * cc = f * cc + cc := Nat.succ_mul f cc
  have e2 : (f + 1) * fs = f * fs + fs := Nat.succ_mul f fs
  have hd : (f * cc + c) / cc = f := by
    rw [Nat.add_comm, Nat.add_mul_div_right _ _ hcpos, Nat.div_eq_of_lt hc, Nat.zero_add]
  have hm : (f * cc + c) % cc = c := by
    rw [Nat.add_comm, Nat.add_mul_mod_self_right, Nat.mod_eq_of_lt hc]
  have hr : f * fs + base + c < raw.length := by omega
  simp only [deinterleaveSpec, hcc, hb]
  rw [written_getElem?_lt raw fs cc base old (frames * cc) (f * cc + c) (by omega) (by omega),
    hd, hm, List.getElem?_eq_getElem hr]
  simp [List.getD_eq_getElem?_getD, List.getElem?_eq_getElem hr]

theorem deinterleaveSpec_getElem?_ge (raw : Buffer) (frames fs : Nat) (inp : AudioInput)
    (old : Buffer) (i : Nat) (hi : frames * inp.m_channelGroup.m_channels ≤ i) :
    (deinterleaveSpec raw frames fs inp old)[i]? = old[i]? :=
  written_getElem?_ge raw fs _ _ old _ i hi

/-- The general case of `pushBuffer` under its memory-safety conditions: the
call returns, the new hash is the fold of the per-input writes, and the trace
grows by the dispatch calls only. -/
theorem pushBuffer_general (s : SoundManager) (inputs : List AudioInput) (raw : Buffer)
    (frames fs : Nat) (h2 : fs ≠ 2)
    (hF : frames < UINT) (hfit : frames * fs ≤ UINT) (hraw : frames * fs ≤ raw.length)
    (hin : ∀ inp ∈ inputs,
      inp.m_channelGroup.m_channelBase + inp.m_channelGroup.m_channels ≤ fs ∧
      ∃ old, QHash.value? s.m_inputBuffers inp = some (some old) ∧
        frames * inp.m_channelGroup.m_channels ≤ old.length) :
    ∃ s', s.pushBuffer inputs (some raw) frames fs = some s' ∧
      s'.m_inputBuffers = inputs.foldl (deinterleaveWrite raw frames fs) s.m_inputBuffers := by
  have hl := deinterleaveLoop_eq_foldl raw frames fs hF hfit hraw inputs s.m_inputBuffers hin
  simp only [SoundManager.pushBuffer, if_neg h2, hl, Option.isSome_some, if_true]
  exact ⟨_, rfl, rfl⟩

theorem pushBuffer_bulk (s : SoundManager) (inputs : List AudioInput) (raw : Buffer)
    (frames : Nat) (hraw : 2 * frames ≤ raw.length)
    (hin : ∀ inp ∈ inputs,
      ∃ old, QHash.value? s.m_inputBuffers inp = some (some old) ∧ 2 * frames ≤ old.length) :
    ∃ s', s.pushBuffer inputs (some raw) frames 2 = some s' ∧
      s'.m_inputBuffers
        = inputs.foldl (applyWrite (bulkSpec raw (2 * frames))) s.m_inputBuffers := by
  have hl := bulkCopyLoop_eq_foldl raw frames 2 hraw inputs s.m_inputBuffers hin
  simp only [SoundManager.pushBuffer, if_true, hl, Option.isSome_some]
  exact ⟨_, rfl, rfl⟩

/-! ## Lemmas on device setup -/

theorem outputLoop_next (env : Env) (i : Nat) (outs : List AudioOutput) :
    ∀ (device : SoundDevice) (s : SoundManager) (device1 device2 : SoundDevice)
      (s1 : SoundManager),
      outputLoop env i outs device s = some (Flow.next (device1, s1), device2) →
      s1 = { s with
          m_outputBuffers := storeOutputs env s.m_registeredSources outs s.m_outputBuffers
          m_pClkRefDevice := clockAfter s.m_pClkRefDevice i
            (hasKind env s.m_registeredSources AudioPathType.MASTER outs)
            (hasKind env s.m_registeredSources AudioPathType.DECK outs) } := by
  induction outs with
  | nil =>
    intro device s device1 device2 s1 h
    simp only [outputLoop, Option.some.injEq, Prod.mk.injEq, Flow.next.injEq] at h
    obtain ⟨⟨-, rfl⟩, -⟩ := h
    simp [storeOutputs, hasKind, clockAfter]
  | cons out rest ih =>
    intro device s device1 device2 s1 h
    unfold outputLoop at h
    cases hv : QHash.value? s.m_registeredSources out with
    | none => simp [QHash.index, hv] at h
    | some src? =>
      cases src? with
      | none => simp [QHash.index, hv] at h
      | some src =>
        simp only [QHash.index, hv] at h
        cases hb : env.sourceBuffer src out with
        | none =>
          simp only [hb] at h
          have hp : producedBuffer env s.m_registeredSources out = none := by
            simp [producedBuffer, hv, hb]
          rw [ih device s device1 device2 s1 h]
          simp [storeOutputs, hasKind, hp]
        | some buffer =>
          simp only [hb] at h
          have hp : producedBuffer env s.m_registeredSources out = some buffer := by
            simp [producedBuffer, hv, hb]
          by_cases herr : (device.addOutput out).1 = OK
          · simp only [herr, ne_eq, not_true_eq_false, if_false] at h
            rw [ih _ _ device1 device2 s1 h]
            by_cases hm : out.m_type = AudioPathType.MASTER
            · simp [storeOutputs, hasKind, hp, hm, clockAfter, AudioPath.getType]
            · by_cases hd : out.m_type = AudioPathType.DECK
              · cases hc : s.m_pClkRefDevice <;>
                  simp [storeOutputs, hasKind, hp, hd, clockAfter, AudioPath.getType, hc]
              · simp [storeOutputs, hasKind, hp, hm, hd, clockAfter, AudioPath.getType]
          · simp [herr] at h

theorem SameDescriptor.refl (d : SoundDevice) : SameDescriptor d d :=
  ⟨rfl, rfl, rfl, rfl, rfl, rfl⟩

theorem SameDescriptor.trans {a b c : SoundDevice} (h1 : SameDescriptor a b)
    (h2 : SameDescriptor b c) : SameDescriptor a c :=
  ⟨h2.1.trans h1.1, h2.2.1.trans h1.2.1, h2.2.2.1.trans h1.2.2.1,
    h2.2.2.2.1.trans h1.2.2.2.1, h2.2.2.2.2.1.trans h1.2.2.2.2.1,
    h2.2.2.2.2.2.trans h1.2.2.2.2.2⟩

theorem addOutput_ok (d : SoundDevice) (out : AudioOutput) (h : (d.addOutput out).1 = OK) :
    SameDescriptor d (d.addOutput out).2 ∧ (d.addOutput out).2.m_bOpen = d.m_bOpen ∧
    (d.addOutput out).2.m_audioOutputs ≠ [] := by
  by_cases hcap : ((channelsUsed d.m_audioOutputs + out.m_channelGroup.m_channels : Nat) : Int)
      ≤ d.m_iNumOutputChannels
  · simp only [SoundDevice.addOutput, if_pos hcap]
    simp [SameDescriptor]
  · simp only [SoundDevice.addOutput, if_neg hcap] at h
    simp [InsufficientChannels, OK] at h

theorem addInput_ok (d : SoundDevice) (inp : AudioInput) :
    SameDescriptor d (d.addInput inp).2 ∧ (d.addInput inp).2.m_bOpen = d.m_bOpen ∧
    (d.addInput inp).2.m_audioOutputs = d.m_audioOutputs := by
  by_cases hcap : ((channelsUsed d.m_audioInputs + inp.m_channelGroup.m_channels : Nat) : Int)
      ≤ d.m_iNumInputChannels
  · simp only [SoundDevice.addInput, if_pos hcap]
    simp [SameDescriptor]
  · simp only [SoundDevice.addInput, if_neg hcap]
    simp [SameDescriptor]

theorem outputLoop_device (env : Env) (i : Nat) (outs : List AudioOutput) :
    ∀ (device : SoundDevice) (s : SoundManager) (device1 device2 : SoundDevice)
      (s1 : SoundManager),
      outputLoop env i outs device s = some (Flow.next (device1, s1), device2) →
      SameDescriptor device device1 ∧ device1.m_bOpen = device.m_bOpen ∧
      ((device.m_audioOutputs ≠ [] ∨
          ∃ out ∈ outs, (producedBuffer env s.m_registeredSources out).isSome = true) →
        device1.m_audioOutputs ≠ []) := by
  induction outs with
  | nil =>
    intro device s device1 device2 s1 h
    simp only [outputLoop, Option.some.injEq, Prod.mk.injEq, Flow.next.injEq] at h
    obtain ⟨⟨rfl, -⟩, -⟩ := h
    refine ⟨SameDescriptor.refl _, rfl, ?_⟩
    rintro (h | ⟨out, hm, -⟩)
    · exact h
    · cases hm
  | cons out rest ih =>
    intro device s device1 device2 s1 h
    unfold outputLoop at h
    cases hv : QHash.value? s.m_registeredSources out with
    | none => simp [QHash.index, hv] at h
    | some src? =>
      cases src? with
      | none => simp [QHash.index, hv] at h
      | some src =>
        simp only [QHash.index, hv] at h
        cases hb : env.sourceBuffer src out with
        | none =>
          simp only [hb] at h
          have hp : producedBuffer env s.m_registeredSources out = none := by
            simp [producedBuffer, hv, hb]
          obtain ⟨h1, h2, h3⟩ := ih device s device1 device2 s1 h
          refine ⟨h1, h2, ?_⟩
          rintro (hne | ⟨o, hm, ho⟩)
          · exact h3 (Or.inl hne)
          · rcases List.mem_cons.mp hm with rfl | hm'
            · simp [hp] at ho
            · exact h3 (Or.inr ⟨o, hm', ho⟩)
        | some buffer =>
          simp only [hb] at h
          by_cases herr : (device.addOutput out).1 = OK
          · simp only [herr, ne_eq, not_true_eq_false, if_false] at h
            obtain ⟨a1, a2, a3⟩ := addOutput_ok device out herr
            obtain ⟨h1, h2, h3⟩ := ih _ _ device1 device2 s1 h
            exact ⟨SameDescriptor.trans a1 h1, h2.trans a2, fun _ => h3 (Or.inl a3)⟩
          · simp [herr] at h

theorem notifyConnected_frame (inp : AudioInput) (s s1 : SoundManager)
    (h : notifyConnected inp s = some s1) : s1 = { s with trace := s1.trace } := by
  unfold notifyConnected at h
  by_cases hc : QHash.contains s.m_registeredDestinations inp = true
  · rw [if_pos hc] at h
    cases hd : (QHash.value? s.m_registeredDestinations inp).getD none with
    | none => rw [hd] at h; cases h
    | some dest => rw [hd] at h; cases h; rfl
  · rw [if_neg hc] at h
    cases h; rfl

theorem allocInputBuffer_frame (env : Env) (inp : AudioInput) (s : SoundManager) :
    allocInputBuffer env inp s
      = { s with m_inputBuffers := (allocInputBuffer env inp s).m_inputBuffers } := by
  unfold allocInputBuffer
  split <;> rfl

theorem connectInput_frame (env : Env) (inp : AudioInput) (s s1 : SoundManager)
    (h : connectInput env inp s = some s1) :
    s1 = { s with m_inputBuffers := s1.m_inputBuffers, trace := s1.trace } := by
  unfold connectInput at h
  have h1 := notifyConnected_frame inp _ s1 h
  rw [h1, allocInputBuffer_frame env inp s]

theorem inputLoop_next (env : Env) (ins : List AudioInput) :
    ∀ (device : SoundDevice) (s : SoundManager) (device1 device2 : SoundDevice)
      (s1 : SoundManager),
      inputLoop env ins device s = some (Flow.next (device1, s1), device2) →
      s1 = { s with m_inputBuffers := s1.m_inputBuffers, trace := s1.trace } ∧
      SameDescriptor device device1 ∧ device1.m_bOpen = device.m_bOpen ∧
      device1.m_audioOutputs = device.m_audioOutputs := by
  induction ins with
  | nil =>
    intro device s device1 device2 s1 h
    simp only [inputLoop, Option.some.injEq, Prod.mk.injEq, Flow.next.injEq] at h
    obtain ⟨⟨rfl, rfl⟩, -⟩ := h
    exact ⟨rfl, SameDescriptor.refl _, rfl, rfl⟩
  | cons inp rest ih =>
    intro device s device1 device2 s1 h
    unfold inputLoop at h
    obtain ⟨a1, a2, a3⟩ := addInput_ok device inp
    by_cases herr : (device.addInput inp).1 = OK
    · simp only [herr, ne_eq, not_true_eq_false, if_false] at h
      cases hc : connectInput env inp s with
      | none => simp [hc] at h
      | some s2 =>
        simp only [hc] at h
        obtain ⟨h1, h2, h3, h4⟩ := ih _ _ device1 device2 s1 h
        refine ⟨?_, SameDescriptor.trans a1 h2, h3.trans a2, h4.trans a3⟩
        rw [h1, connectInput_frame env inp s s2 hc]
    · simp [herr] at h

theorem open_ok (d : SoundDevice) (h : d.open.1 = OK) :
    SameDescriptor d d.open.2 ∧ d.open.2.m_bOpen = true ∧
    d.open.2.m_audioOutputs = d.m_audioOutputs := by
  by_cases hp : d.platformOpenError = OK
  · simp only [SoundDevice.open, if_pos hp]
    simp [SameDescriptor]
  · simp only [SoundDevice.open, if_neg hp] at h
    exact absurd h hp

theorem setupDevice_next (env : Env) (i : Nat) (d d1 : SoundDevice) (st st1 : SetupState)
    (h : setupDevice env i d st = some (Flow.next st1, d1)) :
    st1.s = { st.s with
        m_pErrorDevice := some i
        m_inputBuffers := st1.s.m_inputBuffers
        trace := st1.s.trace
        iNumDevicesOpenedForOutput := st1.s.iNumDevicesOpenedForOutput
        iNumDevicesOpenedForInput := st1.s.iNumDevicesOpenedForInput
        m_outputBuffers := storeOutputs env st.s.m_registeredSources
          (configuredOutputs st.s.m_config d) st.s.m_outputBuffers
        m_pClkRefDevice := clockAfter st.s.m_pClkRefDevice i
          (carries env st.s.m_config st.s.m_registeredSources AudioPathType.MASTER d)
          (carries env st.s.m_config st.s.m_registeredSources AudioPathType.DECK d) } ∧
    SameDescriptor d d1 ∧
    ((configuredInputs st.s.m_config d ≠ [] ∨ configuredOutputs st.s.m_config d ≠ []) →
      d1.m_bOpen = true) ∧
    ((∃ out ∈ configuredOutputs st.s.m_config d,
        (producedBuffer env st.s.m_registeredSources out).isSome = true) →
      d1.m_audioOutputs ≠ []) ∧
    (st1.devicesAttempted = st1.devicesOpened ↔ st.devicesAttempted = st.devicesOpened) := by
  have hcl : SameDescriptor d d.clearInputs.clearOutputs := ⟨rfl, rfl, rfl, rfl, rfl, rfl⟩
  cases hI : inputLoop env (multiValues st.s.m_config.m_inputs d.m_strInternalName)
      d.clearInputs.clearOutputs { st.s with m_pErrorDevice := some i } with
  | none => simp only [setupDevice, hI] at h; cases h
  | some r =>
    obtain ⟨fl, dv⟩ := r
    cases fl with
    | ret e s' => simp only [setupDevice, hI] at h; cases h
    | next p =>
      obtain ⟨dI, sI⟩ := p
      obtain ⟨i1, i2, i3, i4⟩ := inputLoop_next env _ _ _ dI dv sI hI
      cases hO : outputLoop env i (multiValues st.s.m_config.m_outputs d.m_strInternalName)
          dI sI with
      | none => simp only [setupDevice, hI, hO] at h; cases h
      | some r2 =>
        obtain ⟨fl2, dv2⟩ := r2
        cases fl2 with
        | ret e s' => simp only [setupDevice, hI, hO] at h; cases h
        | next p2 =>
          obtain ⟨dO, sO⟩ := p2
          have o1 := outputLoop_next env i _ dI sI dO dv2 sO hO
          obtain ⟨o2, o3, o4⟩ := outputLoop_device env i _ dI sI dO dv2 sO hO
          have hsrc : sI.m_registeredSources = st.s.m_registeredSources := by rw [i1]
          have hsO : sO = { st.s with
              m_pErrorDevice := some i
              m_inputBuffers := sI.m_inputBuffers
              trace := sI.trace
              m_outputBuffers := storeOutputs env st.s.m_registeredSources
                (configuredOutputs st.s.m_config d) st.s.m_outputBuffers
              m_pClkRefDevice := clockAfter st.s.m_pClkRefDevice i
                (carries env st.s.m_config st.s.m_registeredSources AudioPathType.MASTER d)
                (carries env st.s.m_config st.s.m_registeredSources AudioPathType.DECK d) } := by
            rw [o1, hsrc, i1]
            rfl
          have hout : (∃ out ∈ configuredOutputs st.s.m_config d,
              (producedBuffer env st.s.m_registeredSources out).isSome = true) →
              dO.m_audioOutputs ≠ [] := by
            intro hex
            apply o4
            right
            rw [hsrc]
            exact hex
          simp only [setupDevice, hI, hO] at h
          by_cases hio : ((!(multiValues st.s.m_config.m_inputs d.m_strInternalName).isEmpty) ||
              !(multiValues st.s.m_config.m_outputs d.m_strInternalName).isEmpty) = true
          · rw [if_pos hio] at h
            generalize hd3 : ({ dO with
                m_dSampleRate := sO.m_config.m_sampleRate
                m_framesPerBuffer := sO.m_config.m_framesPerBuffer } : SoundDevice) = d3 at h
            have hd3s : SameDescriptor dO d3 := by subst hd3; exact ⟨rfl, rfl, rfl, rfl, rfl, rfl⟩
            have hd3o : d3.m_audioOutputs = dO.m_audioOutputs := by subst hd3; rfl
            by_cases herr : d3.open.1 = OK
            · simp only [herr, ne_eq, not_true_eq_false, if_false, Option.some.injEq,
                Prod.mk.injEq, Flow.next.injEq] at h
              obtain ⟨rfl, rfl⟩ := h
              obtain ⟨p1, p2, p3⟩ := open_ok d3 herr
              refine ⟨?_, ?_, fun _ => p2, ?_, ?_⟩
              · simp only
                rw [hsO]
              · exact SameDescriptor.trans hcl (SameDescriptor.trans i2
                  (SameDescriptor.trans o2 (SameDescriptor.trans hd3s p1)))
              · intro hex
                rw [p3, hd3o]
                exact hout hex
              · simp only
                constructor <;> intro hh <;> omega
            · simp [herr] at h
          · rw [if_neg hio] at h
            simp only [Option.some.injEq, Prod.mk.injEq, Flow.next.injEq] at h
            obtain ⟨rfl, rfl⟩ := h
            refine ⟨?_, ?_, ?_, hout, Iff.rfl⟩
            · simp only
              rw [hsO]
            · exact SameDescriptor.trans hcl (SameDescriptor.trans i2 o2)
            · intro hne
              exfalso
              apply hio
              simp only [configuredInputs, configuredOutputs] at hne
              rcases hne with h1 | h1
              · cases hl : multiValues st.s.m_config.m_inputs d.m_strInternalName with
                | nil => exact absurd hl h1
                | cons a t => simp
              · cases hl : multiValues st.s.m_config.m_outputs d.m_strInternalName with
                | nil => exact absurd hl h1
                | cons a t => simp

theorem storeOutputs_append (env : Env) (sources : QHash (Option Nat))
    (a b : List AudioOutput) (h : QHash (Option Nat)) :
    storeOutputs env sources (a ++ b) h = storeOutputs env sources b (storeOutputs env sources a h) := by
  simp [storeOutputs, List.foldl_append]

theorem deviceLoop_next (env : Env) (todo : List SoundDevice) :
    ∀ (done : List SoundDevice) (st st1 : SetupState),
      deviceLoop env done todo st = some (Flow.next st1) →
      ∃ todo1,
        List.Forall₂ (Visited env st.s.m_config st.s.m_registeredSources) todo todo1 ∧
        st1.s = { st.s with
          m_devices := done ++ todo1
          m_pErrorDevice := st1.s.m_pErrorDevice
          m_inputBuffers := st1.s.m_inputBuffers
          trace := st1.s.trace
          iNumDevicesOpenedForOutput := st1.s.iNumDevicesOpenedForOutput
          iNumDevicesOpenedForInput := st1.s.iNumDevicesOpenedForInput
          m_outputBuffers := storeOutputs env st.s.m_registeredSources
            (allConfiguredOutputs st.s.m_config todo) st.s.m_outputBuffers
          m_pClkRefDevice := clockLoop env st.s.m_config st.s.m_registeredSources done.length
            todo st.s.m_pClkRefDevice } ∧
        (st1.devicesAttempted = st1.devicesOpened ↔ st.devicesAttempted = st.devicesOpened) := by
  induction todo with
  | nil =>
    intro done st st1 h
    simp only [deviceLoop, Option.some.injEq, Flow.next.injEq] at h
    subst h
    exact ⟨[], List.Forall₂.nil, by simp [allConfiguredOutputs, storeOutputs, clockLoop], Iff.rfl⟩
  | cons d rest ih =>
    intro done st st1 h
    cases hS : setupDevice env done.length d st with
    | none => simp only [deviceLoop, hS] at h; cases h
    | some r =>
      obtain ⟨fl, d1⟩ := r
      cases fl with
      | ret e s' => simp only [deviceLoop, hS] at h; cases h
      | next st2 =>
        simp only [deviceLoop, hS] at h
        obtain ⟨e1, e2, e3, e4, e5⟩ := setupDevice_next env _ d d1 st st2 hS
        obtain ⟨todo1, f1, f2, f3⟩ := ih _ _ _ h
        have hcfg : st2.s.m_config = st.s.m_config := by rw [e1]
        have hsrc : st2.s.m_registeredSources = st.s.m_registeredSources := by rw [e1]
        rw [hcfg, hsrc] at f1 f2
        refine ⟨d1 :: todo1, List.Forall₂.cons ⟨e2, e3, e4⟩ f1, ?_, f3.trans e5⟩
        rw [f2]
        have hob : st2.s.m_outputBuffers = storeOutputs env st.s.m_registeredSources
            (configuredOutputs st.s.m_config d) st.s.m_outputBuffers := by rw [e1]
        have hck : st2.s.m_pClkRefDevice = clockAfter st.s.m_pClkRefDevice done.length
            (carries env st.s.m_config st.s.m_registeredSources AudioPathType.MASTER d)
            (carries env st.s.m_config st.s.m_registeredSources AudioPathType.DECK d) := by
          rw [e1]
        rw [hob, hck, e1]
        simp [allConfiguredOutputs, storeOutputs_append, clockLoop]

theorem closeDevices_frame (env : Env) (s s1 : SoundManager)
    (h : s.closeDevices env = some s1) :
    s1 = { s with
      m_devices := s.m_devices.map SoundDevice.close
      iNumDevicesOpenedForOutput := 0
      iNumDevicesOpenedForInput := 0
      m_pClkRefDevice := none
      m_outputBuffers := []
      m_inputBuffers := []
      trace := s1.trace
      m_vinylControl := s1.m_vinylControl } := by
  unfold SoundManager.closeDevices at h
  simp only [SoundManager.clearOperativeVariables] at h
  cases hd : disconnectLoop s.m_registeredDestinations (QHash.keys s.m_inputBuffers) with
  | none => rw [hd] at h; cases h
  | some es =>
    rw [hd] at h
    simp only [Option.some.injEq] at h
    subst h
    cases env.vinylControl <;> rfl

theorem queryDevices_frame (env : Env) (s s1 : SoundManager)
    (h : s.queryDevices env = some s1) :
    s1 = { s with
      m_devices := s1.m_devices
      iNumDevicesOpenedForOutput := 0
      iNumDevicesOpenedForInput := 0
      m_pClkRefDevice := none
      m_outputBuffers := []
      m_inputBuffers := []
      trace := s1.trace
      m_vinylControl := s1.m_vinylControl
      m_paInitialized := s1.m_paInitialized } := by
  unfold SoundManager.queryDevices SoundManager.clearDeviceList at h
  cases hc : s.closeDevices env with
  | none => rw [hc] at h; cases h
  | some s2 =>
    rw [hc] at h
    have hf := closeDevices_frame env s s2 hc
    simp only [if_true] at h
    by_cases he : env.paInitializeError = true
    · rw [if_pos he] at h
      cases h
      rw [hf]
    · rw [if_neg he] at h
      by_cases hn : env.paDeviceCount < 0
      · rw [if_pos hn] at h
        cases h
        rw [hf]
      · rw [if_neg hn] at h
        cases h
        rw [hf]

theorem matchingDevices_head (p : SoundDevice → Bool) (l : List SoundDevice) :
    ∀ (k i : Nat) (rest : List Nat), matchingDevices p l k = i :: rest →
      ∃ j d, i = k + j ∧ l[j]? = some d ∧ p d = true ∧
        ∀ j2 d2, j2 < j → l[j2]? = some d2 → p d2 = false := by
  induction l with
  | nil => intro k i rest h; simp [matchingDevices] at h
  | cons a t ih =>
    intro k i rest h
    by_cases hp : p a = true
    · simp only [matchingDevices, if_pos hp, List.cons.injEq] at h
      refine ⟨0, a, by omega, by simp, hp, ?_⟩
      intro j2 d2 hj
      omega
    · simp only [matchingDevices, if_neg hp] at h
      obtain ⟨j, d, e1, e2, e3, e4⟩ := ih (k + 1) i rest h
      refine ⟨j + 1, d, by omega, by simpa using e2, e3, ?_⟩
      intro j2 d2 hj hg
      cases j2 with
      | zero =>
        simp only [List.getElem?_cons_zero, Option.some.injEq] at hg
        subst hg
        simpa using hp
      | succ j3 =>
        simp only [List.getElem?_cons_succ] at hg
        exact e4 j3 d2 (by omega) hg

theorem carries_congr (env : Env) (cfg : SoundManagerConfig) (sources : QHash (Option Nat))
    (ty : AudioPathType) (d d1 : SoundDevice)
    (h : d1.m_strInternalName = d.m_strInternalName) :
    carries env cfg sources ty d1 = carries env cfg sources ty d := by
  simp [carries, configuredOutputs, h]

theorem carries_produced (env : Env) (cfg : SoundManagerConfig) (sources : QHash (Option Nat))
    (ty : AudioPathType) (d : SoundDevice) (h : carries env cfg sources ty d = true) :
    ∃ out ∈ configuredOutputs cfg d, (producedBuffer env sources out).isSome = true := by
  simp only [carries, hasKind, List.any_eq_true, Bool.and_eq_true, decide_eq_true_eq] at h
  obtain ⟨out, hm, -, hp⟩ := h
  exact ⟨out, hm, hp⟩

theorem clockLoop_map_close (env : Env) (cfg : SoundManagerConfig)
    (sources : QHash (Option Nat)) (devs : List SoundDevice) :
    ∀ (k : Nat) (c : Option Nat),
      clockLoop env cfg sources k (devs.map SoundDevice.close) c
        = clockLoop env cfg sources k devs c := by
  induction devs with
  | nil => intro k c; rfl
  | cons d rest ih =>
    intro k c
    simp only [List.map_cons, clockLoop, ih]
    rw [carries_congr env cfg sources _ d d.close rfl, carries_congr env cfg sources _ d d.close rfl]

theorem clockLoop_keep (env : Env) (cfg : SoundManagerConfig) (sources : QHash (Option Nat))
    (devs : List SoundDevice) :
    ∀ (k x : Nat),
      (∀ d ∈ devs, carries env cfg sources AudioPathType.MASTER d = false) →
      clockLoop env cfg sources k devs (some x) = some x := by
  induction devs with
  | nil => intro k x _; rfl
  | cons d rest ih =>
    intro k x h
    have hd := h d (List.mem_cons_self d rest)
    simp only [clockLoop, clockAfter, hd]
    simp only [Bool.false_eq_true, if_false, and_false, reduceCtorEq]
    exact ih _ _ (fun d2 hm => h d2 (List.mem_cons_of_mem d hm))

theorem clockLoop_master (env : Env) (cfg : SoundManagerConfig) (sources : QHash (Option Nat))
    (devs : List SoundDevice) :
    (∃ d ∈ devs, carries env cfg sources AudioPathType.MASTER d = true) →
    ∀ (k : Nat) (c : Option Nat), ∃ i d,
      clockLoop env cfg sources k devs c = some (k + i) ∧ devs[i]? = some d ∧
      carries env cfg sources AudioPathType.MASTER d = true := by
  induction devs with
  | nil => rintro ⟨d, hm, -⟩; cases hm
  | cons a rest ih =>
    intro hex k c
    by_cases hr : ∃ d ∈ rest, carries env cfg sources AudioPathType.MASTER d = true
    · obtain ⟨i, d, e1, e2, e3⟩ := ih hr (k + 1) (clockAfter c k
        (carries env cfg sources AudioPathType.MASTER a)
        (carries env cfg sources AudioPathType.DECK a))
      refine ⟨i + 1, d, ?_, by simpa using e2, e3⟩
      simp only [clockLoop, e1]
      congr 1
      omega
    · have ha : carries env cfg sources AudioPathType.MASTER a = true := by
        obtain ⟨d, hm, hd⟩ := hex
        rcases List.mem_cons.mp hm with rfl | hm'
        · exact hd
        · exact absurd ⟨d, hm', hd⟩ hr
      have hrest : ∀ d ∈ rest, carries env cfg sources AudioPathType.MASTER d = false := by
        intro d hm
        cases hc : carries env cfg sources AudioPathType.MASTER d with
        | false => rfl
        | true => exact absurd ⟨d, hm, hc⟩ hr
      refine ⟨0, a, ?_, by simp, ha⟩
      simp only [clockLoop, clockAfter, ha, if_true]
      exact clockLoop_keep env cfg sources rest (k + 1) k hrest

theorem clockLoop_deck (env : Env) (cfg : SoundManagerConfig) (sources : QHash (Option Nat))
    (devs : List SoundDevice) :
    (∀ d ∈ devs, carries env cfg sources AudioPathType.MASTER d = false) →
    ∀ (k i : Nat) (d : SoundDevice), devs[i]? = some d →
      carries env cfg sources AudioPathType.DECK d = true →
      (∀ j d2, j < i → devs[j]? = some d2 →
        carries env cfg sources AudioPathType.DECK d2 = false) →
      clockLoop env cfg sources k devs none = some (k + i) := by
  induction devs with
  | nil => intro _ k i d h; simp at h
  | cons a rest ih =>
    intro hno k i d hget hdeck hfirst
    have ha := hno a (List.mem_cons_self a rest)
    have hrest : ∀ d ∈ rest, carries env cfg sources AudioPathType.MASTER d = false :=
      fun d2 hm => hno d2 (List.mem_cons_of_mem a hm)
    cases i with
    | zero =>
      simp only [List.getElem?_cons_zero, Option.some.injEq] at hget
      subst hget
      simp only [clockLoop, clockAfter, ha, hdeck]
      simp only [Bool.false_eq_true, if_false, and_self, if_true]
      exact clockLoop_keep env cfg sources rest (k + 1) k hrest
    | succ i2 =>
      simp only [List.getElem?_cons_succ] at hget
      have hadeck : carries env cfg sources AudioPathType.DECK a = false :=
        hfirst 0 a (by omega) (by simp)
      simp only [clockLoop, clockAfter, ha, hadeck]
      simp only [Bool.false_eq_true, if_false, false_and]
      rw [ih hrest (k + 1) i2 d hget hdeck
        (fun j d2 hj hg => hfirst (j + 1) d2 (by omega) (by simpa using hg))]
      congr 1
      omega

theorem clockLoop_origin (env : Env) (cfg : SoundManagerConfig) (sources : QHash (Option Nat))
    (devs : List SoundDevice) :
    ∀ (k : Nat) (c : Option Nat) (x : Nat), clockLoop env cfg sources k devs c = some x →
      c = some x ∨ ∃ i d, x = k + i ∧ devs[i]? = some d ∧
        (carries env cfg sources AudioPathType.MASTER d = true ∨
          carries env cfg sources AudioPathType.DECK d = true) := by
  induction devs with
  | nil => intro k c x h; left; simpa [clockLoop] using h
  | cons a rest ih =>
    intro k c x h
    simp only [clockLoop] at h
    rcases ih _ _ _ h with h1 | ⟨i, d, e1, e2, e3⟩
    · unfold clockAfter at h1
      by_cases hm : carries env cfg sources AudioPathType.MASTER a = true
      · rw [if_pos hm] at h1
        right
        refine ⟨0, a, ?_, by simp, Or.inl hm⟩
        cases h1
        rfl
      · rw [if_neg hm] at h1
        by_cases hd : carries env cfg sources AudioPathType.DECK a = true ∧ c = none
        · rw [if_pos hd] at h1
          right
          refine ⟨0, a, ?_, by simp, Or.inr hd.1⟩
          cases h1
          rfl
        · rw [if_neg hd] at h1
          exact Or.inl h1
    · right
      exact ⟨i + 1, d, by omega, by simpa using e2, e3⟩

theorem clockLoop_none_of_no_carrier (env : Env) (cfg : SoundManagerConfig)
    (sources : QHash (Option Nat)) (devs : List SoundDevice) :
    (∀ d ∈ devs, carries env cfg sources AudioPathType.MASTER d = false ∧
      carries env cfg sources AudioPathType.DECK d = false) →
    ∀ k, clockLoop env cfg sources k devs none = none := by
  induction devs with
  | nil => intro _ k; rfl
  | cons a rest ih =>
    intro h k
    obtain ⟨h1, h2⟩ := h a (List.mem_cons_self a rest)
    simp only [clockLoop, clockAfter, h1, h2]
    simp only [Bool.false_eq_true, if_false, false_and]
    exact ih (fun d hm => h d (List.mem_cons_of_mem a hm)) _

theorem forall₂_getElem? {α β : Type} (R : α → β → Prop) (l1 : List α) (l2 : List β)
    (h : List.Forall₂ R l1 l2) :
    ∀ (i : Nat) (a : α), l1[i]? = some a → ∃ b, l2[i]? = some b ∧ R a b := by
  induction h with
  | nil => intro i a hg; simp at hg
  | cons hr _ ih =>
    intro i a hg
    cases i with
    | zero =>
      simp only [List.getElem?_cons_zero, Option.some.injEq] at hg
      subst hg
      exact ⟨_, by simp, hr⟩
    | succ j =>
      simp only [List.getElem?_cons_succ] at hg
      obtain ⟨b, hb, hR⟩ := ih j a hg
      exact ⟨b, by simpa using hb, hR⟩

theorem initVinylControl_frame (env : Env) (s : SoundManager) :
    initVinylControl env s = { s with
      m_vinylControl := (initVinylControl env s).m_vinylControl
      heapNext := (initVinylControl env s).heapNext
      m_registeredDestinations := (initVinylControl env s).m_registeredDestinations
      trace := (initVinylControl env s).trace } := by
  rfl

theorem visited_of_close (env : Env) (cfg : SoundManagerConfig) (sources : QHash (Option Nat))
    (d d1 : SoundDevice) (h : Visited env cfg sources d.close d1) :
    Visited env cfg sources d d1 := by
  obtain ⟨h1, h2, h3⟩ := h
  exact ⟨SameDescriptor.trans ⟨rfl, rfl, rfl, rfl, rfl, rfl⟩ h1, h2, h3⟩

theorem allConfiguredOutputs_map_close (cfg : SoundManagerConfig) (devs : List SoundDevice) :
    allConfiguredOutputs cfg (devs.map SoundDevice.close) = allConfiguredOutputs cfg devs := by
  simp only [allConfiguredOutputs, List.map_map]
  rfl

/-- The device loop of a setup pass that reaches the clock-reference block:
the state in which it leaves the manager. -/
theorem setupDevices_loop (env : Env) (s s' : SoundManager) (err : Int)
    (h : s.setupDevices env = some (err, s')) :
    (∃ e sr, deviceLoop env [] (s.m_devices.map SoundDevice.close)
        ⟨{ (if env.vinylControl then initVinylControl env e else e) with
            m_devices := s.m_devices.map SoundDevice.close }, 0, 0⟩ = some (Flow.ret err sr)) ∨
    ∃ (st : SetupState) (s6 : SoundManager) (devs1 : List SoundDevice),
      List.Forall₂ (Visited env (effectiveConfig env s) s.m_registeredSources) s.m_devices devs1 ∧
      st.s.m_devices = devs1 ∧
      st.s.m_config = effectiveConfig env s ∧
      st.s.m_registeredSources = s.m_registeredSources ∧
      st.s.m_outputBuffers = storeOutputs env s.m_registeredSources
        (allConfiguredOutputs (effectiveConfig env s) s.m_devices) [] ∧
      st.s.m_pClkRefDevice = clockLoop env (effectiveConfig env s) s.m_registeredSources 0
        s.m_devices none ∧
      clockReferenceFallback env st.s = some s6 ∧
      err = OK ∧ s' = { s6 with trace := s6.trace ++ [Event.devicesSetup] } := by
  unfold SoundManager.setupDevices at h
  simp only [SoundManager.clearOperativeVariables] at h
  cases hc : SoundManager.closeDevices env
      { s with iNumDevicesOpenedForOutput := 0, iNumDevicesOpenedForInput := 0,
               m_pClkRefDevice := none,
               m_config := env.filterInputs s.m_devices (env.filterOutputs s.m_devices s.m_config) } with
  | none => rw [hc] at h; cases h
  | some s3 =>
    simp only [hc] at h
    have hf := closeDevices_frame env _ s3 hc
    simp only at hf
    generalize hs4 : (if env.vinylControl = true then initVinylControl env s3 else s3) = s4 at h
    have h4 : s4 = { s3 with
        m_vinylControl := s4.m_vinylControl
        heapNext := s4.heapNext
        m_registeredDestinations := s4.m_registeredDestinations
        trace := s4.trace } := by
      subst hs4
      split
      · exact initVinylControl_frame env s3
      · rfl
    have h4d : s4.m_devices = s.m_devices.map SoundDevice.close := by rw [h4, hf]
    have h4c : s4.m_config = effectiveConfig env s := by rw [h4, hf]; rfl
    have h4s : s4.m_registeredSources = s.m_registeredSources := by rw [h4, hf]
    have h4o : s4.m_outputBuffers = [] := by rw [h4, hf]
    have h4k : s4.m_pClkRefDevice = none := by rw [h4, hf]
    cases hl : deviceLoop env [] s4.m_devices ⟨s4, 0, 0⟩ with
    | none => simp only [hl] at h; cases h
    | some fl =>
      simp only [hl] at h
      cases fl with
      | ret e sr =>
        left
        simp only [Option.some.injEq, Prod.mk.injEq] at h
        obtain ⟨rfl, rfl⟩ := h
        refine ⟨s3, sr, ?_⟩
        rw [hs4, ← h4d]
        exact hl
      | next st =>
        right
        simp only at h
        obtain ⟨todo1, f1, f2, f3⟩ := deviceLoop_next env _ _ _ _ hl
        simp only [h4c, h4s, h4d, h4o, h4k, List.nil_append, List.length_nil] at f1 f2
        rw [List.forall₂_map_left_iff] at f1
        have f1' : List.Forall₂ (Visited env (effectiveConfig env s) s.m_registeredSources)
            s.m_devices todo1 :=
          f1.imp (fun d d1 hv => visited_of_close env _ _ d d1 hv)
        cases hfb : clockReferenceFallback env st.s with
        | none => simp only [hfb] at h; cases h
        | some s6 =>
          have heq : st.devicesAttempted = st.devicesOpened := f3.mpr rfl
          simp only [hfb, if_pos heq, Option.some.injEq, Prod.mk.injEq] at h
          obtain ⟨rfl, rfl⟩ := h
          refine ⟨st, s6, todo1, f1', ?_, ?_, ?_, ?_, ?_, hfb, rfl, rfl⟩
          · rw [f2]
          · rw [f2]
          · rw [f2]
          · rw [f2]
            simp only
            rw [allConfiguredOutputs_map_close]
          · rw [f2]
            simp only
            rw [clockLoop_map_close]

theorem getDeviceList_some (env : Env) (s s1 : SoundManager) (api : String) (bo bi : Bool)
    (l : List Nat) (h : s.getDeviceList env api bo bi = some (l, s1)) :
    (l = [] ∨ l = matchingDevices (matchesCriteria api bo bi) s1.m_devices 0) ∧
    (s.m_devices ≠ [] → s1 = s) ∧
    (s.m_devices = [] → s.queryDevices env = some s1) := by
  unfold SoundManager.getDeviceList at h
  cases hd : s.m_devices with
  | nil =>
    simp only [hd, List.isEmpty_nil, if_true] at h
    cases hq : s.queryDevices env with
    | none => simp only [hq] at h; cases h
    | some s2 =>
      simp only [hq] at h
      by_cases hn : api = "None"
      · simp only [if_pos hn, Option.some.injEq, Prod.mk.injEq] at h
        obtain ⟨rfl, rfl⟩ := h
        exact ⟨Or.inl rfl, fun hne => absurd rfl hne, fun _ => rfl⟩
      · simp only [if_neg hn, Option.some.injEq, Prod.mk.injEq] at h
        obtain ⟨rfl, rfl⟩ := h
        exact ⟨Or.inr rfl, fun hne => absurd rfl hne, fun _ => rfl⟩
  | cons a t =>
    simp only [hd, List.isEmpty_cons, Bool.false_eq_true, if_false] at h
    by_cases hn : api = "None"
    · simp only [if_pos hn, Option.some.injEq, Prod.mk.injEq] at h
      obtain ⟨rfl, rfl⟩ := h
      exact ⟨Or.inl rfl, fun _ => rfl, fun hne => by simp at hne⟩
    · simp only [if_neg hn, Option.some.injEq, Prod.mk.injEq] at h
      obtain ⟨rfl, rfl⟩ := h
      exact ⟨Or.inr (by rw [hd]), fun _ => rfl, fun hne => by simp at hne⟩

theorem clockReferenceFallback_some (env : Env) (s s6 : SoundManager)
    (h : clockReferenceFallback env s = some s6) :
    (s.m_pClkRefDevice ≠ none ∧ s6 = s) ∨
    (s.m_pClkRefDevice = none ∧ ∃ i d,
      s6.m_pClkRefDevice = some i ∧ s6.m_devices[i]? = some d ∧
      matchesCriteria s.m_config.m_api true false d = true ∧
      (∀ j d2, j < i → s6.m_devices[j]? = some d2 →
        matchesCriteria s.m_config.m_api true false d2 = false) ∧
      (s.m_devices ≠ [] → s6.m_devices = s.m_devices) ∧
      s6.m_config = s.m_config ∧ s6.m_registeredSources = s.m_registeredSources ∧
      (s.m_devices ≠ [] → s6.m_outputBuffers = s.m_outputBuffers) ∧
      (s.m_devices = [] → s6.m_outputBuffers = [])) := by
  unfold clockReferenceFallback at h
  by_cases hk : s.m_pClkRefDevice = none
  · right
    rw [if_pos hk] at h
    cases hg : s.getDeviceList env s.m_config.m_api true false with
    | none => simp only [hg] at h; cases h
    | some r =>
      obtain ⟨l, s1⟩ := r
      cases l with
      | nil => simp only [hg] at h; cases h
      | cons i rest =>
        simp only [hg, Option.some.injEq] at h
        subst h
        obtain ⟨g1, g2, g3⟩ := getDeviceList_some env s s1 _ _ _ _ hg
        rcases g1 with g1 | g1
        · cases g1
        · obtain ⟨j, d, e1, e2, e3, e4⟩ := matchingDevices_head _ _ 0 i rest g1.symm
          have hij : i = j := by omega
          subst hij
          refine ⟨hk, i, d, rfl, e2, e3, e4, ?_, ?_, ?_, ?_, ?_⟩
          · intro hne; rw [g2 hne]
          · by_cases hne : s.m_devices = []
            · rw [queryDevices_frame env s s1 (g3 hne)]
            · rw [g2 hne]
          · by_cases hne : s.m_devices = []
            · rw [queryDevices_frame env s s1 (g3 hne)]
            · rw [g2 hne]
          · intro hne; rw [g2 hne]
          · intro hne; rw [queryDevices_frame env s s1 (g3 hne)]
  · left
    rw [if_neg hk] at h
    cases h
    exact ⟨hk, rfl⟩

theorem inputLoop_ret_ne_ok (env : Env) (ins : List AudioInput) :
    ∀ (device : SoundDevice) (s : SoundManager) (device2 : SoundDevice) (s1 : SoundManager),
      inputLoop env ins device s ≠ some (Flow.ret OK s1, device2) := by
  induction ins with
  | nil => intro device s device2 s1 h; simp [inputLoop] at h
  | cons inp rest ih =>
    intro device s device2 s1 h
    unfold inputLoop at h
    by_cases herr : (device.addInput inp).1 = OK
    · simp only [herr, ne_eq, not_true_eq_false, if_false] at h
      cases hc : connectInput env inp s with
      | none => simp only [hc] at h; cases h
      | some s2 => simp only [hc] at h; exact ih _ _ _ _ h
    · simp only [ne_eq, herr, not_false_eq_true, if_true, Option.some.injEq, Prod.mk.injEq,
        Flow.ret.injEq] at h
      exact h.1.1.elim

theorem outputLoop_ret_ne_ok (env : Env) (i : Nat) (outs : List AudioOutput) :
    ∀ (device : SoundDevice) (s : SoundManager) (device2 : SoundDevice) (s1 : SoundManager),
      outputLoop env i outs device s ≠ some (Flow.ret OK s1, device2) := by
  induction outs with
  | nil => intro device s device2 s1 h; simp [outputLoop] at h
  | cons out rest ih =>
    intro device s device2 s1 h
    unfold outputLoop at h
    cases hv : (QHash.index s.m_registeredSources out none).1 with
    | none => simp only [hv] at h; cases h
    | some src =>
      simp only [hv] at h
      cases hb : env.sourceBuffer src out with
      | none => simp only [hb] at h; exact ih _ _ _ _ h
      | some buffer =>
        simp only [hb] at h
        by_cases herr : (device.addOutput out).1 = OK
        · simp only [herr, ne_eq, not_true_eq_false, if_false] at h
          exact ih _ _ _ _ h
        · simp only [ne_eq, herr, not_false_eq_true, if_true, Option.some.injEq, Prod.mk.injEq,
            Flow.ret.injEq] at h
          exact h.1.1.elim

/-- What a setup pass that returns `OK` leaves: the device list it visited, the
configuration and producers it worked with, the stored output buffers, and the
clock reference, chosen by the MASTER/DECK rule or by the fallback. -/
theorem setupDevices_ok (env : Env) (s s' : SoundManager)
    (h : s.setupDevices env = some (OK, s')) :
    ∃ devs1,
      List.Forall₂ (Visited env (effectiveConfig env s) s.m_registeredSources) s.m_devices devs1 ∧
      s'.m_config = effectiveConfig env s ∧
      s'.m_registeredSources = s.m_registeredSources ∧
      s'.m_outputBuffers = storeOutputs env s.m_registeredSources
        (allConfiguredOutputs (effectiveConfig env s) s.m_devices) [] ∧
      (s.m_devices ≠ [] → s'.m_devices = devs1) ∧
      ((clockLoop env (effectiveConfig env s) s.m_registeredSources 0 s.m_devices none ≠ none ∧
          s'.m_devices = devs1 ∧
          s'.m_pClkRefDevice
            = clockLoop env (effectiveConfig env s) s.m_registeredSources 0 s.m_devices none) ∨
        (clockLoop env (effectiveConfig env s) s.m_registeredSources 0 s.m_devices none = none ∧
          ∃ i d, s'.m_pClkRefDevice = some i ∧ s'.m_devices[i]? = some d ∧
            matchesCriteria (effectiveConfig env s).m_api true false d = true ∧
            ∀ j d2, j < i → s'.m_devices[j]? = some d2 →
              matchesCriteria (effectiveConfig env s).m_api true false d2 = false)) := by
  rcases setupDevices_loop env s s' OK h with ⟨e, sr, hr⟩ | ⟨st, s6, devs1, f1, f2, f3, f4, f5, f6, f7, -, f9⟩
  · exfalso
    have hd : ∀ (todo done : List SoundDevice) (st : SetupState) (sr : SoundManager),
        deviceLoop env done todo st ≠ some (Flow.ret OK sr) := by
      intro todo
      induction todo with
      | nil => intro done st sr hh; simp [deviceLoop] at hh
      | cons d rest ih =>
        intro done st sr hh
        unfold deviceLoop at hh
        cases hS : setupDevice env done.length d st with
        | none => simp only [hS] at hh; cases hh
        | some r =>
          obtain ⟨fl, d1⟩ := r
          cases fl with
          | next st2 => simp only [hS] at hh; exact ih _ _ _ hh
          | ret e2 s2 =>
            simp only [hS, Option.some.injEq, Flow.ret.injEq] at hh
            obtain ⟨rfl, -⟩ := hh
            -- the body only returns codes other than OK
            unfold setupDevice at hS
            cases hI : inputLoop env (multiValues st.s.m_config.m_inputs d.m_strInternalName)
                d.clearInputs.clearOutputs { st.s with m_pErrorDevice := some done.length } with
            | none => simp only [hI] at hS; cases hS
            | some r =>
              obtain ⟨flI, dv⟩ := r
              cases flI with
              | ret e s3 =>
                simp only [hI, Option.some.injEq, Prod.mk.injEq, Flow.ret.injEq] at hS
                obtain ⟨⟨rfl, rfl⟩, rfl⟩ := hS
                exact inputLoop_ret_ne_ok env _ _ _ _ _ hI
              | next p =>
                obtain ⟨dI, sI⟩ := p
                simp only [hI] at hS
                cases hO : outputLoop env done.length
                    (multiValues st.s.m_config.m_outputs d.m_strInternalName) dI sI with
                | none => simp only [hO] at hS; cases hS
                | some r2 =>
                  obtain ⟨flO, dv2⟩ := r2
                  cases flO with
                  | ret e s3 =>
                    simp only [hO, Option.some.injEq, Prod.mk.injEq, Flow.ret.injEq] at hS
                    obtain ⟨⟨rfl, rfl⟩, rfl⟩ := hS
                    exact outputLoop_ret_ne_ok env _ _ _ _ _ _ hO
                  | next p2 =>
                    obtain ⟨dO, sO⟩ := p2
                    simp only [hO] at hS
                    split at hS
                    · split at hS
                      · rename_i hne
                        simp only [Option.some.injEq, Prod.mk.injEq, Flow.ret.injEq] at hS
                        exact hne hS.1.1
                      · cases hS
                    · cases hS
    exact hd _ _ _ _ hr
  · subst f9
    refine ⟨devs1, f1, ?_⟩
    rcases clockReferenceFallback_some env st.s s6 f7 with ⟨g1, rfl⟩ | ⟨g1, i, d, g2, g3, g4, g5, g6, g7, g8, g9, g10⟩
    · refine ⟨f3, f4, f5, fun _ => f2, Or.inl ⟨?_, f2, f6⟩⟩
      rw [← f6]; exact g1
    · refine ⟨g7.trans f3, g8.trans f4, ?_, ?_, Or.inr ⟨?_, i, d, g2, g3, ?_, ?_⟩⟩
      · show s6.m_outputBuffers = _
        by_cases hne : st.s.m_devices = []
        · rw [g10 hne]
          have hs : s.m_devices = [] := by
            rw [f2] at hne
            subst hne
            exact List.forall₂_nil_right_iff.mp f1
          rw [hs]
          rfl
        · rw [g9 hne, f5]
      · intro hne
        show s6.m_devices = devs1
        have hne2 : st.s.m_devices ≠ [] := by
          rw [f2]
          intro he
          subst he
          exact hne (List.forall₂_nil_right_iff.mp f1)
        rw [g6 hne2, f2]
      · rw [← f6]; exact g1
      · rw [← f3]; exact g4
      · rw [← f3]; exact g5

/-! ## Lemmas on the stored output buffers -/

theorem QHash.contains_insert {V : Type} (h : QHash V) (k k2 : AudioPath) (v : V) :
    QHash.contains (QHash.insert h k v) k2 = true ↔
      (k.ident = k2.ident ∨ QHash.contains h k2 = true) := by
  induction h with
  | nil => simp [QHash.insert, QHash.contains]
  | cons e t ih =>
    obtain ⟨k', v'⟩ := e
    by_cases hk : k'.ident = k.ident
    · simp only [QHash.insert, if_pos hk, QHash.contains]
      by_cases hk2 : k'.ident = k2.ident
      · simp only [if_pos hk2, true_iff]
        exact Or.inr trivial
      · simp only [if_neg hk2]
        constructor
        · intro hc; exact Or.inr hc
        · rintro (he | hc)
          · exact absurd (hk.trans he) hk2
          · exact hc
    · simp only [QHash.insert, if_neg hk, QHash.contains]
      by_cases hk2 : k'.ident = k2.ident
      · simp only [if_pos hk2, true_iff]
        exact Or.inr trivial
      · simp only [if_neg hk2]
        exact ih

theorem QHash.value?_insert {V : Type} (h : QHash V) (k k2 : AudioPath) (v w : V)
    (hv : QHash.value? (QHash.insert h k v) k2 = some w) :
    (k.ident = k2.ident ∧ w = v) ∨ QHash.value? h k2 = some w := by
  by_cases he : k.ident = k2.ident
  · left
    rw [← QHash.value?_congr _ k k2 he, QHash.value?_insert_self] at hv
    cases hv
    exact ⟨he, rfl⟩
  · right
    rw [QHash.value?_insert_of_ne h k k2 v he] at hv
    exact hv

theorem contains_storeOutputs (env : Env) (sources : QHash (Option Nat))
    (outs : List AudioOutput) :
    ∀ (h : QHash (Option Nat)) (out : AudioOutput),
      QHash.contains (storeOutputs env sources outs h) out = true ↔
        (QHash.contains h out = true ∨
          ∃ o ∈ outs, o.ident = out.ident ∧ (producedBuffer env sources o).isSome = true) := by
  induction outs with
  | nil => intro h out; simp [storeOutputs]
  | cons a rest ih =>
    intro h out
    have hstep : storeOutputs env sources (a :: rest) h
        = storeOutputs env sources rest
            (match producedBuffer env sources a with
              | some buffer => QHash.insert h a (some buffer)
              | none => h) := rfl
    rw [hstep, ih]
    cases hp : producedBuffer env sources a with
    | none =>
      simp only
      constructor
      · rintro (hc | ⟨o, hm, he, hs⟩)
        · exact Or.inl hc
        · exact Or.inr ⟨o, List.mem_cons_of_mem a hm, he, hs⟩
      · rintro (hc | ⟨o, hm, he, hs⟩)
        · exact Or.inl hc
        · rcases List.mem_cons.mp hm with rfl | hm'
          · rw [hp] at hs; cases hs
          · exact Or.inr ⟨o, hm', he, hs⟩
    | some buffer =>
      simp only [QHash.contains_insert]
      constructor
      · rintro ((he | hc) | ⟨o, hm, he, hs⟩)
        · exact Or.inr ⟨a, List.mem_cons_self a rest, he, by rw [hp]; rfl⟩
        · exact Or.inl hc
        · exact Or.inr ⟨o, List.mem_cons_of_mem a hm, he, hs⟩
      · rintro (hc | ⟨o, hm, he, hs⟩)
        · exact Or.inl (Or.inr hc)
        · rcases List.mem_cons.mp hm with rfl | hm'
          · exact Or.inl (Or.inl he)
          · exact Or.inr ⟨o, hm', he, hs⟩

theorem value?_storeOutputs (env : Env) (sources : QHash (Option Nat))
    (outs : List AudioOutput) :
    ∀ (h : QHash (Option Nat)) (out : AudioOutput) (w : Option Nat),
      QHash.value? (storeOutputs env sources outs h) out = some w →
        (QHash.value? h out = some w ∨
          ∃ o ∈ outs, o.ident = out.ident ∧ w.isSome = true ∧ producedBuffer env sources o = w) := by
  induction outs with
  | nil => intro h out w hv; exact Or.inl hv
  | cons a rest ih =>
    intro h out w hv
    have hstep : storeOutputs env sources (a :: rest) h
        = storeOutputs env sources rest
            (match producedBuffer env sources a with
              | some buffer => QHash.insert h a (some buffer)
              | none => h) := rfl
    rw [hstep] at hv
    rcases ih _ out w hv with h1 | ⟨o, hm, he, hs, hp⟩
    · cases hp : producedBuffer env sources a with
      | none =>
        rw [hp] at h1
        exact Or.inl h1
      | some buffer =>
        rw [hp] at h1
        rcases QHash.value?_insert h a out _ w h1 with ⟨he, rfl⟩ | h2
        · exact Or.inr ⟨a, List.mem_cons_self a rest, he, rfl, hp⟩
        · exact Or.inl h2
    · exact Or.inr ⟨o, List.mem_cons_of_mem a hm, he, hs, hp⟩

theorem mem_allConfiguredOutputs (cfg : SoundManagerConfig) (devs : List SoundDevice)
    (o : AudioOutput) :
    o ∈ allConfiguredOutputs cfg devs ↔ ∃ d ∈ devs, o ∈ configuredOutputs cfg d := by
  simp only [allConfiguredOutputs, List.mem_flatten, List.mem_map]
  constructor
  · rintro ⟨l, ⟨d, hd, rfl⟩, ho⟩
    exact ⟨d, hd, ho⟩
  · rintro ⟨d, hd, ho⟩
    exact ⟨_, ⟨d, hd, rfl⟩, ho⟩

theorem clockLoop_some (env : Env) (cfg : SoundManagerConfig) (sources : QHash (Option Nat))
    (devs : List SoundDevice) :
    ∀ (k x : Nat), ∃ y, clockLoop env cfg sources k devs (some x) = some y := by
  induction devs with
  | nil => intro k x; exact ⟨x, rfl⟩
  | cons a rest ih =>
    intro k x
    simp only [clockLoop, clockAfter]
    by_cases hm : carries env cfg sources AudioPathType.MASTER a = true
    · rw [if_pos hm]; exact ih _ _
    · rw [if_neg hm, if_neg (by simp)]; exact ih _ _

theorem clockLoop_eq_none (env : Env) (cfg : SoundManagerConfig) (sources : QHash (Option Nat))
    (devs : List SoundDevice) :
    ∀ k, clockLoop env cfg sources k devs none = none →
      ∀ d ∈ devs, carries env cfg sources AudioPathType.MASTER d = false ∧
        carries env cfg sources AudioPathType.DECK d = false := by
  induction devs with
  | nil => intro k _ d hd; cases hd
  | cons a rest ih =>
    intro k h d hd
    simp only [clockLoop, clockAfter] at h
    by_cases hm : carries env cfg sources AudioPathType.MASTER a = true
    · rw [if_pos hm] at h
      obtain ⟨y, hy⟩ := clockLoop_some env cfg sources rest (k + 1) k
      rw [hy] at h
      cases h
    · rw [if_neg hm] at h
      by_cases hdk : carries env cfg sources AudioPathType.DECK a = true
      · rw [if_pos ⟨hdk, trivial⟩] at h
        obtain ⟨y, hy⟩ := clockLoop_some env cfg sources rest (k + 1) k
        rw [hy] at h
        cases h
      · rw [if_neg (fun hh => hdk hh.1)] at h
        rcases List.mem_cons.mp hd with rfl | hd'
        · exact ⟨by simpa using hm, by simpa using hdk⟩
        · exact ih _ h d hd'

theorem matchesCriteria_output (api : String) (d : SoundDevice) :
    matchesCriteria api true false d = true ↔ (d.m_hostAPI = api ∧ 0 < d.m_iNumOutputChannels) := by
  simp [matchesCriteria]

theorem requestBuffer_outputBuffers (s : SoundManager) (outputs : List AudioOutput)
    (frames device : Nat) (streamTime : Int) :
    (s.requestBuffer outputs frames device streamTime).1 = s.m_outputBuffers ∧
    (s.requestBuffer outputs frames device streamTime).2.m_outputBuffers = s.m_outputBuffers := by
  unfold SoundManager.requestBuffer
  split <;> exact ⟨rfl, rfl⟩

theorem pushBuffer_outputBuffers (s s1 : SoundManager) (inputs : List AudioInput)
    (inputBuffer : BufferPtr) (frames frameSize : Nat)
    (h : s.pushBuffer inputs inputBuffer frames frameSize = some s1) :
    s1.m_outputBuffers = s.m_outputBuffers := by
  unfold SoundManager.pushBuffer at h
  simp only at h
  split at h
  · cases h
  · split at h <;> cases h <;> rfl

theorem runStep_outputBuffers (s s1 : SoundManager) (h : RunStep s s1) :
    s1.m_outputBuffers = s.m_outputBuffers := by
  induction h with
  | request outputs frames device streamTime =>
    exact (requestBuffer_outputBuffers s outputs frames device streamTime).2
  | push s2 inputs inputBuffer frames frameSize hp =>
    exact pushBuffer_outputBuffers s s2 inputs inputBuffer frames frameSize hp
  | registerOutput output src => rfl
  | registerInput input dest => rfl

theorem reaches_outputBuffers (s s1 : SoundManager) (h : Reaches s s1) :
    s1.m_outputBuffers = s.m_outputBuffers := by
  induction h with
  | refl => rfl
  | tail _ hstep ih => rw [runStep_outputBuffers _ _ hstep, ih]

/-! ## The claims -/

/-- C1 (as stated, refuted): the round-trip claim fails for hardware frame size
2 with two mono inputs (each buffer receives the whole interleaved buffer), and
for frame size 4 with two listed inputs of one identity on disjoint
channel-groups (they share one buffer, which ends up holding the second group). -/
theorem pushBuffer_roundtrip_counterexample :
    ¬ RoundTripClaim exMonoState [exLeft, exRight] [10, 11, 20, 21] 2 2 ∧
    ¬ RoundTripClaim exFrontState [exFront, exFrontAgain] [1, 2, 3, 4] 1 4 := by
  constructor
  · intro h
    have hc := h (by decide) (by decide) (by decide) (by decide) (by decide)
      (by
        intro inp hm
        refine ⟨[0, 0, 0, 0], ?_, ?_⟩
        · simp only [List.mem_cons, List.mem_singleton, List.not_mem_nil, or_false] at hm
          rcases hm with rfl | rfl <;> decide
        · simp only [List.mem_cons, List.mem_singleton, List.not_mem_nil, or_false] at hm
          rcases hm with rfl | rfl <;> decide)
    obtain ⟨s', hs', hall⟩ := hc
    have hrun : exMonoState.pushBuffer [exLeft, exRight] (some [10, 11, 20, 21]) 2 2
        = some { exMonoState with
            m_inputBuffers :=
              [(exLeft, some [10, 11, 20, 21]), (exRight, some [10, 11, 20, 21])] } := by
      decide
    rw [hrun] at hs'
    cases hs'
    obtain ⟨b, hb, hf⟩ := hall exLeft (by simp)
    have hb' : b = [10, 11, 20, 21] := by
      have : QHash.value? [(exLeft, some ([10, 11, 20, 21] : Buffer)),
          (exRight, some [10, 11, 20, 21])] exLeft = some (some [10, 11, 20, 21]) := by decide
      simp only at hb
      rw [this] at hb
      cases hb
      rfl
    subst hb'
    have := hf 1 0 (by decide) (by decide)
    revert this
    decide
  · intro h
    have hc := h (by decide) (by decide) (by decide) (by decide) (by decide)
      (by
        intro inp hm
        refine ⟨[0, 0, 0, 0], ?_, ?_⟩
        · simp only [List.mem_cons, List.mem_singleton, List.not_mem_nil, or_false] at hm
          rcases hm with rfl | rfl <;> decide
        · simp only [List.mem_cons, List.mem_singleton, List.not_mem_nil, or_false] at hm
          rcases hm with rfl | rfl <;> decide)
    obtain ⟨s', hs', hall⟩ := hc
    have hrun : exFrontState.pushBuffer [exFront, exFrontAgain] (some [1, 2, 3, 4]) 1 4
        = some { exFrontState with
            m_inputBuffers := [(exFront, some [3, 4, 0, 0])] } := by
      decide
    rw [hrun] at hs'
    cases hs'
    obtain ⟨b, hb, hf⟩ := hall exFront (by simp)
    have hb' : b = [3, 4, 0, 0] := by
      have : QHash.value? [(exFront, some ([3, 4, 0, 0] : Buffer))] exFront
          = some (some [3, 4, 0, 0]) := by decide
      simp only at hb
      rw [this] at hb
      cases hb
      rfl
    subst hb'
    have := hf 0 0 (by decide) (by decide)
    revert this
    decide

/-- C1 (amended): for listed inputs with pairwise distinct identities whose
channel-groups lie inside the hardware frame, each with an allocated buffer of
at least `frames * channelCount` samples, and with every input of width 2 when
the hardware frame size is 2, `pushBuffer` on a non-null raw buffer of
`frames * frameSize` samples returns and leaves in every input's buffer its own
channel-group's sequence: `buffer[f*channelCount + c] = raw[f*frameSize + channelBase + c]`. -/
theorem pushBuffer_roundtrip (s : SoundManager) (inputs : List AudioInput) (raw : Buffer)
    (frames frameSize : Nat)
    (hF : frames < UINT) (hfit : frames * frameSize ≤ UINT)
    (hraw : frames * frameSize ≤ raw.length)
    (hnd : (inputs.map AudioPath.ident).Nodup)
    (hstereo : frameSize = 2 → ∀ inp ∈ inputs, inp.m_channelGroup.m_channels = 2)
    (hgrp : ∀ inp ∈ inputs,
      inp.m_channelGroup.m_channelBase + inp.m_channelGroup.m_channels ≤ frameSize)
    (halloc : ∀ inp ∈ inputs, ∃ old, QHash.value? s.m_inputBuffers inp = some (some old) ∧
      frames * inp.m_channelGroup.m_channels ≤ old.length) :
    ∃ s', s.pushBuffer inputs (some raw) frames frameSize = some s' ∧
      ∀ inp ∈ inputs, ∃ b, QHash.value? s'.m_inputBuffers inp = some (some b) ∧
        ∀ f c, f < frames → c < inp.m_channelGroup.m_channels →
          b[f * inp.m_channelGroup.m_channels + c]?
            = raw[f * frameSize + inp.m_channelGroup.m_channelBase + c]? := by
  by_cases h2 : frameSize = 2
  · subst h2
    have hin : ∀ inp ∈ inputs,
        ∃ old, QHash.value? s.m_inputBuffers inp = some (some old) ∧ 2 * frames ≤ old.length := by
      intro inp hm
      obtain ⟨old, hv, hl⟩ := halloc inp hm
      rw [hstereo rfl inp hm] at hl
      exact ⟨old, hv, by omega⟩
    obtain ⟨s', hs', hmap⟩ := pushBuffer_bulk s inputs raw frames (by omega) hin
    refine ⟨s', hs', ?_⟩
    intro inp hm
    obtain ⟨old, hv, hl⟩ := hin inp hm
    refine ⟨bulkSpec raw (2 * frames) inp old, ?_, ?_⟩
    · rw [hmap]
      exact foldl_applyWrite_value?_of_mem _ inputs _ inp old hnd hm hv
    · intro f c hf hc
      have hcc := hstereo rfl inp hm
      have hb : inp.m_channelGroup.m_channelBase = 0 := by
        have := hgrp inp hm
        omega
      rw [hcc] at hc ⊢
      rw [hb]
      have hlt : f * 2 + c < 2 * frames := by omega
      simp only [bulkSpec, Nat.add_zero]
      rw [List.getElem?_append_left (by simp only [List.length_take]; omega),
        List.getElem?_take_of_lt hlt]
  · have hin : ∀ inp ∈ inputs,
        inp.m_channelGroup.m_channelBase + inp.m_channelGroup.m_channels ≤ frameSize ∧
        ∃ old, QHash.value? s.m_inputBuffers inp = some (some old) ∧
          frames * inp.m_channelGroup.m_channels ≤ old.length :=
      fun inp hm => ⟨hgrp inp hm, halloc inp hm⟩
    obtain ⟨s', hs', hmap⟩ := pushBuffer_general s inputs raw frames frameSize h2 hF hfit hraw hin
    refine ⟨s', hs', ?_⟩
    intro inp hm
    obtain ⟨old, hv, hl⟩ := halloc inp hm
    refine ⟨deinterleaveSpec raw frames frameSize inp old, ?_, ?_⟩
    · rw [hmap]
      exact foldl_applyWrite_value?_of_mem _ inputs _ inp old hnd hm hv
    · intro f c hf hc
      exact deinterleaveSpec_getElem? raw frames frameSize inp old f c hraw (hgrp inp hm) hl hf hc

/-- Witness for C1 (amended): two stereo inputs on a four-channel device, two frames. -/
theorem pushBuffer_roundtrip_witness :
    ∃ s', exQuadState.pushBuffer [exFront, exBack] (some [1, 2, 3, 4, 5, 6, 7, 8]) 2 4 = some s' ∧
      ∀ inp ∈ [exFront, exBack], ∃ b, QHash.value? s'.m_inputBuffers inp = some (some b) ∧
        ∀ f c, f < 2 → c < inp.m_channelGroup.m_channels →
          b[f * inp.m_channelGroup.m_channels + c]?
            = ([1, 2, 3, 4, 5, 6, 7, 8] : Buffer)[f * 4 + inp.m_channelGroup.m_channelBase + c]? :=
  pushBuffer_roundtrip exQuadState [exFront, exBack] [1, 2, 3, 4, 5, 6, 7, 8] 2 4
    (by decide) (by decide) (by decide) (by decide) (by decide) (by decide)
    (by
      intro inp hm
      refine ⟨[0, 0, 0, 0], ?_, ?_⟩
      · simp only [List.mem_cons, List.mem_singleton, List.not_mem_nil, or_false] at hm
        rcases hm with rfl | rfl <;> decide
      · simp only [List.mem_cons, List.mem_singleton, List.not_mem_nil, or_false] at hm
        rcases hm with rfl | rfl <;> decide)

/-- C2: whenever the hardware frame size is not 2 (the raw buffer holding
`frames * frameSize` samples, a count that fits `unsigned int`, every listed
input's channel-group inside the frame and its buffer allocated with at least
`frames * channelCount` samples), `pushBuffer` returns and its effect on the
input buffers is exactly, for every listed input in list order, the write
`buffer[f*channelCount + c] := raw[f*frameSize + channelBase + c]` for all
`f < frames`, `c < channelCount`, and no other write: the new hash is the fold of
`deinterleaveWrite`; for listed inputs of pairwise distinct identities every
written position holds its raw sample and every other position keeps its old
sample; buffers of identities not listed are untouched. -/
theorem pushBuffer_general_deinterleave (s : SoundManager) (inputs : List AudioInput)
    (raw : Buffer) (frames frameSize : Nat) (h2 : frameSize ≠ 2)
    (hF : frames < UINT) (hfit : frames * frameSize ≤ UINT)
    (hraw : frames * frameSize ≤ raw.length)
    (hin : ∀ inp ∈ inputs,
      inp.m_channelGroup.m_channelBase + inp.m_channelGroup.m_channels ≤ frameSize ∧
      ∃ old, QHash.value? s.m_inputBuffers inp = some (some old) ∧
        frames * inp.m_channelGroup.m_channels ≤ old.length) :
    ∃ s', s.pushBuffer inputs (some raw) frames frameSize = some s' ∧
      s'.m_inputBuffers = inputs.foldl (deinterleaveWrite raw frames frameSize) s.m_inputBuffers ∧
      ((inputs.map AudioPath.ident).Nodup →
        ∀ inp ∈ inputs, ∀ old, QHash.value? s.m_inputBuffers inp = some (some old) →
          ∃ b, QHash.value? s'.m_inputBuffers inp = some (some b) ∧ b.length = old.length ∧
            (∀ f c, f < frames → c < inp.m_channelGroup.m_channels →
              b[f * inp.m_channelGroup.m_channels + c]?
                = raw[f * frameSize + inp.m_channelGroup.m_channelBase + c]?) ∧
            (∀ i, frames * inp.m_channelGroup.m_channels ≤ i → b[i]? = old[i]?)) ∧
      (∀ k : AudioInput, k.ident ∉ inputs.map AudioPath.ident →
        QHash.value? s'.m_inputBuffers k = QHash.value? s.m_inputBuffers k) := by
  obtain ⟨s', hs', hmap⟩ := pushBuffer_general s inputs raw frames frameSize h2 hF hfit hraw hin
  refine ⟨s', hs', hmap, ?_, ?_⟩
  · intro hnd inp hm old hv
    obtain ⟨hg, old', hv', hl⟩ := hin inp hm
    rw [hv] at hv'
    cases hv'
    refine ⟨deinterleaveSpec raw frames frameSize inp old, ?_, deinterleaveSpec_length _ _ _ _ _,
      ?_, ?_⟩
    · rw [hmap]
      exact foldl_applyWrite_value?_of_mem _ inputs _ inp old hnd hm hv
    · intro f c hf hc
      exact deinterleaveSpec_getElem? raw frames frameSize inp old f c hraw hg hl hf hc
    · intro i hi
      exact deinterleaveSpec_getElem?_ge raw frames frameSize inp old i hi
  · intro k hk
    rw [hmap]
    exact foldl_applyWrite_value?_of_not_mem _ inputs _ k hk

/-- Witness for C2: two stereo inputs on a four-channel device, one frame. -/
theorem pushBuffer_general_deinterleave_witness :
    ∃ s', exQuadState.pushBuffer [exFront, exBack] (some [1, 2, 3, 4]) 1 4 = some s' ∧
      s'.m_inputBuffers
        = [exFront, exBack].foldl (deinterleaveWrite [1, 2, 3, 4] 1 4) exQuadState.m_inputBuffers ∧
      (([exFront, exBack].map AudioPath.ident).Nodup →
        ∀ inp ∈ [exFront, exBack], ∀ old,
          QHash.value? exQuadState.m_inputBuffers inp = some (some old) →
          ∃ b, QHash.value? s'.m_inputBuffers inp = some (some b) ∧ b.length = old.length ∧
            (∀ f c, f < 1 → c < inp.m_channelGroup.m_channels →
              b[f * inp.m_channelGroup.m_channels + c]?
                = ([1, 2, 3, 4] : Buffer)[f * 4 + inp.m_channelGroup.m_channelBase + c]?) ∧
            (∀ i, 1 * inp.m_channelGroup.m_channels ≤ i → b[i]? = old[i]?)) ∧
      (∀ k : AudioInput, k.ident ∉ [exFront, exBack].map AudioPath.ident →
        QHash.value? s'.m_inputBuffers k = QHash.value? exQuadState.m_inputBuffers k) :=
  pushBuffer_general_deinterleave exQuadState [exFront, exBack] [1, 2, 3, 4] 1 4
    (by decide) (by decide) (by decide) (by decide)
    (by
      intro inp hm
      refine ⟨?_, [0, 0, 0, 0], ?_, ?_⟩
      · simp only [List.mem_cons, List.mem_singleton, List.not_mem_nil, or_false] at hm
        rcases hm with rfl | rfl <;> decide
      · simp only [List.mem_cons, List.mem_singleton, List.not_mem_nil, or_false] at hm
        rcases hm with rfl | rfl <;> decide
      · simp only [List.mem_cons, List.mem_singleton, List.not_mem_nil, or_false] at hm
        rcases hm with rfl | rfl <;> decide)

/-- C3: with hardware frame size 2 and a single stereo input of width 2 at
channel base 0 whose buffer and the raw buffer hold at least `2 * frames`
samples, `pushBuffer` returns and the first `2 * frames` samples of the input's
buffer are those of the raw buffer; the buffer keeps its length and the samples
behind them. -/
theorem pushBuffer_bulk_copy (s : SoundManager) (inp : AudioInput) (raw old : Buffer)
    (frames : Nat) (_hstereo : inp.m_channelGroup = ⟨0, 2⟩)
    (hv : QHash.value? s.m_inputBuffers inp = some (some old))
    (hold : 2 * frames ≤ old.length) (hraw : 2 * frames ≤ raw.length) :
    ∃ s' b, s.pushBuffer [inp] (some raw) frames 2 = some s' ∧
      QHash.value? s'.m_inputBuffers inp = some (some b) ∧
      b.take (2 * frames) = raw.take (2 * frames) ∧
      b.drop (2 * frames) = old.drop (2 * frames) ∧ b.length = old.length := by
  obtain ⟨s', hs', hmap⟩ := pushBuffer_bulk s [inp] raw frames hraw
    (by
      intro a ha
      rw [List.mem_singleton] at ha
      subst ha
      exact ⟨old, hv, hold⟩)
  have hlen : (List.take (2 * frames) raw).length = 2 * frames := by
    rw [List.length_take]; omega
  refine ⟨s', bulkSpec raw (2 * frames) inp old, hs', ?_, ?_, ?_, ?_⟩
  · rw [hmap]
    exact applyWrite_value?_self _ _ inp old hv
  · simp only [bulkSpec]
    rw [List.take_append_of_le_length (by omega), List.take_of_length_le (by omega)]
  · simp only [bulkSpec]
    rw [List.drop_append_of_le_length (by omega), List.drop_of_length_le (by omega),
      List.nil_append]
  · simp only [bulkSpec, List.length_append, List.length_drop, hlen]
    omega

/-- Witness for C3: one stereo input, two frames. -/
theorem pushBuffer_bulk_copy_witness :
    ∃ s' b, exFrontState.pushBuffer [exFront] (some [10, 11, 20, 21]) 2 2 = some s' ∧
      QHash.value? s'.m_inputBuffers exFront = some (some b) ∧
      b.take (2 * 2) = ([10, 11, 20, 21] : Buffer).take (2 * 2) ∧
      b.drop (2 * 2) = ([0, 0, 0, 0] : Buffer).drop (2 * 2) ∧
      b.length = ([0, 0, 0, 0] : Buffer).length :=
  pushBuffer_bulk_copy exFrontState exFront [10, 11, 20, 21] [0, 0, 0, 0] 2 rfl (by decide)
    (by decide) (by decide)

/-- C4: when `requestBuffer` is called by the clock-reference device and the
non-blocking lock is free, with a frame count whose double fits `unsigned long`
(`framesPerBuffer < 2^63`), it takes the lock, calls `sync`, then the mixing
engine exactly once as `process(0, 0, 2 * framesPerBuffer)`, then releases the
lock: these four steps, in this order, are all it adds to the trace, the lock
is free when it returns, and it returns the stored output-buffer hash. -/
theorem requestBuffer_clock_reference (s : SoundManager) (outputs : List AudioOutput)
    (frames device : Nat) (streamTime : Int)
    (hdev : s.m_pClkRefDevice = some device) (hfree : s.requestBufferMutex = false)
    (hF : frames < 2 ^ 63) :
    (s.requestBuffer outputs frames device streamTime).2.trace
        = s.trace ++ [Event.mutexLocked, Event.sync, Event.process 0 0 (2 * frames),
            Event.mutexUnlocked] ∧
      (s.requestBuffer outputs frames device streamTime).2.requestBufferMutex = false ∧
      (s.requestBuffer outputs frames device streamTime).1 = s.m_outputBuffers ∧
      (s.requestBuffer outputs frames device streamTime).2
        = { s with trace := (s.requestBuffer outputs frames device streamTime).2.trace } := by
  have hc : some device = s.m_pClkRefDevice ∧ s.requestBufferMutex = false := ⟨hdev.symm, hfree⟩
  have hval : s.requestBuffer outputs frames device streamTime
      = (s.m_outputBuffers, { s with
          requestBufferMutex := false
          trace := s.trace ++ [Event.mutexLocked, Event.sync, Event.process 0 0 (2 * frames),
            Event.mutexUnlocked] }) := by
    have hmod : frames * 2 % ULONG = 2 * frames :=
      (Nat.mod_eq_of_lt (by unfold ULONG; omega)).trans (Nat.mul_comm frames 2)
    simp only [SoundManager.requestBuffer, if_pos hc, List.append_assoc, List.singleton_append,
      List.nil_append, hmod]
    rfl
  rw [hval]
  refine ⟨rfl, rfl, rfl, ?_⟩
  cases s
  simp only at hfree
  subst hfree
  rfl

/-- Witness for C4: the clock-reference device 0 asks for 64 frames. -/
theorem requestBuffer_clock_reference_witness :
    (exRunning.requestBuffer [] 64 0 0).2.trace
        = exRunning.trace ++ [Event.mutexLocked, Event.sync, Event.process 0 0 (2 * 64),
            Event.mutexUnlocked] ∧
      (exRunning.requestBuffer [] 64 0 0).2.requestBufferMutex = false ∧
      (exRunning.requestBuffer [] 64 0 0).1 = exRunning.m_outputBuffers ∧
      (exRunning.requestBuffer [] 64 0 0).2
        = { exRunning with trace := (exRunning.requestBuffer [] 64 0 0).2.trace } :=
  requestBuffer_clock_reference exRunning [] 64 0 0 rfl rfl (by decide)

/-- C5: when `requestBuffer` is called by a device that is not the clock
reference, or by the clock reference while the lock is held, the manager's
state is left exactly as it was (no `sync`, no engine call, the lock and the
stored output-buffer hash untouched) and the stored hash is returned. -/
theorem requestBuffer_no_processing (s : SoundManager) (outputs : List AudioOutput)
    (frames device : Nat) (streamTime : Int)
    (h : s.m_pClkRefDevice ≠ some device ∨ s.requestBufferMutex = true) :
    s.requestBuffer outputs frames device streamTime = (s.m_outputBuffers, s) := by
  have hc : ¬ (some device = s.m_pClkRefDevice ∧ s.requestBufferMutex = false) := by
    rintro ⟨h1, h2⟩
    rcases h with h | h
    · exact h h1.symm
    · rw [h2] at h
      cases h
  simp only [SoundManager.requestBuffer, if_neg hc]

/-- Witness for C5: device 1 is not the clock reference of `exRunning`. -/
theorem requestBuffer_no_processing_witness :
    exRunning.requestBuffer [] 64 1 0 = (exRunning.m_outputBuffers, exRunning) :=
  requestBuffer_no_processing exRunning [] 64 1 0 (Or.inl (by decide))

/-- C6 (as stated, refuted): the engine is registered as producer of master,
deck 0 and headphones, and the configuration assigns only the master output to
card A.  The setup pass returns `OK`, deck 0 is a registered output, and the
hash `requestBuffer` returns has no entry for deck 0. -/
theorem requestBuffer_registered_counterexample :
    ∃ s', (exRegistered [exCardA, exCardB] [("A", exMaster)]).setupDevices exEnv = some (OK, s') ∧
      exDeck0 ∈ s'.registeredOutputs ∧
      QHash.contains (s'.requestBuffer [exDeck0] 64 0 0).1 exDeck0 = false := by
  have h : ((exRegistered [exCardA, exCardB] [("A", exMaster)]).setupDevices exEnv).map
      (fun r => decide (r.1 = OK ∧ exDeck0 ∈ r.2.registeredOutputs ∧
        QHash.contains (r.2.requestBuffer [exDeck0] 64 0 0).1 exDeck0 = false)) = some true := by
    decide
  cases hr : (exRegistered [exCardA, exCardB] [("A", exMaster)]).setupDevices exEnv with
  | none => rw [hr] at h; cases h
  | some r =>
    obtain ⟨e, s'⟩ := r
    rw [hr] at h
    simp only [Option.map_some', Option.some.injEq, decide_eq_true_eq] at h
    obtain ⟨h1, h2, h3⟩ := h
    have h1' : e = OK := h1
    subst h1'
    exact ⟨s', rfl, h2, h3⟩

/-- C6 (amended): in every state reached from a setup pass that returned `OK`
by callbacks (`requestBuffer`, `pushBuffer`) and registrations, for every
`outputs` argument, frame count and requesting device, `requestBuffer` returns
the output-buffer hash the pass stored and leaves it as it is; that hash has an
entry exactly for the identities of the outputs that the configuration of the
pass assigns to a device of the list and whose registered producer supplied a
non-null buffer, and each entry holds the (non-null) buffer that producer
supplied for such an assignment during the pass. -/
theorem requestBuffer_after_setup (env : Env) (s s' s2 : SoundManager)
    (h : s.setupDevices env = some (OK, s')) (hreach : Reaches s' s2)
    (outputs : List AudioOutput) (frames device : Nat) (streamTime : Int) :
    (s2.requestBuffer outputs frames device streamTime).1 = s'.m_outputBuffers ∧
    (s2.requestBuffer outputs frames device streamTime).2.m_outputBuffers = s'.m_outputBuffers ∧
    (∀ out : AudioOutput,
      QHash.contains (s2.requestBuffer outputs frames device streamTime).1 out = true ↔
        ∃ d ∈ s.m_devices, ∃ o ∈ configuredOutputs (effectiveConfig env s) d,
          o.ident = out.ident ∧ (producedBuffer env s.m_registeredSources o).isSome = true) ∧
    (∀ (out : AudioOutput) (w : Option Nat),
      QHash.value? (s2.requestBuffer outputs frames device streamTime).1 out = some w →
        ∃ d ∈ s.m_devices, ∃ o ∈ configuredOutputs (effectiveConfig env s) d,
          o.ident = out.ident ∧ w.isSome = true ∧ producedBuffer env s.m_registeredSources o = w) := by
  obtain ⟨devs1, -, -, -, hob, -, -⟩ := setupDevices_ok env s s' h
  have hkeep := reaches_outputBuffers s' s2 hreach
  obtain ⟨r1, r2⟩ := requestBuffer_outputBuffers s2 outputs frames device streamTime
  rw [r1, r2, hkeep]
  refine ⟨rfl, rfl, ?_, ?_⟩
  · intro out
    rw [hob, contains_storeOutputs]
    constructor
    · rintro (hc | ⟨o, hm, he, hs⟩)
      · simp [QHash.contains] at hc
      · obtain ⟨d, hd, ho⟩ := (mem_allConfiguredOutputs _ _ o).mp hm
        exact ⟨d, hd, o, ho, he, hs⟩
    · rintro ⟨d, hd, o, ho, he, hs⟩
      exact Or.inr ⟨o, (mem_allConfiguredOutputs _ _ o).mpr ⟨d, hd, ho⟩, he, hs⟩
  · intro out w hv
    rw [hob] at hv
    rcases value?_storeOutputs env _ _ _ out w hv with hc | ⟨o, hm, he, hs, hp⟩
    · simp [QHash.value?] at hc
    · obtain ⟨d, hd, ho⟩ := (mem_allConfiguredOutputs _ _ o).mp hm
      exact ⟨d, hd, o, ho, he, hs, hp⟩

/-- Witness for C6 (amended): the pass of the counterexample, followed by one
callback of the clock-reference device; the returned hash is the stored one
and holds the master output only. -/
theorem requestBuffer_after_setup_witness :
    (((stateAfterSetup exEnv (exRegistered [exCardA, exCardB] [("A", exMaster)])).requestBuffer
        [] 64 0 0).2.requestBuffer [exDeck0] 64 0 0).1
      = (stateAfterSetup exEnv (exRegistered [exCardA, exCardB] [("A", exMaster)])).m_outputBuffers ∧
    (stateAfterSetup exEnv (exRegistered [exCardA, exCardB] [("A", exMaster)])).m_outputBuffers
      = [(exMaster, some 100)] :=
  ⟨(requestBuffer_after_setup exEnv (exRegistered [exCardA, exCardB] [("A", exMaster)])
      (stateAfterSetup exEnv (exRegistered [exCardA, exCardB] [("A", exMaster)]))
      ((stateAfterSetup exEnv (exRegistered [exCardA, exCardB] [("A", exMaster)])).requestBuffer
        [] 64 0 0).2
      (by decide)
      (Relation.ReflTransGen.single (RunStep.request _ [] 64 0 0))
      [exDeck0] 64 0 0).1, by decide⟩

/-- C7: in every setup pass that returns `OK` and in which some device of the
list carries the MASTER output (the configuration assigns it one whose producer
supplies a non-null buffer), the clock reference after the pass is a device
that carries the MASTER output, whatever the order of the devices and whatever
other outputs the devices carry. -/
theorem setupDevices_master_priority (env : Env) (s s' : SoundManager)
    (h : s.setupDevices env = some (OK, s'))
    (hm : ∃ d ∈ s.m_devices,
      carries env (effectiveConfig env s) s.m_registeredSources AudioPathType.MASTER d = true) :
    ∃ i d d1, s'.m_pClkRefDevice = some i ∧ s.m_devices[i]? = some d ∧
      carries env (effectiveConfig env s) s.m_registeredSources AudioPathType.MASTER d = true ∧
      s'.m_devices[i]? = some d1 ∧ SameDescriptor d d1 ∧
      carries env s'.m_config s'.m_registeredSources AudioPathType.MASTER d1 = true := by
  obtain ⟨devs1, hv, hcfg, hsrc, -, -, hclk⟩ := setupDevices_ok env s s' h
  obtain ⟨i, d, e1, e2, e3⟩ := clockLoop_master env (effectiveConfig env s)
    s.m_registeredSources s.m_devices hm 0 none
  rw [Nat.zero_add] at e1
  rcases hclk with ⟨-, hd, hk⟩ | ⟨hn, -⟩
  · obtain ⟨d1, g1, g2⟩ := forall₂_getElem? _ _ _ hv i d e2
    refine ⟨i, d, d1, by rw [hk, e1], e2, e3, by rw [hd]; exact g1, g2.1, ?_⟩
    rw [hcfg, hsrc, carries_congr _ _ _ _ d d1 g2.1.2.1]
    exact e3
  · rw [e1] at hn
    cases hn

/-- Witness for C7: card B (deck 0 only) enumerated before card A (master):
the clock reference is card A, at position 1. -/
theorem setupDevices_master_priority_witness :
    ∃ i d d1,
      (stateAfterSetup exEnv
        (exRegistered [exCardB, exCardA] [("A", exMaster), ("B", exDeck0)])).m_pClkRefDevice
          = some i ∧
      (exRegistered [exCardB, exCardA] [("A", exMaster), ("B", exDeck0)]).m_devices[i]? = some d ∧
      carries exEnv
        (effectiveConfig exEnv (exRegistered [exCardB, exCardA] [("A", exMaster), ("B", exDeck0)]))
        (exRegistered [exCardB, exCardA] [("A", exMaster), ("B", exDeck0)]).m_registeredSources
        AudioPathType.MASTER d = true ∧
      (stateAfterSetup exEnv
        (exRegistered [exCardB, exCardA] [("A", exMaster), ("B", exDeck0)])).m_devices[i]?
          = some d1 ∧
      SameDescriptor d d1 ∧
      carries exEnv
        (stateAfterSetup exEnv
          (exRegistered [exCardB, exCardA] [("A", exMaster), ("B", exDeck0)])).m_config
        (stateAfterSetup exEnv
          (exRegistered [exCardB, exCardA] [("A", exMaster), ("B", exDeck0)])).m_registeredSources
        AudioPathType.MASTER d1 = true :=
  setupDevices_master_priority exEnv
    (exRegistered [exCardB, exCardA] [("A", exMaster), ("B", exDeck0)])
    (stateAfterSetup exEnv (exRegistered [exCardB, exCardA] [("A", exMaster), ("B", exDeck0)]))
    (by decide) ⟨exCardA, by decide, by decide⟩

/-- C8: in every setup pass that returns `OK` and in which no device of the list
carries the MASTER output while the device at position `i` is the first, in
enumeration order, that carries a DECK output (one whose producer supplies a
non-null buffer), the clock reference after the pass is that device. -/
theorem setupDevices_deck_rule (env : Env) (s s' : SoundManager)
    (h : s.setupDevices env = some (OK, s'))
    (hno : ∀ d ∈ s.m_devices,
      carries env (effectiveConfig env s) s.m_registeredSources AudioPathType.MASTER d = false)
    (i : Nat) (d : SoundDevice) (hget : s.m_devices[i]? = some d)
    (hdeck : carries env (effectiveConfig env s) s.m_registeredSources AudioPathType.DECK d = true)
    (hfirst : ∀ j d2, j < i → s.m_devices[j]? = some d2 →
      carries env (effectiveConfig env s) s.m_registeredSources AudioPathType.DECK d2 = false) :
    s'.m_pClkRefDevice = some i ∧
      ∃ d1, s'.m_devices[i]? = some d1 ∧ SameDescriptor d d1 := by
  obtain ⟨devs1, hv, -, -, -, -, hclk⟩ := setupDevices_ok env s s' h
  have e1 := clockLoop_deck env (effectiveConfig env s) s.m_registeredSources s.m_devices hno 0 i d
    hget hdeck hfirst
  rw [Nat.zero_add] at e1
  rcases hclk with ⟨-, hd, hk⟩ | ⟨hn, -⟩
  · obtain ⟨d1, g1, g2⟩ := forall₂_getElem? _ _ _ hv i d hget
    exact ⟨by rw [hk, e1], d1, by rw [hd]; exact g1, g2.1⟩
  · rw [e1] at hn
    cases hn

/-- Witness for C8: card A carries headphones only, card B carries deck 0: the
clock reference is card B, at position 1. -/
theorem setupDevices_deck_rule_witness :
    (stateAfterSetup exEnv
      (exRegistered [exCardA, exCardB] [("A", exHeadphones), ("B", exDeck0)])).m_pClkRefDevice
        = some 1 ∧
      ∃ d1, (stateAfterSetup exEnv
          (exRegistered [exCardA, exCardB] [("A", exHeadphones), ("B", exDeck0)])).m_devices[1]?
            = some d1 ∧
        SameDescriptor exCardB d1 :=
  setupDevices_deck_rule exEnv
    (exRegistered [exCardA, exCardB] [("A", exHeadphones), ("B", exDeck0)])
    (stateAfterSetup exEnv (exRegistered [exCardA, exCardB] [("A", exHeadphones), ("B", exDeck0)]))
    (by decide) (by decide) 1 exCardB (by decide) (by decide)
    (by
      intro j d2 hj hg
      have hj0 : j = 0 := by omega
      subst hj0
      have hd2 : d2 = exCardA := by
        have : (exRegistered [exCardA, exCardB]
            [("A", exHeadphones), ("B", exDeck0)]).m_devices[0]? = some exCardA := by decide
        rw [this] at hg
        cases hg
        rfl
      subst hd2
      decide)

/-- C9 (as stated, refuted): the configuration assigns only a headphones output,
to card B.  The setup pass returns `OK` and opens card B alone; no device
carries a MASTER or DECK output, the fallback makes card A (position 0, the
first device with output channels) the clock reference, and card A is closed
and has no assigned output. -/
theorem setupDevices_clock_reference_counterexample :
    ∃ s' d, (exRegistered [exCardA, exCardB] [("B", exHeadphones)]).setupDevices exEnv
        = some (OK, s') ∧
      s'.m_pClkRefDevice = some 0 ∧ s'.m_devices[0]? = some d ∧
      d.m_bOpen = false ∧ d.m_audioOutputs = [] := by
  have h : ((exRegistered [exCardA, exCardB] [("B", exHeadphones)]).setupDevices exEnv).map
      (fun r => decide (r.1 = OK ∧ r.2.m_pClkRefDevice = some 0 ∧
        (r.2.m_devices[0]?).map (fun d => (d.m_bOpen, d.m_audioOutputs)) = some (false, [])))
      = some true := by
    decide
  cases hr : (exRegistered [exCardA, exCardB] [("B", exHeadphones)]).setupDevices exEnv with
  | none => rw [hr] at h; cases h
  | some r =>
    obtain ⟨e, s'⟩ := r
    rw [hr] at h
    simp only [Option.map_some', Option.some.injEq, decide_eq_true_eq] at h
    obtain ⟨h1, h2, h3⟩ := h
    have h1' : e = OK := h1
    subst h1'
    cases hd : s'.m_devices[0]? with
    | none => rw [hd] at h3; cases h3
    | some d =>
      rw [hd] at h3
      simp only [Option.map_some', Option.some.injEq, Prod.mk.injEq] at h3
      exact ⟨s', d, rfl, h2, hd, h3.1, h3.2⟩

/-- C9 (amended): after every setup pass that returns `OK` the clock reference
is one device of the list.  Either that device carries a MASTER or DECK output,
and then it is open and has an assigned output; or no device of the list
carries a MASTER or DECK output, and then it is the first device of the list
whose host API is the configured one and that has output channels (nothing is
said about whether that device is open). -/
theorem setupDevices_clock_reference (env : Env) (s s' : SoundManager)
    (h : s.setupDevices env = some (OK, s')) :
    ∃ i d, s'.m_pClkRefDevice = some i ∧ s'.m_devices[i]? = some d ∧
      (((carries env s'.m_config s'.m_registeredSources AudioPathType.MASTER d = true ∨
            carries env s'.m_config s'.m_registeredSources AudioPathType.DECK d = true) ∧
          d.m_bOpen = true ∧ d.m_audioOutputs ≠ []) ∨
        ((∀ d0 ∈ s.m_devices,
            carries env (effectiveConfig env s) s.m_registeredSources AudioPathType.MASTER d0 = false ∧
            carries env (effectiveConfig env s) s.m_registeredSources AudioPathType.DECK d0 = false) ∧
          d.m_hostAPI = s'.m_config.m_api ∧ 0 < d.m_iNumOutputChannels ∧
          ∀ j d2, j < i → s'.m_devices[j]? = some d2 →
            ¬ (d2.m_hostAPI = s'.m_config.m_api ∧ 0 < d2.m_iNumOutputChannels))) := by
  obtain ⟨devs1, hv, hcfg, hsrc, -, -, hclk⟩ := setupDevices_ok env s s' h
  rcases hclk with ⟨hne, hd, hk⟩ | ⟨hn, i, d, g1, g2, g3, g4⟩
  · cases hx : clockLoop env (effectiveConfig env s) s.m_registeredSources 0 s.m_devices none with
    | none => exact absurd hx hne
    | some x =>
      rcases clockLoop_origin env _ _ s.m_devices 0 none x hx with hc | ⟨i, d, e1, e2, e3⟩
      · cases hc
      · rw [Nat.zero_add] at e1
        subst e1
        obtain ⟨d1, q1, q2, q3, q4⟩ := forall₂_getElem? _ _ _ hv x d e2
        have hcar : ∀ ty, carries env s'.m_config s'.m_registeredSources ty d1
            = carries env (effectiveConfig env s) s.m_registeredSources ty d := by
          intro ty
          rw [hcfg, hsrc, carries_congr _ _ _ _ d d1 q2.2.1]
        have hprod : ∃ out ∈ configuredOutputs (effectiveConfig env s) d,
            (producedBuffer env s.m_registeredSources out).isSome = true := by
          rcases e3 with e3 | e3
          · exact carries_produced _ _ _ _ _ e3
          · exact carries_produced _ _ _ _ _ e3
        have hne2 : configuredOutputs (effectiveConfig env s) d ≠ [] := by
          obtain ⟨out, hm, -⟩ := hprod
          intro he
          rw [he] at hm
          cases hm
        refine ⟨x, d1, by rw [hk, hx], by rw [hd]; exact q1, Or.inl ⟨?_, q3 (Or.inr hne2), q4 hprod⟩⟩
        rw [hcar, hcar]
        exact e3
  · refine ⟨i, d, g1, g2, Or.inr ⟨clockLoop_eq_none env _ _ s.m_devices 0 hn, ?_, ?_, ?_⟩⟩
    · rw [hcfg]
      exact ((matchesCriteria_output _ d).mp g3).1
    · exact ((matchesCriteria_output _ d).mp g3).2
    · intro j d2 hj hg hc
      rw [hcfg] at hc
      have := g4 j d2 hj hg
      rw [(matchesCriteria_output _ d2).mpr hc] at this
      cases this

/-- Witness for C9 (amended): card B (deck 0 only) enumerated before card A
(master). -/
theorem setupDevices_clock_reference_witness :
    ∃ i d,
      (stateAfterSetup exEnv
        (exRegistered [exCardB, exCardA] [("A", exMaster), ("B", exDeck0)])).m_pClkRefDevice
          = some i ∧
      (stateAfterSetup exEnv
        (exRegistered [exCardB, exCardA] [("A", exMaster), ("B", exDeck0)])).m_devices[i]?
          = some d :=
  match setupDevices_clock_reference exEnv
    (exRegistered [exCardB, exCardA] [("A", exMaster), ("B", exDeck0)])
    (stateAfterSetup exEnv (exRegistered [exCardB, exCardA] [("A", exMaster), ("B", exDeck0)]))
    (by decide) with
  | ⟨i, d, h1, h2, _⟩ => ⟨i, d, h1, h2⟩

/-- C10 (the code at the failing input): the catalog holds a capture-only
device and nothing is configured, so no device carries an output and no device
has output channels.  The setup pass reaches `outputDevices.first()` on an
empty list: it has no defined result, and so returns no error code. -/
theorem setupDevices_no_output_device : exCaptureOnly.setupDevices exEnv = none := by
  decide

/-! ## Lemmas on a setup pass that returns an error -/

theorem connectInput_errorDevice (env : Env) (inp : AudioInput) (s s1 : SoundManager)
    (h : connectInput env inp s = some s1) : s1.m_pErrorDevice = s.m_pErrorDevice := by
  rw [connectInput_frame env inp s s1 h]

theorem addOutput_bOpen (d : SoundDevice) (out : AudioOutput) :
    (d.addOutput out).2.m_bOpen = d.m_bOpen := by
  by_cases hcap : ((channelsUsed d.m_audioOutputs + out.m_channelGroup.m_channels : Nat) : Int)
      ≤ d.m_iNumOutputChannels
  · simp only [SoundDevice.addOutput, if_pos hcap]
  · simp only [SoundDevice.addOutput, if_neg hcap]

theorem inputLoop_ret (env : Env) (ins : List AudioInput) :
    ∀ (device : SoundDevice) (s : SoundManager) (err : Int) (device2 : SoundDevice)
      (s1 : SoundManager),
      inputLoop env ins device s = some (Flow.ret err s1, device2) →
      err ≠ OK ∧ device2.m_bOpen = device.m_bOpen ∧ s1.m_pErrorDevice = s.m_pErrorDevice := by
  induction ins with
  | nil => intro device s err device2 s1 h; simp [inputLoop] at h
  | cons inp rest ih =>
    intro device s err device2 s1 h
    unfold inputLoop at h
    obtain ⟨-, a2, -⟩ := addInput_ok device inp
    by_cases herr : (device.addInput inp).1 = OK
    · simp only [herr, ne_eq, not_true_eq_false, if_false] at h
      cases hc : connectInput env inp s with
      | none => simp only [hc] at h; cases h
      | some s2 =>
        simp only [hc] at h
        obtain ⟨h1, h2, h3⟩ := ih _ _ _ _ _ h
        exact ⟨h1, h2.trans a2, h3.trans (connectInput_errorDevice env inp s s2 hc)⟩
    · simp only [ne_eq, herr, not_false_eq_true, if_true, Option.some.injEq, Prod.mk.injEq,
        Flow.ret.injEq] at h
      obtain ⟨⟨rfl, rfl⟩, rfl⟩ := h
      exact ⟨herr, a2, rfl⟩

theorem outputLoop_ret (env : Env) (i : Nat) (outs : List AudioOutput) :
    ∀ (device : SoundDevice) (s : SoundManager) (err : Int) (device2 : SoundDevice)
      (s1 : SoundManager),
      outputLoop env i outs device s = some (Flow.ret err s1, device2) →
      err ≠ OK ∧ device2.m_bOpen = device.m_bOpen ∧ s1.m_pErrorDevice = s.m_pErrorDevice := by
  induction outs with
  | nil => intro device s err device2 s1 h; simp [outputLoop] at h
  | cons out rest ih =>
    intro device s err device2 s1 h
    unfold outputLoop at h
    cases hv : (QHash.index s.m_registeredSources out none).1 with
    | none => simp only [hv] at h; cases h
    | some src =>
      simp only [hv] at h
      cases hb : env.sourceBuffer src out with
      | none => simp only [hb] at h; exact ih _ _ _ _ _ h
      | some buffer =>
        simp only [hb] at h
        by_cases herr : (device.addOutput out).1 = OK
        · simp only [herr, ne_eq, not_true_eq_false, if_false] at h
          obtain ⟨-, a2, -⟩ := addOutput_ok device out herr
          obtain ⟨h1, h2, h3⟩ := ih _ _ _ _ _ h
          refine ⟨h1, h2.trans a2, ?_⟩
          rw [h3]
          split <;> try rfl
          split <;> rfl
        · simp only [ne_eq, herr, not_false_eq_true, if_true, Option.some.injEq, Prod.mk.injEq,
            Flow.ret.injEq] at h
          obtain ⟨⟨rfl, rfl⟩, rfl⟩ := h
          exact ⟨herr, addOutput_bOpen device out, rfl⟩

theorem open_failed (d : SoundDevice) (h : d.open.1 ≠ OK) : d.open.2.m_bOpen = false := by
  by_cases hp : d.platformOpenError = OK
  · simp only [SoundDevice.open, if_pos hp] at h
    exact absurd rfl h
  · simp only [SoundDevice.open, if_neg hp]

theorem setupDevice_ret (env : Env) (i : Nat) (d d1 : SoundDevice) (st : SetupState)
    (err : Int) (s1 : SoundManager)
    (h : setupDevice env i d st = some (Flow.ret err s1, d1)) :
    err ≠ OK ∧ s1.m_pErrorDevice = some i ∧ (d1.m_bOpen = false ∨ d1.m_bOpen = d.m_bOpen) := by
  cases hI : inputLoop env (multiValues st.s.m_config.m_inputs d.m_strInternalName)
      d.clearInputs.clearOutputs { st.s with m_pErrorDevice := some i } with
  | none => simp only [setupDevice, hI] at h; cases h
  | some r =>
    obtain ⟨fl, dv⟩ := r
    cases fl with
    | ret e s2 =>
      simp only [setupDevice, hI, Option.some.injEq, Prod.mk.injEq, Flow.ret.injEq] at h
      obtain ⟨⟨rfl, rfl⟩, rfl⟩ := h
      obtain ⟨r1, r2, r3⟩ := inputLoop_ret env _ _ _ _ _ _ hI
      exact ⟨r1, r3, Or.inr r2⟩
    | next p =>
      obtain ⟨dI, sI⟩ := p
      obtain ⟨i1, -, i3, -⟩ := inputLoop_next env _ _ _ dI dv sI hI
      have hsI : sI.m_pErrorDevice = some i := by rw [i1]
      cases hO : outputLoop env i (multiValues st.s.m_config.m_outputs d.m_strInternalName)
          dI sI with
      | none => simp only [setupDevice, hI, hO] at h; cases h
      | some r2 =>
        obtain ⟨fl2, dv2⟩ := r2
        cases fl2 with
        | ret e s2 =>
          simp only [setupDevice, hI, hO, Option.some.injEq, Prod.mk.injEq, Flow.ret.injEq] at h
          obtain ⟨⟨rfl, rfl⟩, rfl⟩ := h
          obtain ⟨r1, r2, r3⟩ := outputLoop_ret env _ _ _ _ _ _ _ hO
          exact ⟨r1, r3.trans hsI, Or.inr (r2.trans i3)⟩
        | next p2 =>
          obtain ⟨dO, sO⟩ := p2
          have o1 := outputLoop_next env i _ dI sI dO dv2 sO hO
          have hsO : sO.m_pErrorDevice = some i := by rw [o1]; exact hsI
          simp only [setupDevice, hI, hO] at h
          by_cases hio : ((!(multiValues st.s.m_config.m_inputs d.m_strInternalName).isEmpty) ||
              !(multiValues st.s.m_config.m_outputs d.m_strInternalName).isEmpty) = true
          · rw [if_pos hio] at h
            generalize hd3 : ({ dO with
                m_dSampleRate := sO.m_config.m_sampleRate
                m_framesPerBuffer := sO.m_config.m_framesPerBuffer } : SoundDevice) = d3 at h
            by_cases herr : d3.open.1 = OK
            · simp [herr] at h
            · simp only [ne_eq, herr, not_false_eq_true, if_true, Option.some.injEq,
                Prod.mk.injEq, Flow.ret.injEq] at h
              obtain ⟨⟨rfl, rfl⟩, rfl⟩ := h
              exact ⟨herr, hsO, Or.inl (open_failed d3 herr)⟩
          · rw [if_neg hio] at h
            simp at h

theorem deviceLoop_ret (env : Env) (todo : List SoundDevice) :
    ∀ (done : List SoundDevice) (st : SetupState) (err : Int) (sr : SoundManager),
      deviceLoop env done todo st = some (Flow.ret err sr) →
      err ≠ OK ∧ ∃ pre d rest pre1 d1,
        todo = pre ++ d :: rest ∧
        List.Forall₂ (Visited env st.s.m_config st.s.m_registeredSources) pre pre1 ∧
        sr.m_devices = done ++ (pre1 ++ d1 :: rest) ∧
        sr.m_pErrorDevice = some (done.length + pre.length) ∧
        (d1.m_bOpen = false ∨ d1.m_bOpen = d.m_bOpen) := by
  induction todo with
  | nil => intro done st err sr h; simp [deviceLoop] at h
  | cons a t ih =>
    intro done st err sr h
    cases hS : setupDevice env done.length a st with
    | none => simp only [deviceLoop, hS] at h; cases h
    | some r =>
      obtain ⟨fl, a1⟩ := r
      cases fl with
      | ret e s2 =>
        simp only [deviceLoop, hS, Option.some.injEq, Flow.ret.injEq] at h
        obtain ⟨rfl, rfl⟩ := h
        obtain ⟨r1, r2, r3⟩ := setupDevice_ret env _ a a1 st _ s2 hS
        exact ⟨r1, [], a, t, [], a1, rfl, List.Forall₂.nil, rfl, by simpa using r2, r3⟩
      | next st2 =>
        simp only [deviceLoop, hS] at h
        obtain ⟨e1, e2, e3, e4, -⟩ := setupDevice_next env _ a a1 st st2 hS
        obtain ⟨r1, pre, d, rest, pre1, d1, q1, q2, q3, q4, q5⟩ := ih _ _ _ _ h
        have hcfg : st2.s.m_config = st.s.m_config := by rw [e1]
        have hsrc : st2.s.m_registeredSources = st.s.m_registeredSources := by rw [e1]
        rw [hcfg, hsrc] at q2
        refine ⟨r1, a :: pre, d, rest, a1 :: pre1, d1, by rw [q1]; rfl,
          List.Forall₂.cons ⟨e2, e3, e4⟩ q2, ?_, ?_, q5⟩
        · rw [q3]; simp
        · rw [q4]; simp only [List.length_append, List.length_cons, List.length_nil]
          congr 1
          omega

theorem setupDevices_ret (env : Env) (s s' : SoundManager) (err : Int)
    (h : s.setupDevices env = some (err, s')) (hne : err ≠ OK) :
    ∃ s4, s4.m_config = effectiveConfig env s ∧ s4.m_registeredSources = s.m_registeredSources ∧
      deviceLoop env [] (s.m_devices.map SoundDevice.close) ⟨s4, 0, 0⟩ = some (Flow.ret err s') := by
  unfold SoundManager.setupDevices at h
  simp only [SoundManager.clearOperativeVariables] at h
  cases hc : SoundManager.closeDevices env
      { s with iNumDevicesOpenedForOutput := 0, iNumDevicesOpenedForInput := 0,
               m_pClkRefDevice := none,
               m_config := env.filterInputs s.m_devices (env.filterOutputs s.m_devices s.m_config) } with
  | none => rw [hc] at h; cases h
  | some s3 =>
    simp only [hc] at h
    have hf := closeDevices_frame env _ s3 hc
    simp only at hf
    generalize hs4 : (if env.vinylControl = true then initVinylControl env s3 else s3) = s4 at h
    have h4 : s4 = { s3 with
        m_vinylControl := s4.m_vinylControl
        heapNext := s4.heapNext
        m_registeredDestinations := s4.m_registeredDestinations
        trace := s4.trace } := by
      subst hs4
      split
      · exact initVinylControl_frame env s3
      · rfl
    have h4d : s4.m_devices = s.m_devices.map SoundDevice.close := by rw [h4, hf]
    have h4c : s4.m_config = effectiveConfig env s := by rw [h4, hf]; rfl
    have h4s : s4.m_registeredSources = s.m_registeredSources := by rw [h4, hf]
    cases hl : deviceLoop env [] s4.m_devices ⟨s4, 0, 0⟩ with
    | none => simp only [hl] at h; cases h
    | some fl =>
      simp only [hl] at h
      cases fl with
      | ret e sr =>
        simp only [Option.some.injEq, Prod.mk.injEq] at h
        obtain ⟨rfl, rfl⟩ := h
        refine ⟨s4, h4c, h4s, ?_⟩
        rw [← h4d]
        exact hl
      | next st =>
        exfalso
        simp only at h
        obtain ⟨todo1, -, -, f3⟩ := deviceLoop_next env _ _ _ _ hl
        cases hfb : clockReferenceFallback env st.s with
        | none => simp only [hfb] at h; cases h
        | some s6 =>
          have heq : st.devicesAttempted = st.devicesOpened := f3.mpr rfl
          simp only [hfb, if_pos heq, Option.some.injEq, Prod.mk.injEq] at h
          exact hne h.1.symm

/-! ## The claims, continued -/

/-- C11 (as stated, refuted): cards A (master) and B (deck 0), all closed before
the pass.  When the platform refuses to open card B, and likewise when card B is
too narrow for its output (`InsufficientChannels` during assignment), the setup
pass returns a code other than `OK` and card A, opened earlier in the pass, is
still open. -/
theorem setupDevices_rollback_counterexample :
    (∃ err s' d, (exRegistered [exCardA, exBusyB] [("A", exMaster), ("B", exDeck0)]).setupDevices
        exEnv = some (err, s') ∧ err ≠ OK ∧ s'.m_devices[0]? = some d ∧ d.m_bOpen = true) ∧
    (∃ err s' d, (exRegistered [exCardA, exNarrowB] [("A", exMaster), ("B", exDeck0)]).setupDevices
        exEnv = some (err, s') ∧ err ≠ OK ∧ s'.m_devices[0]? = some d ∧ d.m_bOpen = true) := by
  have key : ∀ s0 : SoundManager,
      (s0.setupDevices exEnv).map
        (fun r => decide (r.1 ≠ OK ∧ (r.2.m_devices[0]?).map (fun d => d.m_bOpen) = some true))
        = some true →
      ∃ err s' d, s0.setupDevices exEnv = some (err, s') ∧ err ≠ OK ∧
        s'.m_devices[0]? = some d ∧ d.m_bOpen = true := by
    intro s0 h
    cases hr : s0.setupDevices exEnv with
    | none => rw [hr] at h; cases h
    | some r =>
      obtain ⟨e, s'⟩ := r
      rw [hr] at h
      simp only [Option.map_some', Option.some.injEq, decide_eq_true_eq] at h
      obtain ⟨h1, h2⟩ := h
      cases hd : s'.m_devices[0]? with
      | none => rw [hd] at h2; cases h2
      | some d =>
        rw [hd] at h2
        simp only [Option.map_some', Option.some.injEq] at h2
        exact ⟨e, s', d, rfl, h1, hd, h2⟩
  exact ⟨key _ (by decide), key _ (by decide)⟩

/-- C11 (amended): every setup pass first closes every device.  When the pass
returns a code other than `OK`, `m_pErrorDevice` names the device at which it
stopped; that device and every device after it in enumeration order are closed;
every device before it that has a configured input or output was opened in the
pass and is left open. -/
theorem setupDevices_error_state (env : Env) (s s' : SoundManager) (err : Int)
    (h : s.setupDevices env = some (err, s')) (hne : err ≠ OK) :
    ∃ i d, s'.m_pErrorDevice = some i ∧ s'.m_devices[i]? = some d ∧ d.m_bOpen = false ∧
      (∀ j d2, i < j → s'.m_devices[j]? = some d2 → d2.m_bOpen = false) ∧
      (∀ j d0, j < i → s.m_devices[j]? = some d0 →
        ∃ d2, s'.m_devices[j]? = some d2 ∧
          Visited env (effectiveConfig env s) s.m_registeredSources d0 d2) := by
  obtain ⟨s4, hcfg, hsrc, hl⟩ := setupDevices_ret env s s' err h hne
  obtain ⟨-, pre, d, rest, pre1, d1, q1, q2, q3, q4, q5⟩ := deviceLoop_ret env _ _ _ _ _ hl
  simp only [hcfg, hsrc] at q2
  simp only [List.nil_append, List.length_nil, Nat.zero_add] at q3 q4
  have hlen : pre1.length = pre.length := (List.Forall₂.length_eq q2).symm
  have hclosed : ∀ x ∈ s.m_devices.map SoundDevice.close, x.m_bOpen = false := by
    intro x hx
    obtain ⟨y, -, rfl⟩ := List.mem_map.mp hx
    rfl
  have hd : d.m_bOpen = false := hclosed d (by rw [q1]; simp)
  have hd1 : d1.m_bOpen = false := by
    rcases q5 with q5 | q5
    · exact q5
    · rw [q5, hd]
  refine ⟨pre.length, d1, q4, ?_, hd1, ?_, ?_⟩
  · rw [q3, List.getElem?_append_right (by omega), hlen, Nat.sub_self]
    simp
  · intro j d2 hj hg
    rw [q3, List.getElem?_append_right (by omega), hlen] at hg
    obtain ⟨k, hk⟩ : ∃ k, j - pre.length = k + 1 := ⟨j - pre.length - 1, by omega⟩
    rw [hk, List.getElem?_cons_succ] at hg
    have hmem : d2 ∈ rest := List.getElem?_mem hg
    exact hclosed d2 (by rw [q1]; simp [hmem])
  · intro j d0 hj hg
    have hpre : pre[j]? = some d0.close := by
      have : (s.m_devices.map SoundDevice.close)[j]? = some d0.close := by
        rw [List.getElem?_map, hg]
        rfl
      rw [q1, List.getElem?_append_left hj] at this
      exact this
    obtain ⟨d2, g1, g2⟩ := forall₂_getElem? _ _ _ q2 j _ hpre
    refine ⟨d2, ?_, visited_of_close env _ _ d0 d2 g2⟩
    rw [q3, List.getElem?_append_left (by omega)]
    exact g1

/-- Witness for C11 (amended): the platform refuses to open card B. -/
theorem setupDevices_error_state_witness :
    ∃ i d,
      (stateAfterSetup exEnv
        (exRegistered [exCardA, exBusyB] [("A", exMaster), ("B", exDeck0)])).m_pErrorDevice = some i ∧
      (stateAfterSetup exEnv
        (exRegistered [exCardA, exBusyB] [("A", exMaster), ("B", exDeck0)])).m_devices[i]? = some d ∧
      d.m_bOpen = false :=
  match setupDevices_error_state exEnv
    (exRegistered [exCardA, exBusyB] [("A", exMaster), ("B", exDeck0)])
    (stateAfterSetup exEnv (exRegistered [exCardA, exBusyB] [("A", exMaster), ("B", exDeck0)]))
    5 (by decide) (by decide) with
  | ⟨i, d, h1, h2, h3, _⟩ => ⟨i, d, h1, h2, h3⟩

/-- C12 (the code at the failing input): one connected stereo input and a null
raw buffer, one frame.  With hardware frame size 2 the code calls `memcpy` with
the null source, with frame size 4 it reads `inputBuffer[0]` through the null
pointer; both happen before the test `if (inputBuffer)`, so the call has no
defined result instead of being a no-op. -/
theorem pushBuffer_null_raw :
    exFrontState.pushBuffer [exFront] none 1 2 = none ∧
    exFrontState.pushBuffer [exFront] none 1 4 = none := by
  decide

/-! ## Lemmas on the dispatch loop of `pushBuffer` -/

theorem QHash.contains_of_value? {V : Type} (h : QHash V) (k : AudioPath) (v : V)
    (hv : QHash.value? h k = some v) : QHash.contains h k = true := by
  induction h with
  | nil => simp [QHash.value?] at hv
  | cons e t ih =>
    obtain ⟨k', v'⟩ := e
    by_cases hk : k'.ident = k.ident
    · simp only [QHash.contains, if_pos hk]
    · simp only [QHash.value?, if_neg hk] at hv
      simp only [QHash.contains, if_neg hk]
      exact ih hv

theorem QHash.contains_of_value?_none {V : Type} (h : QHash V) (k : AudioPath)
    (hv : QHash.value? h k = none) : QHash.contains h k = false := by
  induction h with
  | nil => rfl
  | cons e t ih =>
    obtain ⟨k', v'⟩ := e
    by_cases hk : k'.ident = k.ident
    · simp only [QHash.value?, if_pos hk] at hv
      cases hv
    · simp only [QHash.value?, if_neg hk] at hv
      simp only [QHash.contains, if_neg hk]
      exact ih hv

theorem applyWrite_allocated (upd : AudioInput → Buffer → Buffer) (h : QHash BufferPtr)
    (inp k : AudioInput) (hk : ∃ b, QHash.value? h k = some (some b)) :
    ∃ b, QHash.value? (applyWrite upd h inp) k = some (some b) := by
  by_cases he : inp.ident = k.ident
  · obtain ⟨b, hb⟩ := hk
    have hv : QHash.value? h inp = some (some b) := by
      rw [QHash.value?_congr h inp k he]; exact hb
    refine ⟨upd inp b, ?_⟩
    rw [← QHash.value?_congr _ inp k he]
    exact applyWrite_value?_self upd h inp b hv
  · rw [applyWrite_value?_of_ne upd h inp k he]
    exact hk

theorem foldl_applyWrite_allocated (upd : AudioInput → Buffer → Buffer)
    (inputs : List AudioInput) :
    ∀ (h : QHash BufferPtr) (k : AudioInput), (∃ b, QHash.value? h k = some (some b)) →
      ∃ b, QHash.value? (inputs.foldl (applyWrite upd) h) k = some (some b) := by
  induction inputs with
  | nil => intro h k hk; exact hk
  | cons a rest ih =>
    intro h k hk
    rw [List.foldl_cons]
    exact ih _ k (applyWrite_allocated upd h a k hk)

/-- The copy phase of `pushBuffer` under its memory-safety conditions, for
either hardware frame size. -/
theorem copyPhase_eq_foldl (s : SoundManager) (inputs : List AudioInput) (raw : Buffer)
    (frames fs : Nat) (hF : frames < UINT) (hfit : frames * fs ≤ UINT)
    (hraw : frames * fs ≤ raw.length)
    (hin : ∀ inp ∈ inputs,
      (fs ≠ 2 → inp.m_channelGroup.m_channelBase + inp.m_channelGroup.m_channels ≤ fs) ∧
      ∃ old, QHash.value? s.m_inputBuffers inp = some (some old) ∧
        (if fs = 2 then 2 * frames else frames * inp.m_channelGroup.m_channels) ≤ old.length) :
    (if fs = 2 then bulkCopyLoop (some raw) frames fs inputs s.m_inputBuffers
      else deinterleaveLoop (some raw) frames fs inputs s.m_inputBuffers)
      = some (inputs.foldl (applyWrite (copySpec raw frames fs)) s.m_inputBuffers) := by
  by_cases h2 : fs = 2
  · subst h2
    simp only [if_true, copySpec]
    apply bulkCopyLoop_eq_foldl raw frames 2 (by omega)
    intro inp hm
    obtain ⟨-, old, hv, hl⟩ := hin inp hm
    simp only [if_true] at hl
    exact ⟨old, hv, hl⟩
  · simp only [if_neg h2, copySpec]
    apply deinterleaveLoop_eq_foldl raw frames fs hF hfit hraw
    intro inp hm
    obtain ⟨hg, old, hv, hl⟩ := hin inp hm
    simp only [if_neg h2] at hl
    exact ⟨hg h2, old, hv, hl⟩

theorem pushBuffer_of_copy (s : SoundManager) (inputs : List AudioInput) (raw : Buffer)
    (frames fs : Nat) (h : QHash BufferPtr)
    (hc : (if fs = 2 then bulkCopyLoop (some raw) frames fs inputs s.m_inputBuffers
      else deinterleaveLoop (some raw) frames fs inputs s.m_inputBuffers) = some h) :
    s.pushBuffer inputs (some raw) frames fs
      = some { s with
          m_inputBuffers := h
          trace := s.trace ++
            (inputs.map (dispatchInput { s with m_inputBuffers := h } frames fs)).flatten } := by
  simp only [SoundManager.pushBuffer, hc, Option.isSome_some, if_true]

theorem dispatchInput_filter_receive (s : SoundManager) (frames fs : Nat) (inp : AudioInput)
    (hc : QHash.contains s.m_inputBuffers inp = true) :
    (dispatchInput s frames fs inp).filter isReceive = (receiveCall s frames inp).toList := by
  have hcf : ¬ QHash.contains s.m_inputBuffers inp = false := by rw [hc]; simp
  simp only [dispatchInput, if_neg hcf, List.filter_append]
  have hp : ∀ c : Prop, ∀ [Decidable c],
      (if c then [Event.pushPassthroughBuffer inp.getIndex
        ((QHash.value? s.m_inputBuffers inp).getD none) (fs * frames)] else []).filter isReceive
        = [] := by
    intro c _
    split <;> rfl
  rw [hp, List.nil_append]
  cases hv : QHash.value? s.m_registeredDestinations inp with
  | none =>
    have := QHash.contains_of_value?_none _ _ hv
    simp [receiveCall, hv, this]
  | some d? =>
    have := QHash.contains_of_value? _ _ _ hv
    cases d? with
    | none => simp [receiveCall, hv, this]
    | some dest => simp [receiveCall, hv, this, isReceive]

theorem dispatch_filter_receive (s : SoundManager) (frames fs : Nat)
    (inputs : List AudioInput)
    (hc : ∀ inp ∈ inputs, QHash.contains s.m_inputBuffers inp = true) :
    ((inputs.map (dispatchInput s frames fs)).flatten).filter isReceive
      = inputs.filterMap (receiveCall s frames) := by
  induction inputs with
  | nil => rfl
  | cons a rest ih =>
    rw [List.map_cons, List.flatten_cons, List.filter_append,
      dispatchInput_filter_receive s frames fs a (hc a (List.mem_cons_self a rest)),
      ih (fun inp hm => hc inp (List.mem_cons_of_mem a hm))]
    cases hr : receiveCall s frames a with
    | none => simp [List.filterMap_cons, hr]
    | some e => simp [List.filterMap_cons, hr]

/-- C13: on `pushBuffer` with a non-null raw buffer (under the memory-safety
conditions of the copy phase) the call returns, and the `receiveBuffer` calls it
makes are exactly, in list order, one per listed input that has a registered
non-null consumer, to that consumer, with that input's own buffer as the copy
phase left it and with `framesPerBuffer`; a listed input without a registered
consumer (or with a null one) gets no call and does not keep the later inputs
from getting theirs. -/
theorem pushBuffer_consumer_dispatch (s : SoundManager) (inputs : List AudioInput)
    (raw : Buffer) (frames fs : Nat) (hF : frames < UINT) (hfit : frames * fs ≤ UINT)
    (hraw : frames * fs ≤ raw.length)
    (hin : ∀ inp ∈ inputs,
      (fs ≠ 2 → inp.m_channelGroup.m_channelBase + inp.m_channelGroup.m_channels ≤ fs) ∧
      ∃ old, QHash.value? s.m_inputBuffers inp = some (some old) ∧
        (if fs = 2 then 2 * frames else frames * inp.m_channelGroup.m_channels) ≤ old.length) :
    ∃ s' added, s.pushBuffer inputs (some raw) frames fs = some s' ∧
      s'.m_inputBuffers = inputs.foldl (applyWrite (copySpec raw frames fs)) s.m_inputBuffers ∧
      s'.m_registeredDestinations = s.m_registeredDestinations ∧
      s'.trace = s.trace ++ added ∧
      added.filter isReceive = inputs.filterMap (receiveCall s' frames) := by
  have hc := copyPhase_eq_foldl s inputs raw frames fs hF hfit hraw hin
  have hp := pushBuffer_of_copy s inputs raw frames fs _ hc
  refine ⟨_, _, hp, rfl, rfl, rfl, ?_⟩
  have hcont : ∀ inp ∈ inputs,
      QHash.contains (inputs.foldl (applyWrite (copySpec raw frames fs)) s.m_inputBuffers) inp
        = true := by
    intro inp hm
    obtain ⟨-, old, hv, -⟩ := hin inp hm
    obtain ⟨b, hb⟩ := foldl_applyWrite_allocated _ inputs s.m_inputBuffers inp ⟨old, hv⟩
    exact QHash.contains_of_value? _ _ _ hb
  exact dispatch_filter_receive _ frames fs inputs hcont

/-- Witness for C13: one stereo input of a four-channel device, registered with
the consumer at address 7. -/
theorem pushBuffer_consumer_dispatch_witness :
    ∃ s' added, exPassState.pushBuffer [exFront] (some [1, 2, 3, 4]) 1 4 = some s' ∧
      s'.m_inputBuffers
        = [exFront].foldl (applyWrite (copySpec [1, 2, 3, 4] 1 4)) exPassState.m_inputBuffers ∧
      s'.m_registeredDestinations = exPassState.m_registeredDestinations ∧
      s'.trace = exPassState.trace ++ added ∧
      added.filter isReceive = [exFront].filterMap (receiveCall s' 1) :=
  pushBuffer_consumer_dispatch exPassState [exFront] [1, 2, 3, 4] 1 4
    (by decide) (by decide) (by decide)
    (by
      intro inp hm
      rw [List.mem_singleton] at hm
      subst hm
      exact ⟨fun _ => by decide, [0, 0, 0, 0], by decide, by decide⟩)

/-! ## Lemmas on the pass-through toggle -/

theorem latchPassthrough_zero (s : SoundManager) (b : Bool) :
    latchPassthrough s 0 b = { s with m_bPassthroughActive0 := b } := by
  unfold latchPassthrough
  by_cases h : passthroughActive s 0 ≠ b
  · rw [if_pos h]
    rfl
  · rw [if_neg h]
    have hb : s.m_bPassthroughActive0 = b := by
      have := not_not.mp h
      simpa [passthroughActive] using this
    subst hb
    cases s
    rfl

theorem any_index_false (keys : List AudioInput) (c : Nat)
    (h : ∀ inp ∈ keys, inp.getIndex ≠ c) :
    keys.any (fun inp => decide (inp.getIndex = c)) = false := by
  rw [List.any_eq_false]
  intro inp hm
  simpa using h inp hm

/-- The handler's own statements never clear the flag: with a toggle control
that takes `slotSet(false)` without calling the handler back, a rejected toggle
leaves the control disabled and the flag set. -/
theorem inputPassthroughToggled_without_callback (env : Env) (s : SoundManager) (toggle : Int)
    (hon : toggle ≠ 0) (hnone : ∀ inp ∈ QHash.keys s.m_inputBuffers, inp.getIndex ≠ 0) :
    inputPassthroughToggled env 0 (storeInputPassthrough 0) s toggle
      = some { s with m_bPassthroughActive0 := true, m_pControlObjectInputPassthrough1 := 0 } := by
  have hany := any_index_false _ 0 hnone
  simp only [inputPassthroughToggled, latchPassthrough_zero, if_pos hon, hany,
    Bool.false_eq_true, if_false, storeInputPassthrough, if_true]
  simp [hon]

theorem QHash.keys_insert {V : Type} (h : QHash V) (k : AudioPath) (v : V) :
    QHash.keys (QHash.insert h k v)
      = if QHash.contains h k = true then QHash.keys h else QHash.keys h ++ [k] := by
  induction h with
  | nil => simp [QHash.insert, QHash.contains, QHash.keys]
  | cons e t ih =>
    obtain ⟨k', v'⟩ := e
    by_cases hk : k'.ident = k.ident
    · simp [QHash.insert, QHash.contains, QHash.keys, hk]
    · simp only [QHash.insert, if_neg hk, QHash.contains]
      simp only [QHash.keys, List.map_cons] at ih ⊢
      rw [ih]
      split <;> simp

theorem QHash.contains_iff_keys {V : Type} (h : QHash V) (k : AudioPath) :
    QHash.contains h k = true ↔ k.ident ∈ (QHash.keys h).map AudioPath.ident := by
  induction h with
  | nil => simp [QHash.contains, QHash.keys]
  | cons e t ih =>
    obtain ⟨k', v'⟩ := e
    by_cases hk : k'.ident = k.ident
    · simp [QHash.contains, QHash.keys, hk]
    · simp only [QHash.contains, if_neg hk, ih]
      simp only [QHash.keys, List.map_cons, List.mem_cons]
      constructor
      · intro hm; exact Or.inr hm
      · rintro (he | hm)
        · exact absurd he.symm hk
        · exact hm

theorem QHash.ident_mem_keys_insert {V : Type} (h : QHash V) (k : AudioPath) (v : V)
    (i : AudioPathType × Nat) :
    i ∈ (QHash.keys (QHash.insert h k v)).map AudioPath.ident
      ↔ (i = k.ident ∨ i ∈ (QHash.keys h).map AudioPath.ident) := by
  rw [QHash.keys_insert]
  by_cases hc : QHash.contains h k = true
  · rw [if_pos hc]
    constructor
    · intro hm; exact Or.inr hm
    · rintro (he | hm)
      · rw [he]; exact (QHash.contains_iff_keys h k).mp hc
      · exact hm
  · rw [if_neg hc]
    simp only [List.map_append, List.map_cons, List.map_nil, List.mem_append,
      List.mem_singleton]
    constructor
    · rintro (hm | he)
      · exact Or.inr hm
      · exact Or.inl he
    · rintro (he | hm)
      · exact Or.inr he
      · exact Or.inl hm

theorem map_close_of_closed (l : List SoundDevice) (h : ∀ d ∈ l, d.m_bOpen = false) :
    l.map SoundDevice.close = l := by
  induction l with
  | nil => rfl
  | cons d t ih =>
    simp only [List.map_cons]
    rw [ih (fun x hx => h x (List.mem_cons_of_mem _ hx))]
    have hd := h d (List.mem_cons_self _ _)
    cases d
    simp_all [SoundDevice.close]

theorem forall₂_sameDescriptor_close (l : List SoundDevice) :
    List.Forall₂ SameDescriptor l (l.map SoundDevice.close) := by
  induction l with
  | nil => exact List.Forall₂.nil
  | cons d t ih => exact List.Forall₂.cons ⟨rfl, rfl, rfl, rfl, rfl, rfl⟩ ih

theorem disconnectLoop_some (dests : QHash (Option Nat)) (keys : List AudioInput)
    (h : ∀ inp ∈ keys, QHash.value? dests inp ≠ some none) :
    ∃ es, disconnectLoop dests keys = some es := by
  induction keys with
  | nil => exact ⟨[], rfl⟩
  | cons inp rest ih =>
    obtain ⟨es, hes⟩ := ih (fun x hx => h x (List.mem_cons_of_mem _ hx))
    have hin := h inp (List.mem_cons_self _ _)
    cases hv : QHash.value? dests inp with
    | none =>
      have hc := QHash.contains_of_value?_none dests inp hv
      refine ⟨es, ?_⟩
      simp only [disconnectLoop, hc, Bool.false_eq_true, if_false, hes]
    | some v =>
      cases v with
      | none => exact absurd hv hin
      | some dest =>
        have hc := QHash.contains_of_value? dests inp _ hv
        refine ⟨Event.onInputDisconnected dest inp :: es, ?_⟩
        simp only [disconnectLoop, hc, if_true, hv, Option.getD_some, hes, Option.map_some']

theorem closeDevices_closed (env : Env) (s : SoundManager) (h : closedManager env s) :
    s.closeDevices env = some s := by
  obtain ⟨h1, h2, h3, h4, h5, h6, h7⟩ := h
  unfold SoundManager.closeDevices
  simp only [SoundManager.clearOperativeVariables, h6, QHash.keys, List.map_nil, disconnectLoop,
    map_close_of_closed _ h1, List.append_nil]
  cases hv : env.vinylControl with
  | false =>
    simp only [Bool.false_eq_true, if_false, Option.some.injEq]
    cases s
    simp_all
  | true =>
    have h8 := h7 hv
    simp only [if_true, Option.some.injEq]
    cases s
    simp_all

theorem closedManager_closeDevices (env : Env) (s s1 : SoundManager)
    (h : s.closeDevices env = some s1) : closedManager env s1 := by
  unfold SoundManager.closeDevices at h
  simp only [SoundManager.clearOperativeVariables] at h
  cases hd : disconnectLoop s.m_registeredDestinations (QHash.keys s.m_inputBuffers) with
  | none => rw [hd] at h; cases h
  | some es =>
    rw [hd] at h
    simp only [Option.some.injEq] at h
    subst h
    cases hv : env.vinylControl <;>
      simp [closedManager, SoundDevice.close, hv]

/-- C15: `registerOutput(id, p)` always returns and raises nothing: it only
emits the signal `outputRegistered`.  Afterwards the producer registered for
`id` is `p` whatever was there before, every other identity keeps its producer,
the registered identities are the old ones plus that of `id`, and the consumers
are untouched.  `registerInput(id, c)` does the same for consumers. -/
theorem register_overwrites (s : SoundManager) (out : AudioOutput) (p : Option Nat)
    (inp : AudioInput) (c : Option Nat) :
    (QHash.value? (s.registerOutput out p).m_registeredSources out = some p ∧
      (∀ k : AudioOutput, out.ident ≠ k.ident →
        QHash.value? (s.registerOutput out p).m_registeredSources k
          = QHash.value? s.m_registeredSources k) ∧
      (∀ i, i ∈ (s.registerOutput out p).registeredOutputs.map AudioPath.ident
        ↔ (i = out.ident ∨ i ∈ s.registeredOutputs.map AudioPath.ident)) ∧
      (s.registerOutput out p).m_registeredDestinations = s.m_registeredDestinations ∧
      (s.registerOutput out p).trace = s.trace ++ [Event.outputRegistered out p]) ∧
    (QHash.value? (s.registerInput inp c).m_registeredDestinations inp = some c ∧
      (∀ k : AudioInput, inp.ident ≠ k.ident →
        QHash.value? (s.registerInput inp c).m_registeredDestinations k
          = QHash.value? s.m_registeredDestinations k) ∧
      (∀ i, i ∈ (s.registerInput inp c).registeredInputs.map AudioPath.ident
        ↔ (i = inp.ident ∨ i ∈ s.registeredInputs.map AudioPath.ident)) ∧
      (s.registerInput inp c).m_registeredSources = s.m_registeredSources ∧
      (s.registerInput inp c).trace = s.trace ++ [Event.inputRegistered inp c]) :=
  ⟨⟨QHash.value?_insert_self _ _ _,
    fun _ hk => QHash.value?_insert_of_ne _ _ _ _ hk,
    fun i => QHash.ident_mem_keys_insert _ _ _ i, rfl, rfl⟩,
   ⟨QHash.value?_insert_self _ _ _,
    fun _ hk => QHash.value?_insert_of_ne _ _ _ _ hk,
    fun i => QHash.ident_mem_keys_insert _ _ _ i, rfl, rfl⟩⟩

/-- C16: when no connected input has a null consumer registered,
`closeDevices` returns; the device list is the old one with every device closed
(same length, same descriptors), the registered producers and consumers are the
old ones, and the manager is left in the closed state (clock reference unset,
opened-device counters 0, both buffer hashes empty).  Calling `closeDevices`
again returns the very same state, so no `onInputDisconnected` is invoked then;
and on a manager that was already in the closed state the first call changes
nothing either. -/
theorem closeDevices_idempotent (env : Env) (s : SoundManager)
    (hreg : ∀ inp ∈ QHash.keys s.m_inputBuffers,
      QHash.value? s.m_registeredDestinations inp ≠ some none) :
    ∃ s1, s.closeDevices env = some s1 ∧
      s1.m_devices = s.m_devices.map SoundDevice.close ∧
      List.Forall₂ SameDescriptor s.m_devices s1.m_devices ∧
      s1.m_registeredSources = s.m_registeredSources ∧
      s1.m_registeredDestinations = s.m_registeredDestinations ∧
      s1.m_pClkRefDevice = none ∧
      s1.iNumDevicesOpenedForOutput = 0 ∧ s1.iNumDevicesOpenedForInput = 0 ∧
      s1.m_outputBuffers = [] ∧ s1.m_inputBuffers = [] ∧
      s1.closeDevices env = some s1 ∧
      (closedManager env s → s1 = s) := by
  have hex : ∃ s1, s.closeDevices env = some s1 := by
    obtain ⟨es, hes⟩ := disconnectLoop_some s.m_registeredDestinations _ hreg
    unfold SoundManager.closeDevices
    simp only [SoundManager.clearOperativeVariables, hes]
    exact ⟨_, rfl⟩
  obtain ⟨s1, h1⟩ := hex
  have hfr := closeDevices_frame env s s1 h1
  have hcl := closedManager_closeDevices env s s1 h1
  have hdev : s1.m_devices = s.m_devices.map SoundDevice.close := by rw [hfr]
  refine ⟨s1, h1, hdev, ?_, by rw [hfr], by rw [hfr], hcl.2.1, hcl.2.2.1, hcl.2.2.2.1,
    hcl.2.2.2.2.1, hcl.2.2.2.2.2.1, closeDevices_closed env s1 hcl, ?_⟩
  · rw [hdev]
    exact forall₂_sameDescriptor_close _
  · intro hc
    have h2 := closeDevices_closed env s hc
    rw [h1] at h2
    exact Option.some.inj h2

theorem closeDevices_idempotent_witness :
    ∃ s1, exPassState.closeDevices {} = some s1 ∧
      s1.m_registeredDestinations = [(exFront, some 7)] ∧
      s1.m_inputBuffers = [] ∧
      s1.trace = [Event.onInputDisconnected 7 exFront] ∧
      s1.closeDevices {} = some s1 := by
  obtain ⟨s1, h1, _, _, _, h5, _, _, _, _, h10, h11, _⟩ :=
    closeDevices_idempotent {} exPassState (by decide)
  refine ⟨s1, h1, h5, h10, ?_, h11⟩
  have h2 : exPassState.closeDevices {}
      = some { exPassState with m_inputBuffers := [],
                                trace := [Event.onInputDisconnected 7 exFront] } := by decide
  rw [h1] at h2
  rw [Option.some.inj h2]

/-- C17: evaluation of the code on a four-channel device with the stereo input
`VINYLCONTROL` 0 connected, registered and flagged for pass-through: one frame
`[1, 2, 3, 4]` is pushed, the input's two samples `1, 2` are deinterleaved into
its buffer, and `pushPassthroughBuffer` is handed the count
`iFrameSize * iFramesPerBuffer = 4`, not the `1 x 2 = 2` samples of the input. -/
theorem pushBuffer_passthrough_count :
    (exPassState.pushBuffer [exFront] (some [1, 2, 3, 4]) 1 4).map (fun s => s.trace)
      = some [Event.pushPassthroughBuffer 0 (some [1, 2, 0, 0]) 4,
              Event.receiveBuffer 7 exFront (some [1, 2, 0, 0]) 1] ∧
    exFront.getChannelGroup.getChannelCount = 2 := by
  decide

end Mixxx
